import Mathlib

/-!
# AplikasiPanti: identifier generation, resident intake and transactions

A shallow embedding of `server/server.js` (the Express handlers
`POST /api/residents`, `POST /api/transactions`, `GET /api/transactions`,
`GET /api/records`, `PUT /api/residents/:id/assign-room`, `POST`, `PUT` and
`DELETE /api/rooms`, and the table definitions of `createTables`) and of
`calculateAge` (server and `client/src/utils/helpers.js`).

Conventions of the embedding.

* JavaScript strings are `String`; the text algorithms work on the character
  list `String.data`.
* A JavaScript number on the identifier path is `JSNumber`: `NaN` or an integer.
  JavaScript numbers are IEEE doubles, which represent integers exactly up to
  `2 ^ 53`; statements about generated numbers carry that bound.
* A form field is `Option String`: `none` is `undefined` (field not sent).
* A table is the list of its rows, each paired with its `id` (the
  `INTEGER PRIMARY KEY AUTOINCREMENT` column), together with the counter SQLite
  keeps in `sqlite_sequence`.
-/

namespace AplikasiPanti

/-! ## JavaScript primitives used by the handlers -/

/-- A JavaScript number as it occurs on the identifier path: `NaN` or an integer. -/
inductive JSNumber where
  | nan : JSNumber
  | int (i : Int) : JSNumber
deriving DecidableEq, Repr

/-- The JavaScript expression `x + 1`. -/
def JSNumber.addOne : JSNumber → JSNumber
  | .nan => .nan
  | .int i => .int (i + 1)

/-- The ten decimal digit characters. -/
def decimalDigits : List Char := "0123456789".data

/-- The character of a decimal digit `d < 10`. -/
def digitChar (d : Nat) : Char := Char.ofNat (48 + d)

/-- Decimal digits of `n`, most significant first; `fuel` bounds the recursion. -/
def decimalAux : Nat → Nat → List Char
  | 0, _ => []
  | fuel + 1, n =>
    if n < 10 then [digitChar n] else decimalAux fuel (n / 10) ++ [digitChar (n % 10)]

/-- The decimal numeral of a natural number (`"0"` for zero, no leading zero otherwise). -/
def natToDecimal (n : Nat) : List Char := decimalAux (n + 1) n

/-- The method `Number.prototype.toString()` on `NaN` and on integers. -/
def JSNumber.toJSString : JSNumber → List Char
  | .nan => ['N', 'a', 'N']
  | .int (Int.ofNat n) => natToDecimal n
  | .int (Int.negSucc n) => '-' :: natToDecimal (n + 1)

/-- The method `String.prototype.padStart(width, pad)` with a one-character pad. -/
def padStart (width : Nat) (pad : Char) (s : List Char) : List Char :=
  List.replicate (width - s.length) pad ++ s

/-- The method `String.prototype.split(sep)` with a one-character separator. -/
def splitOn (sep : Char) : List Char → List (List Char)
  | [] => [[]]
  | c :: cs =>
    if c = sep then [] :: splitOn sep cs
    else
      match splitOn sep cs with
      | [] => [[c]]
      | h :: t => (c :: h) :: t

/-- White space skipped by `parseInt` (ECMAScript `StrWhiteSpaceChar`):
TAB, LF, VT, FF, CR, SP, NBSP, the Unicode space separators, LS, PS and ZWNBSP. -/
def isStrWhiteSpaceChar (c : Char) : Bool :=
  let n := c.toNat
  (9 ≤ n && n ≤ 13) || n = 32 || n = 160 || n = 0x1680 || (0x2000 ≤ n && n ≤ 0x200A)
    || n = 0x2028 || n = 0x2029 || n = 0x202F || n = 0x205F || n = 0x3000 || n = 0xFEFF

/-- Value of a character as a digit in radixes up to 36 (`0-9`, `a-z`, `A-Z`). -/
def digitValue (c : Char) : Option Nat :=
  let n := c.toNat
  if 48 ≤ n ∧ n ≤ 57 then some (n - 48)
  else if 97 ≤ n ∧ n ≤ 122 then some (n - 97 + 10)
  else if 65 ≤ n ∧ n ≤ 90 then some (n - 65 + 10)
  else none

/-- Whether `c` is a digit of radix `r`. -/
def isRadixDigit (r : Nat) (c : Char) : Bool :=
  match digitValue c with
  | some v => decide (v < r)
  | none => false

/-- Value of a digit string in radix `r`. -/
def radixValue (r : Nat) (z : List Char) : Nat :=
  z.foldl (fun a c => a * r + (digitValue c).getD 0) 0

/-- Sign step of `parseInt`: a leading `-` makes the result negative, a leading
`+` or `-` is removed. -/
def stripSign : List Char → Bool × List Char
  | [] => (false, [])
  | c :: t => if c = '-' then (true, t) else if c = '+' then (false, t) else (false, c :: t)

/-- Radix step of `parseInt` without a radix argument: `0x` or `0X` selects
radix 16 and is removed, anything else is radix 10. -/
def stripHexPrefix : List Char → Nat × List Char
  | a :: b :: t => if a = '0' ∧ (b = 'x' ∨ b = 'X') then (16, t) else (10, a :: b :: t)
  | s => (10, s)

/-- The function `parseInt(string)` of JavaScript (no radix argument): skip
leading white space, read a sign, read an optional hexadecimal prefix, take the
longest prefix of digits; `NaN` when that prefix is empty. -/
def parseInt (s : List Char) : JSNumber :=
  let signed := stripSign (s.dropWhile isStrWhiteSpaceChar)
  let body := stripHexPrefix signed.2
  let z := body.2.takeWhile (isRadixDigit body.1)
  if z.isEmpty then .nan
  else
    let v : Int := Int.ofNat (radixValue body.1 z)
    .int (if signed.1 then -v else v)

/-- The function `parseInt` applied to an array element that may be `undefined`:
`undefined` is first converted to the string `"undefined"`. -/
def parseIntArg : Option (List Char) → JSNumber
  | none => parseInt "undefined".data
  | some s => parseInt s

/-- SQLite `code LIKE 'lit%'` for a literal `lit` without wildcards: `code`
starts with `lit`, where ASCII letters are compared without regard to case
(the default of SQLite's `LIKE`). -/
def likePrefix : List Char → List Char → Bool
  | [], _ => true
  | _ :: _, [] => false
  | p :: ps, c :: cs => (p.toLower == c.toLower) && likePrefix ps cs

/-! ## Identifier generation (`server.js` lines 243-253 and 322-332) -/

/-- One step of the scan for the greatest `id`: keep the better of the best row
so far and the next row. -/
def lastStep {α : Type} (best : Option (Nat × α)) (r : Nat × α) : Option (Nat × α) :=
  match best with
  | none => some r
  | some b => if b.1 < r.1 then some r else some b

/-- The row `ORDER BY id DESC LIMIT 1` selects: the one with the greatest `id`. -/
def lastById {α : Type} (rows : List (Nat × α)) : Option (Nat × α) :=
  rows.foldl lastStep none

/-- The query `SELECT code FROM t WHERE code LIKE 'P-%' ORDER BY id DESC LIMIT 1`
on the `(id, code)` pairs of a table. -/
def lastCode (pfx : String) (codes : List (Nat × String)) : Option String :=
  (lastById (codes.filter (fun r => likePrefix (pfx.data ++ ['-']) r.2.data))).map (·.2)

/-- The variable `newNumber`: `1` without a previous row, otherwise
`parseInt(code.split('-')[1]) + 1`. -/
def newNumber : Option String → JSNumber
  | none => .int 1
  | some code => (parseIntArg ((splitOn '-' code.data)[1]?)).addOne

/-- The template `${prefix}-${newNumber.toString().padStart(3, '0')}`. -/
def formatId (pfx : String) (n : JSNumber) : String :=
  pfx ++ "-" ++ String.mk (padStart 3 '0' n.toJSString)

/-- The generated identifier for prefix `pfx` over the stored `(id, code)` pairs. -/
def generateId (pfx : String) (codes : List (Nat × String)) : String :=
  formatId pfx (newNumber (lastCode pfx codes))

/-! ## Tables (`createTables`) -/

/-- A table with an `INTEGER PRIMARY KEY AUTOINCREMENT` column: the rows with
their ids, in insertion order, and the largest id ever handed out
(`sqlite_sequence`). -/
structure Table (α : Type) where
  rows : List (Nat × α)
  seq : Nat
deriving DecidableEq, Repr

/-- The greatest id among the stored rows (`0` for an empty table). -/
def Table.maxId {α : Type} (t : Table α) : Nat :=
  t.rows.foldr (fun r m => max r.1 m) 0

/-- The id an `AUTOINCREMENT` insert receives: one more than every id stored or
ever handed out. -/
def Table.nextId {α : Type} (t : Table α) : Nat :=
  max t.seq t.maxId + 1

/-- Appends a row under a fresh id. -/
def Table.insert {α : Type} (t : Table α) (a : α) : Table α :=
  { rows := t.rows ++ [(t.nextId, a)], seq := t.nextId }

/-- The empty table. -/
def Table.empty {α : Type} : Table α := { rows := [], seq := 0 }

/-- Row of `residents` (time stamps omitted). -/
structure ResidentRow where
  resident_id : String
  name : String
  age : Int
  gender : String
  birth_date : String
  birth_place : Option String
  address : Option String
  religion : Option String
  join_date : String
  condition : String
  medical_history : Option String
  allergies : Option String
  smoking : Option String
  alcohol : Option String
  functional_walking : Option String
  functional_eating : Option String
  mental_emotion : Option String
  mental_consciousness : Option String
  photo_path : Option String
  audio_path : Option String
  status : String
  room_id : Option Nat
deriving DecidableEq, Repr

/-- Row of `guardians`. -/
structure GuardianRow where
  resident_id : Nat
  name : String
  id_number : Option String
  email : Option String
  phone : String
  relationship : Option String
  address : Option String
  is_primary : Bool
  emergency_contact : Bool
deriving DecidableEq, Repr

/-- Row of `health_records`; the columns the intake handler never writes
(blood pressure, weight, notes, ...) stay `NULL` and are omitted. -/
structure HealthRow where
  resident_id : Nat
  record_type : String
  hemoglobin : Option String
  leukocyte : Option String
  erythrocyte : Option String
  blood_sugar_random : Option String
  blood_sugar_fasting : Option String
  blood_sugar_two_hour : Option String
  recorded_date : String
  recorded_by : String
deriving DecidableEq, Repr

/-- Row of `medications`; `end_date`, `prescribing_doctor`, `pharmacy` and
`notes` are never written by the intake handler and are omitted. -/
structure MedicationRow where
  resident_id : Nat
  medication_name : String
  dosage : Option String
  schedule : Option String
  status : String
  start_date : String
deriving DecidableEq, Repr

/-- Row of `rooms`. -/
structure RoomRow where
  room_name : String
  room_type : String
  capacity : Int
  current_occupants : Int
  notes : Option String
  status : String
deriving DecidableEq, Repr

/-- Row of `donation_categories`; `type` is `income` or `expense`. -/
structure CategoryRow where
  name : String
  type : String
  description : Option String
deriving DecidableEq, Repr

/-- Row of `transactions` (`recorded_by` is never written and omitted). -/
structure TransactionRow where
  transaction_id : String
  category_id : Nat
  amount : String
  transaction_date : String
  source : Option String
  description : Option String
  payment_method : String
  reference_number : String
  notes : String
  attachment_path : Option String
deriving DecidableEq, Repr

/-- Row of `activity_types`. -/
structure ActivityTypeRow where
  name : String
  category : Option String
  color_code : String
  icon : String
deriving DecidableEq, Repr

/-- Row of `daily_records` (`created_at` omitted). -/
structure DailyRecordRow where
  resident_id : Nat
  activity_type_id : Nat
  record_datetime : String
  condition : String
  notes : String
  recorded_by : Option String
deriving DecidableEq, Repr

/-- Row of `users` (`created_at` omitted); `is_active` defaults to 1. -/
structure UserRow where
  username : String
  password_hash : String
  full_name : String
  role : String
  email : Option String
  phone : Option String
  is_active : Int
  last_login : Option String
deriving DecidableEq, Repr

/-- The database: the tables the handlers read and write. -/
structure Db where
  residents : Table ResidentRow
  guardians : Table GuardianRow
  health_records : Table HealthRow
  medications : Table MedicationRow
  rooms : Table RoomRow
  donation_categories : Table CategoryRow
  transactions : Table TransactionRow
  activity_types : Table ActivityTypeRow
  daily_records : Table DailyRecordRow
  users : Table UserRow
deriving DecidableEq, Repr

/-- The database with every table empty. -/
def Db.empty : Db :=
  { residents := Table.empty, guardians := Table.empty, health_records := Table.empty,
    medications := Table.empty, rooms := Table.empty, donation_categories := Table.empty,
    transactions := Table.empty, activity_types := Table.empty, daily_records := Table.empty,
    users := Table.empty }

/-- The `(id, resident_id)` pairs of `residents`. -/
def Db.residentCodes (db : Db) : List (Nat × String) :=
  db.residents.rows.map (fun r => (r.1, r.2.resident_id))

/-- The `(id, transaction_id)` pairs of `transactions`. -/
def Db.transactionCodes (db : Db) : List (Nat × String) :=
  db.transactions.rows.map (fun r => (r.1, r.2.transaction_id))

/-! ## JavaScript truthiness of form fields -/

/-- A form field is truthy when it was sent and is not the empty string. -/
def truthy : Option String → Bool
  | none => false
  | some s => s != ""

/-- The expression `value || null`. -/
def orNull (v : Option String) : Option String :=
  if truthy v then v else none

/-- The expression `value || fallback` for a string fallback. -/
def orElse (v : Option String) (fallback : String) : String :=
  if truthy v then v.getD fallback else fallback

/-! ## `POST /api/transactions` (`server.js` lines 228-286) -/

/-- The request of `POST /api/transactions`: the multipart fields and the name
multer gave the uploaded `attachment` file, if any. `category_id` is the row id
the field denotes (`none`: not sent). -/
structure TransactionRequest where
  category_id : Option Nat
  amount : Option String
  transaction_date : Option String
  source : Option String
  description : Option String
  payment_method : Option String
  reference_number : Option String
  notes : Option String
  file : Option String

/-- The responses of `POST /api/transactions`: `201` with the new id, code and
attachment path, `400 Invalid category`, `500 Internal server error`. -/
inductive TransactionResponse where
  | created (id : Nat) (transaction_id : String) (attachment_path : Option String)
  | invalidCategory
  | internalError
deriving DecidableEq, Repr

/-- The query `SELECT type FROM donation_categories WHERE id = ?`. -/
def Db.categoryType (db : Db) (category_id : Option Nat) : Option String :=
  match category_id with
  | none => none
  | some c => (db.donation_categories.rows.find? (fun r => r.1 == c)).map (·.2.type)

/-- The values of `CHECK (payment_method IN (...))`. -/
def paymentMethods : List String := ["cash", "transfer", "check", "other"]

/-- The constraints of `transactions` an insert must meet: `transaction_id`
unique, `amount` and `transaction_date` not null, `payment_method` among the
allowed values (`category_id` is checked by the handler's lookup). -/
def transactionInsertOk (db : Db) (code : String) (req : TransactionRequest) : Bool :=
  !(db.transactionCodes.any (fun r => r.2 == code))
    && req.amount.isSome && req.transaction_date.isSome
    && paymentMethods.contains (orElse req.payment_method "cash")

/-- The prefix chosen from the category type. -/
def transactionPrefix (type : String) : String :=
  if type = "income" then "INC" else "EXP"

/-- The row of the `INSERT INTO transactions`. -/
def transactionRow (transactionId : String) (attachmentPath : Option String)
    (req : TransactionRequest) : TransactionRow :=
  { transaction_id := transactionId
    category_id := req.category_id.getD 0
    amount := req.amount.getD ""
    transaction_date := req.transaction_date.getD ""
    source := req.source
    description := req.description
    payment_method := orElse req.payment_method "cash"
    reference_number := orElse req.reference_number ""
    notes := orElse req.notes ""
    attachment_path := attachmentPath }

/-- The handler of `POST /api/transactions`. -/
def createTransaction (req : TransactionRequest) (db : Db) : TransactionResponse × Db :=
  match db.categoryType req.category_id with
  | none => (.invalidCategory, db)
  | some type =>
    let pfx := transactionPrefix type
    let transactionId := generateId pfx db.transactionCodes
    let attachmentPath := req.file.map (fun f => "/uploads/transactions/" ++ f)
    if transactionInsertOk db transactionId req then
      (.created db.transactions.nextId transactionId attachmentPath,
        { db with
          transactions := db.transactions.insert (transactionRow transactionId attachmentPath req) })
    else (.internalError, db)

/-! ## `calculateAge` -/

/-- The local calendar fields of a valid JavaScript `Date`: `getFullYear()`,
`getMonth()` (0 to 11) and `getDate()` (1 to 31). -/
structure JSDate where
  year : Int
  month : Nat
  date : Nat
deriving DecidableEq, Repr

/-- The body shared by both versions of `calculateAge`, for a valid birth date. -/
def ageOn (today birth : JSDate) : Int :=
  let age := today.year - birth.year
  let monthDiff : Int := (today.month : Int) - (birth.month : Int)
  if monthDiff < 0 ∨ (monthDiff = 0 ∧ today.date < birth.date) then age - 1 else age

/-- The server's `calculateAge` (`server.js` lines 300-310); `birth` is
`new Date(birthDate)`, `none` when that is an invalid date, for which every
getter is `NaN` and so is the result. -/
def calculateAge (today : JSDate) (birth : Option JSDate) : JSNumber :=
  match birth with
  | none => .nan
  | some b => .int (ageOn today b)

/-- The result of the client's `calculateAge`: the empty string or a number. -/
inductive ClientAge where
  | blank
  | years (n : Int)
deriving DecidableEq, Repr

/-- The client's `calculateAge` (`helpers.js` lines 2-20): the empty string for a
missing or empty argument and for an invalid date. -/
def clientCalculateAge (today : JSDate) (birthDate : Option String)
    (dateOf : String → Option JSDate) : ClientAge :=
  if truthy birthDate then
    match dateOf (birthDate.getD "") with
    | none => .blank
    | some b => .years (ageOn today b)
  else .blank

/-- Calendar order `a ≤ b` on dates: by year, then month, then day. -/
@[reducible] def JSDate.le (a b : JSDate) : Prop :=
  a.year < b.year ∨ (a.year = b.year ∧ (a.month < b.month ∨ (a.month = b.month ∧ a.date ≤ b.date)))

/-- Calendar order `a < b` on dates. -/
@[reducible] def JSDate.lt (a b : JSDate) : Prop :=
  a.year < b.year ∨ (a.year = b.year ∧ (a.month < b.month ∨ (a.month = b.month ∧ a.date < b.date)))

/-- Whether the month and day of `a` come before those of `b` within a year. -/
@[reducible] def JSDate.monthDayBefore (a b : JSDate) : Prop :=
  a.month < b.month ∨ (a.month = b.month ∧ a.date < b.date)

/-- The same month and day `k` years later. -/
def JSDate.addYears (d : JSDate) (k : Int) : JSDate := { d with year := d.year + k }

/-! ## `POST /api/residents` (`server.js` lines 289-507) -/

/-- An entry of the `guardians` JSON array: an object with optional string
properties; `is_primary` is the truthiness of that property. -/
structure GuardianEntry where
  name : Option String
  id_number : Option String
  email : Option String
  phone : Option String
  relationship : Option String
  address : Option String
  is_primary : Bool
deriving DecidableEq, Repr

/-- An entry of the `medications` JSON array. -/
structure MedicationEntry where
  medication_name : Option String
  dosage : Option String
  schedule : Option String
  status : Option String
deriving DecidableEq, Repr

/-- A form field holding JSON text: not sent or empty, text that `JSON.parse`
rejects, or the parsed value. -/
inductive JsonField (α : Type) where
  | absent
  | malformed
  | parsed (value : α)

/-- The list the handler iterates over: it starts as `[]` and is replaced only
when the field is truthy and `JSON.parse` succeeds. -/
def JsonField.items {α : Type} : JsonField (List α) → List α
  | .absent => []
  | .malformed => []
  | .parsed v => v

/-- The multipart fields of `POST /api/residents`. `room_id` is the room id the
field denotes (`none`: not sent or empty). -/
structure ResidentForm where
  name : Option String
  gender : Option String
  birth_date : Option String
  join_date : Option String
  condition : Option String
  birth_place : Option String
  address : Option String
  religion : Option String
  medical_history : Option String
  allergies : Option String
  smoking : Option String
  alcohol : Option String
  functional_walking : Option String
  functional_eating : Option String
  mental_emotion : Option String
  mental_consciousness : Option String
  room_id : Option Nat
  guardians : JsonField (List GuardianEntry)
  medications : JsonField (List MedicationEntry)
  hemoglobin : Option String
  leukocyte : Option String
  erythrocyte : Option String
  blood_sugar_random : Option String
  blood_sugar_fasting : Option String
  blood_sugar_two_hour : Option String

/-- The request: the form and the names multer gave the uploaded `photo` and
`audio` files, if any. -/
structure ResidentRequest where
  form : ResidentForm
  photo : Option String
  audio : Option String

/-- The clock and the `Date` constructor the handler relies on: today's local
calendar fields, and the fields of `new Date(text)` (`none`: invalid date). -/
structure Clock where
  today : JSDate
  dateOf : String → Option JSDate

/-- The responses of `POST /api/residents`: `201` with id, code, file paths and
computed age; `400` with an error message; `500 Internal server error`. -/
inductive ResidentResponse where
  | created (id : Nat) (resident_id : String) (photo_path audio_path : Option String)
      (age_calculated : Int)
  | badRequest (error : String)
  | internalError
deriving DecidableEq, Repr

/-- The array `requiredFields`. -/
def requiredFields : List String := ["name", "gender", "birth_date", "join_date", "condition"]

/-- The lookup `formData[field]` for the required fields. -/
def ResidentForm.field (f : ResidentForm) (key : String) : Option String :=
  if key = "name" then f.name
  else if key = "gender" then f.gender
  else if key = "birth_date" then f.birth_date
  else if key = "join_date" then f.join_date
  else if key = "condition" then f.condition
  else none

/-- The first required field that is falsy, in the order of `requiredFields`. -/
def firstMissing (f : ResidentForm) : Option String :=
  requiredFields.find? (fun key => !truthy (f.field key))

/-- The values of `CHECK (gender IN (...))`. -/
def genders : List String := ["male", "female"]

/-- The values of `CHECK (condition IN (...))`. -/
def conditions : List String := ["Sehat", "Cukup Sehat", "Kurang Sehat"]

/-- The values of `CHECK (status IN (...))` of `medications`. -/
def medicationStatuses : List String := ["Active", "Completed", "Stopped", "Changed"]

/-- The `INSERT INTO residents` of the handler: `none` when a constraint of the
table rejects the row (`resident_id` unique, `age` not null (SQLite stores `NaN`
as `NULL`), the `CHECK`s on `gender` and `condition`, `room_id` referencing an
existing room), otherwise the new id and the table with the row appended. -/
def insertResident (db : Db) (residentId : String) (age : JSNumber) (req : ResidentRequest) :
    Option (Nat × Db) :=
  let f := req.form
  match age with
  | .nan => none
  | .int a =>
    if !(db.residentCodes.any (fun r => r.2 == residentId))
        && genders.contains (f.gender.getD "")
        && conditions.contains (f.condition.getD "")
        && (match f.room_id with
            | none => true
            | some room => db.rooms.rows.any (fun r => r.1 == room)) then
      let row : ResidentRow :=
        { resident_id := residentId
          name := f.name.getD ""
          age := a
          gender := f.gender.getD ""
          birth_date := f.birth_date.getD ""
          birth_place := orNull f.birth_place
          address := orNull f.address
          religion := orNull f.religion
          join_date := f.join_date.getD ""
          condition := f.condition.getD ""
          medical_history := orNull f.medical_history
          allergies := orNull f.allergies
          smoking := orNull f.smoking
          alcohol := orNull f.alcohol
          functional_walking := orNull f.functional_walking
          functional_eating := orNull f.functional_eating
          mental_emotion := orNull f.mental_emotion
          mental_consciousness := orNull f.mental_consciousness
          photo_path := req.photo.map (fun p => "/uploads/photos/" ++ p)
          audio_path := req.audio.map (fun p => "/uploads/audio/" ++ p)
          status := "Aktif"
          room_id := f.room_id }
      some (db.residents.nextId, { db with residents := db.residents.insert row })
    else none

/-- The guardian row inserted for an entry that passed `guardian.name && guardian.phone`. -/
def guardianRow (residentDbId : Nat) (g : GuardianEntry) : GuardianRow :=
  { resident_id := residentDbId
    name := g.name.getD ""
    id_number := orNull g.id_number
    email := orNull g.email
    phone := g.phone.getD ""
    relationship := orNull g.relationship
    address := orNull g.address
    is_primary := g.is_primary
    emergency_contact := true }

/-- The loop over `guardians`: an entry is inserted when both its name and its
phone are truthy. -/
def insertGuardians (residentDbId : Nat) (gs : List GuardianEntry) (t : Table GuardianRow) :
    Table GuardianRow :=
  gs.foldl
    (fun t g => if truthy g.name && truthy g.phone then t.insert (guardianRow residentDbId g) else t)
    t

/-- The `hematology` row of the intake handler. -/
def hematologyRow (residentDbId : Nat) (f : ResidentForm) : HealthRow :=
  { resident_id := residentDbId, record_type := "hematology"
    hemoglobin := orNull f.hemoglobin, leukocyte := orNull f.leukocyte
    erythrocyte := orNull f.erythrocyte
    blood_sugar_random := none, blood_sugar_fasting := none, blood_sugar_two_hour := none
    recorded_date := f.join_date.getD "", recorded_by := "system" }

/-- The `blood_sugar` row of the intake handler. -/
def bloodSugarRow (residentDbId : Nat) (f : ResidentForm) : HealthRow :=
  { resident_id := residentDbId, record_type := "blood_sugar"
    hemoglobin := none, leukocyte := none, erythrocyte := none
    blood_sugar_random := orNull f.blood_sugar_random
    blood_sugar_fasting := orNull f.blood_sugar_fasting
    blood_sugar_two_hour := orNull f.blood_sugar_two_hour
    recorded_date := f.join_date.getD "", recorded_by := "system" }

/-- The two conditional inserts into `health_records`. -/
def insertHealthRecords (residentDbId : Nat) (f : ResidentForm) (t : Table HealthRow) :
    Table HealthRow :=
  let t1 :=
    if truthy f.hemoglobin || truthy f.leukocyte || truthy f.erythrocyte then
      t.insert (hematologyRow residentDbId f)
    else t
  if truthy f.blood_sugar_random || truthy f.blood_sugar_fasting
      || truthy f.blood_sugar_two_hour then
    t1.insert (bloodSugarRow residentDbId f)
  else t1

/-- The loop over `medications`: an entry with a truthy name is inserted with
status `medication.status || 'Active'`; `none` when the `CHECK` on `status`
rejects a row. -/
def insertMedications (residentDbId : Nat) (joinDate : String) :
    List MedicationEntry → Table MedicationRow → Option (Table MedicationRow)
  | [], t => some t
  | m :: ms, t =>
    if truthy m.medication_name then
      if medicationStatuses.contains (orElse m.status "Active") then
        insertMedications residentDbId joinDate ms
          (t.insert
            { resident_id := residentDbId
              medication_name := m.medication_name.getD ""
              dosage := orNull m.dosage
              schedule := orNull m.schedule
              status := orElse m.status "Active"
              start_date := joinDate })
      else none
    else insertMedications residentDbId joinDate ms t

/-- The statements between `BEGIN TRANSACTION` and `COMMIT`: `none` when one of
them throws, otherwise the new resident's id and the database to commit. -/
def residentWrites (db : Db) (residentId : String) (age : JSNumber) (req : ResidentRequest) :
    Option (Nat × Db) :=
  match insertResident db residentId age req with
  | none => none
  | some (residentDbId, db1) =>
    let guardians := insertGuardians residentDbId req.form.guardians.items db1.guardians
    let health := insertHealthRecords residentDbId req.form db1.health_records
    match insertMedications residentDbId (req.form.join_date.getD "")
        req.form.medications.items db1.medications with
    | none => none
    | some meds =>
      some (residentDbId,
        { db1 with guardians := guardians, health_records := health, medications := meds })

/-- The handler of `POST /api/residents`: validation, identifier generation,
age, then the transaction; a failure inside it rolls back to the database as
it was and answers `500`. -/
def createResident (clock : Clock) (req : ResidentRequest) (db : Db) : ResidentResponse × Db :=
  match firstMissing req.form with
  | some field => (.badRequest ("Field " ++ field ++ " harus diisi"), db)
  | none =>
    let residentId := generateId "R" db.residentCodes
    let age := calculateAge clock.today (clock.dateOf (req.form.birth_date.getD ""))
    match residentWrites db residentId age req, age with
    | some (residentDbId, db'), .int a =>
      (.created residentDbId residentId
          (req.photo.map (fun p => "/uploads/photos/" ++ p))
          (req.audio.map (fun p => "/uploads/audio/" ++ p)) a, db')
    | _, _ => (.internalError, db)

/-! ## Sequential runs -/

/-- Requests to `POST /api/residents` handled one after another, each with the
clock at its arrival; the responses in order and the final database. -/
def createResidents : List (Clock × ResidentRequest) → Db → List ResidentResponse × Db
  | [], db => ([], db)
  | (clock, req) :: rest, db =>
    let step := createResident clock req db
    let tail := createResidents rest step.2
    (step.1 :: tail.1, tail.2)

/-- Whether a response is `201 Created`. -/
def ResidentResponse.isCreated : ResidentResponse → Bool
  | .created _ _ _ _ _ => true
  | _ => false

/-- The `resident_id` of a `201` response. -/
def ResidentResponse.code? : ResidentResponse → Option String
  | .created _ code _ _ _ => some code
  | _ => none

/-! ## Uploaded files (`server.js` lines 15-55 and 485-498) -/

/-- The files on disk, as paths relative to the server directory. The process is
taken to run in that directory: multer resolves its destination against the
working directory, the clean-up and the static file server against `__dirname`. -/
abbrev Files := List String

/-- The call `fs.unlinkSync(path)`: `none` when the file does not exist (the call
throws), otherwise the files without it. -/
def unlinkSync (files : Files) (path : String) : Option Files :=
  if path ∈ files then some (files.filter (fun f => f != path)) else none

/-- Where multer stores an uploaded `photo` (`file.path`). -/
def photoFile (filename : String) : String := "public/uploads/photos/" ++ filename

/-- Where multer stores an uploaded `audio` (`file.path`). -/
def audioFile (filename : String) : String := "public/uploads/audio/" ++ filename

/-- The clean-up of the `catch` block: unlink the photo, then the audio; an
unlink that throws leaves the later one undone. -/
def cleanupUploads (req : ResidentRequest) (files : Files) : Files :=
  match req.photo with
  | some p =>
    match unlinkSync files (photoFile p) with
    | none => files
    | some files1 =>
      match req.audio with
      | some a => (unlinkSync files1 (audioFile a)).getD files1
      | none => files1
  | none =>
    match req.audio with
    | some a => (unlinkSync files (audioFile a)).getD files
    | none => files

/-- The files after `POST /api/residents`: the clean-up runs exactly when a
statement between `BEGIN TRANSACTION` and `COMMIT` throws. -/
def createResidentFiles (clock : Clock) (req : ResidentRequest) (db : Db) (files : Files) :
    Files :=
  match firstMissing req.form with
  | some _ => files
  | none =>
    match residentWrites db (generateId "R" db.residentCodes)
        (calculateAge clock.today (clock.dateOf (req.form.birth_date.getD ""))) req with
    | some _ => files
    | none => cleanupUploads req files

/-! ## Rooms (`server.js` lines 1238-1354) -/

/-- The statement `UPDATE t SET ... WHERE id = ?`: every row with that id is
changed by `f`. -/
def Table.update {α : Type} (t : Table α) (id : Nat) (f : α → α) : Table α :=
  { t with rows := t.rows.map (fun r => if r.1 = id then (r.1, f r.2) else r) }

/-- The statement `DELETE FROM t WHERE id = ?`. -/
def Table.delete {α : Type} (t : Table α) (id : Nat) : Table α :=
  { t with rows := t.rows.filter (fun r => r.1 != id) }

/-- Whether a row with the given id exists. -/
def Table.has {α : Type} (t : Table α) (id : Nat) : Bool :=
  t.rows.any (fun r => r.1 == id)

/-- The query `SELECT COUNT(*) FROM residents WHERE room_id = ?`. -/
def Db.occupants (db : Db) (room : Nat) : Nat :=
  (db.residents.rows.filter (fun r => r.2.room_id == some room)).length

/-- The body of `PUT /api/residents/:id/assign-room`: the resident id of the path
and the rooms the body names; `none` is a falsy value (absent, `null`, `0`, `""`). -/
structure AssignRoomRequest where
  id : Nat
  room_id : Option Nat
  previous_room_id : Option Nat
deriving DecidableEq, Repr

/-- The responses of `PUT /api/residents/:id/assign-room`: `200` with a message,
`500 Internal server error`. -/
inductive AssignRoomResponse where
  | ok (message : String)
  | internalError
deriving DecidableEq, Repr

/-- The statement `UPDATE rooms SET current_occupants = current_occupants + d
WHERE id = ?`, skipped when the room is not named. -/
def adjustOccupants (rooms : Table RoomRow) (room : Option Nat) (d : Int) : Table RoomRow :=
  match room with
  | none => rooms
  | some r => rooms.update r (fun row => { row with current_occupants := row.current_occupants + d })

/-- The handler of `PUT /api/residents/:id/assign-room`: decrement the previous
room, set the resident's room, increment the new room. The middle statement
violates the foreign key, and the transaction is rolled back, when it changes a
resident row to a room that does not exist. -/
def assignRoom (req : AssignRoomRequest) (db : Db) : AssignRoomResponse × Db :=
  let rooms1 := adjustOccupants db.rooms req.previous_room_id (-1)
  if db.residents.has req.id
      && (match req.room_id with
          | none => false
          | some r => !(db.rooms.has r)) then
    (.internalError, db)
  else
    let residents1 := db.residents.update req.id (fun row => { row with room_id := req.room_id })
    let rooms2 := adjustOccupants rooms1 req.room_id 1
    (.ok (if req.room_id.isSome then "Room assigned successfully"
        else "Room assignment removed successfully"),
      { db with residents := residents1, rooms := rooms2 })

/-- The body of `POST /api/rooms` and `PUT /api/rooms/:id`. -/
structure RoomRequest where
  room_name : Option String
  room_type : Option String
  capacity : Option Int
  notes : Option String
  status : Option String
deriving DecidableEq, Repr

/-- The responses of the room handlers: success (`201` with the new id for a
creation, `200` otherwise), `400` (room has residents), `404 Room not found`,
`500 Internal server error`. -/
inductive RoomResponse where
  | created (id : Nat)
  | ok
  | conflict
  | notFound
  | internalError
deriving DecidableEq, Repr

/-- The values of `CHECK (room_type IN (...))`. -/
def roomTypes : List String := ["private", "shared", "special"]

/-- The values of `CHECK (status IN (...))` of `rooms`. -/
def roomStatuses : List String := ["available", "occupied", "maintenance", "reserved"]

/-- The constraints of `rooms` on the values a request writes into the row with
id `self` (`none` for a new row): `room_name` not null and unique, `room_type`
not null and allowed, `capacity` not null, `status` allowed. -/
def roomValuesOk (db : Db) (self : Option Nat) (req : RoomRequest) (status : String) : Bool :=
  (match req.room_name with
    | none => false
    | some n => !(db.rooms.rows.any (fun r => r.2.room_name == n && some r.1 != self)))
    && (match req.room_type with
        | none => false
        | some t => roomTypes.contains t)
    && req.capacity.isSome && roomStatuses.contains status

/-- The handler of `POST /api/rooms`; the counter and the status take their
column defaults `0` and `available`. -/
def createRoom (req : RoomRequest) (db : Db) : RoomResponse × Db :=
  if roomValuesOk db none req "available" then
    (.created db.rooms.nextId,
      { db with
        rooms := db.rooms.insert
          { room_name := req.room_name.getD "", room_type := req.room_type.getD ""
            capacity := req.capacity.getD 0, current_occupants := 0
            notes := some (orElse req.notes ""), status := "available" } })
  else (.internalError, db)

/-- The handler of `PUT /api/rooms/:id`. -/
def updateRoom (id : Nat) (req : RoomRequest) (db : Db) : RoomResponse × Db :=
  if db.rooms.has id then
    if roomValuesOk db (some id) req (orElse req.status "available") then
      (.ok,
        { db with
          rooms := db.rooms.update id (fun row =>
            { row with
              room_name := req.room_name.getD "", room_type := req.room_type.getD ""
              capacity := req.capacity.getD 0, notes := some (orElse req.notes "")
              status := orElse req.status "available" }) })
    else (.internalError, db)
  else (.notFound, db)

/-- The handler of `DELETE /api/rooms/:id`: refused while a resident references
the room. -/
def deleteRoom (id : Nat) (db : Db) : RoomResponse × Db :=
  if 0 < db.occupants id then (.conflict, db)
  else if db.rooms.has id then (.ok, { db with rooms := db.rooms.delete id })
  else (.notFound, db)

/-- Every room's stored `current_occupants` equals the number of residents that
reference the room. -/
@[reducible] def Db.occupancyHolds (db : Db) : Prop :=
  ∀ r ∈ db.rooms.rows, r.2.current_occupants = Int.ofNat (db.occupants r.1)

/-- What the schema enforces on residents: ids are unique (primary key) and a
room reference names an existing room (foreign key). -/
@[reducible] def Db.keysHold (db : Db) : Prop :=
  (db.residents.rows.map (·.1)).Nodup
    ∧ ∀ r ∈ db.residents.rows, ∀ room ∈ r.2.room_id, db.rooms.has room = true

/-- The net change `assignRoom` makes to a room row: minus one when it is the
previous room, plus one when it is the new room. -/
def shiftOccupants (req : AssignRoomRequest) (r : Nat × RoomRow) : Nat × RoomRow :=
  (r.1,
    { r.2 with
      current_occupants :=
        r.2.current_occupants + (if req.previous_room_id = some r.1 then -1 else 0)
          + (if req.room_id = some r.1 then 1 else 0) })

/-- The change `assignRoom` makes to a resident row: the room reference of the
resident named by the request becomes the new room. -/
def moveResident (req : AssignRoomRequest) (r : Nat × ResidentRow) : Nat × ResidentRow :=
  if r.1 = req.id then (r.1, { r.2 with room_id := req.room_id }) else r

/-- Whether the statement `UPDATE residents SET room_id = ?` violates the foreign
key: the resident exists and the new room is named but does not exist. -/
def assignRoomRejected (req : AssignRoomRequest) (db : Db) : Bool :=
  db.residents.has req.id
    && (match req.room_id with
        | none => false
        | some r => !(db.rooms.has r))

/-- Whether a response of `assignRoom` is `200`. -/
def AssignRoomResponse.isOk : AssignRoomResponse → Bool
  | .ok _ => true
  | .internalError => false

/-! ## Sequences of room and intake requests -/

/-- A request to one of the handlers that write room references or rooms:
`createResident`, `assignRoom`, `createRoom`, `updateRoom`, `deleteRoom`. -/
inductive RoomOp where
  | intake (clock : Clock) (req : ResidentRequest)
  | assign (req : AssignRoomRequest)
  | addRoom (req : RoomRequest)
  | editRoom (id : Nat) (req : RoomRequest)
  | removeRoom (id : Nat)

/-- The database after a request has been handled. -/
def RoomOp.apply : RoomOp → Db → Db
  | .intake clock req, db => (createResident clock req db).2
  | .assign req, db => (assignRoom req db).2
  | .addRoom req, db => (createRoom req db).2
  | .editRoom id req, db => (updateRoom id req db).2
  | .removeRoom id, db => (deleteRoom id db).2

/-- The database after a list of requests handled one after another. -/
def runOps : List RoomOp → Db → Db
  | [], db => db
  | op :: rest, db => runOps rest (op.apply db)

/-- Whether an assignment request tells the truth about the state: the resident
exists and `previous_room_id` is the resident's current room reference. -/
def assignRoomHonest (req : AssignRoomRequest) (db : Db) : Bool :=
  db.residents.rows.any (fun r => r.1 == req.id && r.2.room_id == req.previous_room_id)

/-- The requests under which the counters are kept in step: an intake names no
room, an assignment is honest; room creation, update and deletion are
unrestricted. -/
def RoomOp.keepsCount : RoomOp → Db → Bool
  | .intake _ req, _ => req.form.room_id.isNone
  | .assign req, db => assignRoomHonest req db
  | _, _ => true

/-- Whether every request of a list keeps the counters in step in the state it
is handled in. -/
def opsKeepCount : List RoomOp → Db → Bool
  | [], _ => true
  | op :: rest, db => op.keepsCount db && opsKeepCount rest (op.apply db)

/-! ## Listings (`server.js` lines 186-225 and 1387-1451) -/

/-- SQLite's comparison `a <= b` of two texts under the default `BINARY`
collation: byte-wise on UTF-8, which is the lexicographic order of the
characters. -/
@[reducible] def textLe (a b : String) : Prop := a.data ≤ b.data

/-- The clause `ORDER BY key DESC` on texts; rows with equal keys stay in the
order of the scan (SQL leaves their order open). -/
def sortDescBy {α : Type} (key : α → String) (l : List α) : List α :=
  l.insertionSort (fun a b => textLe (key b) (key a))

/-- The query parameters of `GET /api/transactions`; `category_id` is the id the
parameter denotes. -/
structure TransactionQuery where
  type : Option String
  month : Option String
  category_id : Option Nat
deriving DecidableEq, Repr

/-- A row of the answer of `GET /api/transactions`: the transaction with its id,
and `category_name` and `transaction_type` of its category. -/
structure TransactionListing where
  id : Nat
  row : TransactionRow
  category_name : String
  transaction_type : String
deriving DecidableEq, Repr

/-- The clause `FROM transactions t JOIN donation_categories dc ON t.category_id
= dc.id`; `dc.id` is the primary key, so a transaction joins with at most one
category. -/
def joinCategories (db : Db) : List TransactionListing :=
  db.transactions.rows.filterMap (fun t =>
    (db.donation_categories.rows.find? (fun c => c.1 == t.2.category_id)).map (fun c =>
      { id := t.1, row := t.2, category_name := c.2.name, transaction_type := c.2.type }))

/-- The `WHERE` clause built from the query: each condition is added only for a
truthy parameter. `yearMonth` is SQLite's `strftime('%Y-%m', text)`, `none` when
it yields `NULL`. -/
def transactionMatches (yearMonth : String → Option String) (q : TransactionQuery)
    (x : TransactionListing) : Bool :=
  (if truthy q.type then some x.transaction_type == q.type else true)
    && (if truthy q.month then yearMonth x.row.transaction_date == q.month else true)
    && (match q.category_id with
        | none => true
        | some c => x.row.category_id == c)

/-- The handler of `GET /api/transactions`. -/
def listTransactions (yearMonth : String → Option String) (q : TransactionQuery) (db : Db) :
    List TransactionListing :=
  sortDescBy (fun x => x.row.transaction_date)
    ((joinCategories db).filter (transactionMatches yearMonth q))

/-- The query parameters of `GET /api/records`; the ids are the ids the
parameters denote. -/
structure RecordQuery where
  resident_id : Option Nat
  date_from : Option String
  date_to : Option String
  activity_type_id : Option Nat
deriving DecidableEq, Repr

/-- A row of the answer of `GET /api/records`: the daily record with its id, the
resident's name, gender and `Opa`/`Oma`, and name, icon and colour of the
activity type (`NULL` when the left join finds none). -/
structure RecordListing where
  id : Nat
  row : DailyRecordRow
  resident_name : String
  gender : String
  resident_type : String
  activity_name : Option String
  activity_icon : Option String
  activity_color : Option String
deriving DecidableEq, Repr

/-- The clause `FROM daily_records dr JOIN residents r ON dr.resident_id = r.id
LEFT JOIN activity_types at ON dr.activity_type_id = at.id`. -/
def joinRecords (db : Db) : List RecordListing :=
  db.daily_records.rows.filterMap (fun dr =>
    (db.residents.rows.find? (fun r => r.1 == dr.2.resident_id)).map (fun r =>
      let activity := db.activity_types.rows.find? (fun a => a.1 == dr.2.activity_type_id)
      { id := dr.1, row := dr.2, resident_name := r.2.name, gender := r.2.gender
        resident_type := if r.2.gender = "male" then "Opa" else "Oma"
        activity_name := activity.map (·.2.name)
        activity_icon := activity.map (·.2.icon)
        activity_color := activity.map (·.2.color_code) }))

/-- The `WHERE` clause built from the query, which reads columns of
`daily_records` only. `dateOf` is SQLite's `DATE(text)`, `none` when it yields
`NULL` (a comparison with `NULL` is not true). -/
def recordMatches (dateOf : String → Option String) (q : RecordQuery) (row : DailyRecordRow) :
    Bool :=
  (match q.resident_id with
    | none => true
    | some r => row.resident_id == r)
    && (if truthy q.date_from then
          match dateOf row.record_datetime with
          | none => false
          | some d => decide (textLe (q.date_from.getD "") d)
        else true)
    && (if truthy q.date_to then
          match dateOf row.record_datetime with
          | none => false
          | some d => decide (textLe d (q.date_to.getD ""))
        else true)
    && (match q.activity_type_id with
        | none => true
        | some a => row.activity_type_id == a)

/-- The handler of `GET /api/records`. -/
def listDailyRecords (dateOf : String → Option String) (q : RecordQuery) (db : Db) :
    List RecordListing :=
  sortDescBy (fun x => x.row.record_datetime)
    ((joinRecords db).filter (fun x => recordMatches dateOf q x.row))

/-! ## Resident listing (`server.js` lines 142-185) -/

/-- Whether `f` holds of some suffix of the text (the text itself and the empty
suffix included). -/
def anySuffix (f : List Char → Bool) : List Char → Bool
  | [] => f []
  | c :: cs => f (c :: cs) || anySuffix f cs

/-- SQLite's `text LIKE pattern` without `ESCAPE`: `%` matches any run of
characters, `_` any single character, any other character itself, ASCII letters
without regard to case. The pattern comes first. -/
def likeMatch : List Char → List Char → Bool
  | [], s => s.isEmpty
  | p :: ps, s =>
    if p = '%' then anySuffix (likeMatch ps) s
    else
      match s with
      | [] => false
      | c :: cs => (p == '_' || p.toLower == c.toLower) && likeMatch ps cs

/-- The clause `ORDER BY key` (ascending) on texts; rows with equal keys stay in
the order of the scan. -/
def sortAscBy {α : Type} (key : α → String) (l : List α) : List α :=
  l.insertionSort (fun a b => textLe (key a) (key b))

/-- The query parameters of `GET /api/residents`. -/
structure ResidentQuery where
  search : Option String
  status : Option String
  type : Option String
deriving DecidableEq, Repr

/-- A row of the answer of `GET /api/residents`: the resident with its id, and
name, type and status of its room (`NULL` when the left join finds none). -/
structure ResidentListing where
  id : Nat
  row : ResidentRow
  room_name : Option String
  room_type : Option String
  room_status : Option String
deriving DecidableEq, Repr

/-- The clause `FROM residents r LEFT JOIN rooms rm ON r.room_id = rm.id`. -/
def joinRooms (db : Db) : List ResidentListing :=
  db.residents.rows.map (fun r =>
    let room := r.2.room_id.bind (fun id => db.rooms.rows.find? (fun rm => rm.1 == id))
    { id := r.1, row := r.2, room_name := room.map (·.2.room_name)
      room_type := room.map (·.2.room_type), room_status := room.map (·.2.status) })

/-- The condition `text LIKE '%search%'`. -/
def likeContains (search text : String) : Bool :=
  likeMatch ('%' :: search.data ++ ['%']) text.data

/-- The `WHERE` clause built from the query, which reads columns of `residents`
only: each condition is added for a truthy parameter; a truthy `type` other than
`Opa` selects `female`. -/
def residentMatches (q : ResidentQuery) (row : ResidentRow) : Bool :=
  (if truthy q.status then some row.status == q.status else true)
    && (if truthy q.type then row.gender == (if q.type = some "Opa" then "male" else "female")
        else true)
    && (if truthy q.search then
          likeContains (q.search.getD "") row.name
            || likeContains (q.search.getD "") row.resident_id
        else true)

/-- The handler of `GET /api/residents`. -/
def listResidents (q : ResidentQuery) (db : Db) : List ResidentListing :=
  sortAscBy (fun x => x.row.name) ((joinRooms db).filter (fun x => residentMatches q x.row))

/-! ## Deleting a transaction (`server.js` lines 1800-1842) -/

/-- Answers of `DELETE /api/transactions/:id`: 200 with `deleted_id` and
`transaction_id`, 404, 500. -/
inductive DeleteTransactionResponse where
  | ok (deleted_id : Nat) (transaction_id : String)
  | notFound
  | internalError
deriving DecidableEq, Repr

/-- The call `fs.existsSync(path)` on the regular files of the server directory. -/
def existsSync (files : Files) (path : String) : Bool := decide (path ∈ files)

/-- The handler of `DELETE /api/transactions/:id`. `pathJoin a b` stands for
`path.join(__dirname, a, b)` read relative to the server directory. The row is
selected, then deleted; a truthy `attachment_path` is unlinked when the file
exists. -/
def deleteTransaction (pathJoin : String → String → String) (id : Nat) (db : Db)
    (files : Files) : DeleteTransactionResponse × Db × Files :=
  match db.transactions.rows.find? (fun t => t.1 == id) with
  | none => (.notFound, db, files)
  | some transaction =>
    let db1 := { db with transactions := db.transactions.delete id }
    let changes := db.transactions.rows.length - db1.transactions.rows.length
    if changes = 0 then (.notFound, db1, files)
    else if truthy transaction.2.attachment_path
        && existsSync files (pathJoin "public" (transaction.2.attachment_path.getD "")) then
      match unlinkSync files (pathJoin "public" (transaction.2.attachment_path.getD "")) with
      | some files1 => (.ok id transaction.2.transaction_id, db1, files1)
      | none => (.internalError, db1, files)
    else (.ok id transaction.2.transaction_id, db1, files)

/-! ## Creating a daily record (`server.js` lines 1453-1486) -/

/-- The JSON body of `POST /api/records`; a field that was not sent is `none`. -/
structure RecordRequest where
  resident_id : Option Nat
  activity_type_id : Option Nat
  record_datetime : Option String
  condition : Option String
  notes : Option String
  recorded_by : Option String
deriving DecidableEq, Repr

/-- Answers of `POST /api/records`: 201 with the new id, 500. -/
inductive RecordResponse where
  | created (id : Nat)
  | internalError
deriving DecidableEq, Repr

/-- The `length` of a JavaScript string: the number of UTF-16 code units. -/
def utf16Length (s : String) : Nat :=
  (s.data.map (fun c => if c.val.toNat < 65536 then 1 else 2)).sum

/-- The time stamp after the handler's first statement: a truthy value of length
16 gets `:00` appended. -/
def withSeconds (record_datetime : Option String) : Option String :=
  if truthy record_datetime && utf16Length (record_datetime.getD "") == 16 then
    record_datetime.map (fun s => s ++ ":00")
  else record_datetime

/-- The allowed values of `daily_records.condition`. -/
def recordConditions : List String := ["Baik", "Cukup Baik", "Kurang Baik"]

/-- The constraints of `daily_records` an insert must meet: the five columns not
null, `condition` among the allowed values, and both references existing. -/
def recordInsertOk (db : Db) (req : RecordRequest) : Bool :=
  (match req.resident_id with
    | some r => db.residents.has r
    | none => false)
    && (match req.activity_type_id with
        | some a => db.activity_types.has a
        | none => false)
    && (withSeconds req.record_datetime).isSome
    && (match req.condition with
        | some c => recordConditions.contains c
        | none => false)
    && req.notes.isSome

/-- The row of the `INSERT INTO daily_records`. -/
def recordRow (req : RecordRequest) : DailyRecordRow :=
  { resident_id := req.resident_id.getD 0
    activity_type_id := req.activity_type_id.getD 0
    record_datetime := (withSeconds req.record_datetime).getD ""
    condition := req.condition.getD ""
    notes := req.notes.getD ""
    recorded_by := some (orElse req.recorded_by "System") }

/-- The handler of `POST /api/records`: it inserts what it was sent; a statement
that violates the schema throws and is answered 500. -/
def createDailyRecord (req : RecordRequest) (db : Db) : RecordResponse × Db :=
  if recordInsertOk db req then
    (.created db.daily_records.nextId,
      { db with daily_records := db.daily_records.insert (recordRow req) })
  else (.internalError, db)

/-! ## Deleting a user (`server.js` lines 1614-1638) -/

/-- Answers of `DELETE /api/users/:id`: 200, 400 `Cannot delete main admin
account`, 404. -/
inductive DeleteUserResponse where
  | ok
  | cannotDeleteAdmin
  | notFound
deriving DecidableEq, Repr

/-- The handler of `DELETE /api/users/:id`. The route parameter is a text; the
guard compares it with the text `1`. `toRowid` stands for the conversion SQLite
applies to the text bound in `WHERE id = ?` against the integer key column: the
row id the text denotes, `none` when it denotes no stored kind of id (then no
row matches). -/
def deleteUser (toRowid : String → Option Nat) (id : String) (db : Db) :
    DeleteUserResponse × Db :=
  if id = "1" then (.cannotDeleteAdmin, db)
  else
    let db1 :=
      match toRowid id with
      | some n => { db with users := db.users.delete n }
      | none => db
    let changes := db.users.rows.length - db1.users.rows.length
    if changes = 0 then (.notFound, db1) else (.ok, db1)

/-- The client's `handleDeleteUser` (`UserManagement.js` lines 194-205, the
confirmation dialogue taken as accepted): it compares the numeric id of the
listed user with the number `1` and otherwise sends the request, the id
written in decimal. -/
def handleDeleteUser (toRowid : String → Option Nat) (id : Nat) (db : Db) : Db :=
  if id = 1 then db else (deleteUser toRowid (String.mk (natToDecimal id)) db).2

/-! ## Creating a user (`server.js` lines 1575-1612) -/

/-- The JSON body of `POST /api/users`; a field that was not sent is `none`. -/
structure UserRequest where
  username : Option String
  password : Option String
  full_name : Option String
  role : Option String
  email : Option String
  phone : Option String
deriving DecidableEq, Repr

/-- The columns the handler selects for its answer (`created_at` omitted). -/
structure UserView where
  id : Nat
  username : String
  full_name : String
  role : String
  email : Option String
  phone : Option String
  is_active : Int
deriving DecidableEq, Repr

/-- The keys of the 201 body: the selected columns and `message`. -/
def userResponseKeys : List String :=
  ["id", "username", "full_name", "role", "email", "phone", "is_active", "created_at",
    "message"]

/-- Answers of `POST /api/users`: 201 with the selected columns under the given
keys, 400 `Username already exists`, 500. -/
inductive UserResponse where
  | created (user : UserView) (keys : List String)
  | usernameExists
  | internalError
deriving DecidableEq, Repr

/-- The allowed values of `users.role`. -/
def userRoles : List String := ["admin", "staff", "doctor", "nurse"]

/-- The query `SELECT id FROM users WHERE username = ?`; a missing username is
bound as `NULL` and equals nothing. -/
def Db.usernameTaken (db : Db) (username : Option String) : Bool :=
  match username with
  | some u => db.users.rows.any (fun r => r.2.username == u)
  | none => false

/-- The constraints of `users` the insert must meet once the username is known
to be free: `username` and `full_name` not null, `role` among the allowed
values. -/
def userInsertOk (req : UserRequest) : Bool :=
  req.username.isSome && req.full_name.isSome
    && (match req.role with
        | some r => userRoles.contains r
        | none => false)

/-- The row of the `INSERT INTO users`; `is_active` takes its default. -/
def userRow (hashedPassword : String) (req : UserRequest) : UserRow :=
  { username := req.username.getD "", password_hash := hashedPassword
    full_name := req.full_name.getD "", role := req.role.getD ""
    email := req.email, phone := req.phone, is_active := 1, last_login := none }

/-- The columns selected from a stored user. -/
def userView (id : Nat) (row : UserRow) : UserView :=
  { id := id, username := row.username, full_name := row.full_name, role := row.role
    email := row.email, phone := row.phone, is_active := row.is_active }

/-- The handler of `POST /api/users`. `hash` stands for `bcrypt.hash(·, 10)`,
which throws when no password was sent. -/
def createUser (hash : String → String) (req : UserRequest) (db : Db) : UserResponse × Db :=
  if db.usernameTaken req.username then (.usernameExists, db)
  else
    match req.password with
    | none => (.internalError, db)
    | some password =>
      if userInsertOk req then
        (.created (userView db.users.nextId (userRow (hash password) req)) userResponseKeys,
          { db with users := db.users.insert (userRow (hash password) req) })
      else (.internalError, db)

/-! ## Default data (`server.js` lines 783-880) -/

/-- The statement `INSERT OR IGNORE INTO t` for a row that meets every constraint
except, possibly, the `UNIQUE` one on `key`: with the key stored the row is
skipped. Whether a skipped row still advances the `AUTOINCREMENT` sequence is
left to `advances`. -/
def insertOrIgnore {α : Type} (advances : Bool) (key : α → String) (t : Table α) (a : α) :
    Table α :=
  if t.rows.any (fun r => key r.2 == key a) then
    if advances then { t with seq := t.nextId } else t
  else t.insert a

/-- The array `activityTypes`. -/
def activityTypes : List ActivityTypeRow :=
  [ { name := "Kegiatan Rutin", category := some "routine", color_code := "#007bff"
      icon := "fa-calendar-check" },
    { name := "Konsumsi Obat", category := some "medical", color_code := "#dc3545"
      icon := "fa-pills" },
    { name := "Pemeriksaan Medis", category := some "medical", color_code := "#17a2b8"
      icon := "fa-stethoscope" },
    { name := "Kunjungan Keluarga", category := some "visit", color_code := "#28a745"
      icon := "fa-users" },
    { name := "Kegiatan Khusus", category := some "special", color_code := "#ffc107"
      icon := "fa-star" },
    { name := "Makan", category := some "routine", color_code := "#fd7e14"
      icon := "fa-utensils" },
    { name := "Istirahat", category := some "routine", color_code := "#6f42c1"
      icon := "fa-bed" },
    { name := "Fisioterapi", category := some "medical", color_code := "#20c997"
      icon := "fa-hands-helping" },
    { name := "Konseling", category := some "medical", color_code := "#e83e8c"
      icon := "fa-comments" } ]

/-- The array `donationCategories`. -/
def donationCategories : List CategoryRow :=
  [ { name := "Donasi Umum", type := "income", description := some "Donasi dari masyarakat umum" },
    { name := "Donasi Keluarga", type := "income"
      description := some "Donasi dari keluarga penghuni" },
    { name := "Donasi Yayasan", type := "income"
      description := some "Donasi dari yayasan/organisasi" },
    { name := "Donasi Perusahaan", type := "income", description := some "Donasi dari perusahaan" },
    { name := "Bantuan Pemerintah", type := "income"
      description := some "Bantuan dari pemerintah" },
    { name := "Lainnya (Pemasukan)", type := "income", description := some "Pemasukan lainnya" },
    { name := "Medis & Obat-obatan", type := "expense"
      description := some "Biaya pengobatan dan obat" },
    { name := "Makanan & Konsumsi", type := "expense"
      description := some "Biaya makanan sehari-hari" },
    { name := "Gaji Staff", type := "expense", description := some "Gaji pegawai dan perawat" },
    { name := "Utilitas", type := "expense", description := some "Listrik, air, gas, internet" },
    { name := "Perawatan Gedung", type := "expense"
      description := some "Perbaikan dan perawatan" },
    { name := "Transportasi", type := "expense", description := some "Biaya transportasi" },
    { name := "Administrasi", type := "expense", description := some "Biaya administrasi" },
    { name := "Lainnya (Pengeluaran)", type := "expense"
      description := some "Pengeluaran lainnya" } ]

/-- A row of `defaultRooms` as it is inserted: `notes || ''`, the counter and the
status at their column defaults. -/
def defaultRoom (room_name room_type : String) (capacity : Int) (notes : String) : RoomRow :=
  { room_name := room_name, room_type := room_type, capacity := capacity
    current_occupants := 0, notes := some (orElse (some notes) ""), status := "available" }

/-- The array `defaultRooms`. -/
def defaultRooms : List RoomRow :=
  [ defaultRoom "Merpati" "private" 1 "Kamar dengan AC dan kamar mandi dalam",
    defaultRoom "Kakatua" "private" 1 "Kamar dengan jendela besar dan taman view",
    defaultRoom "Elang" "private" 1 "Kamar untuk lansia dengan kebutuhan khusus",
    defaultRoom "Kenari" "shared" 2 "Kamar bersama dengan 2 tempat tidur",
    defaultRoom "Cendrawasih" "shared" 2 "Kamar bersama dengan fasilitas lengkap",
    defaultRoom "Jalak" "private" 1 "Kamar standar dengan ventilasi baik",
    defaultRoom "Kutilang" "private" 1 "Kamar nyaman dengan akses mudah",
    defaultRoom "Murai" "special" 1 "Kamar untuk perawatan intensif",
    defaultRoom "Pipit" "shared" 2 "Kamar ekonomi untuk 2 orang",
    defaultRoom "Perkutut" "private" 1 "Kamar dengan akses ke teras" ]

/-- The two default accounts as they are inserted; `hash` stands for
`bcrypt.hash(·, 10)`. -/
def defaultUsers (hash : String → String) : List UserRow :=
  [ { username := "admin", password_hash := hash "admin123"
      full_name := "Administrator Utama", role := "admin"
      email := some "admin@pantiwk.com", phone := none, is_active := 1, last_login := none },
    { username := "staff", password_hash := hash "staff123", full_name := "Staff Demo"
      role := "staff", email := some "staff@pantiwk.com", phone := none, is_active := 1
      last_login := none } ]

/-- The guarded insert of a default account: the row is inserted only when
`SELECT COUNT(*) FROM users WHERE username = ...` yields 0. -/
def seedUser (advances : Bool) (t : Table UserRow) (u : UserRow) : Table UserRow :=
  if (t.rows.filter (fun r => r.2.username == u.username)).length = 0 then
    insertOrIgnore advances (fun r => r.username) t u
  else t

/-- The body of `insertDefaultData` for given arrays: activity types, donation
categories and rooms by `INSERT OR IGNORE`, the accounts by a count and an
insert. -/
def seedWith (advances : Bool) (types : List ActivityTypeRow) (categories : List CategoryRow)
    (rooms : List RoomRow) (users : List UserRow) (db : Db) : Db :=
  { db with
    activity_types := types.foldl (insertOrIgnore advances (fun r => r.name)) db.activity_types
    donation_categories :=
      categories.foldl (insertOrIgnore advances (fun r => r.name)) db.donation_categories
    rooms := rooms.foldl (insertOrIgnore advances (fun r => r.room_name)) db.rooms
    users := users.foldl (seedUser advances) db.users }

/-- The function `insertDefaultData`. -/
def insertDefaultData (hash : String → String) (advances : Bool) (db : Db) : Db :=
  seedWith advances activityTypes donationCategories defaultRooms (defaultUsers hash) db

/-- The stored keys of a table. -/
def Table.keys {α : Type} (key : α → String) (t : Table α) : List String :=
  t.rows.map (fun r => key r.2)

/-- An insert-if-absent step on `key`: a row whose key is stored leaves the rows
as they are, any other row is appended under some id. -/
def InsertsIfAbsent {α : Type} (key : α → String) (step : Table α → α → Table α) : Prop :=
  ∀ t a, (key a ∈ t.keys key → (step t a).rows = t.rows)
    ∧ (key a ∉ t.keys key → ∃ id, (step t a).rows = t.rows ++ [(id, a)])

/-- The rows of the four seeded tables. -/
def Db.reference (db : Db) :
    List (Nat × ActivityTypeRow) × List (Nat × CategoryRow) × List (Nat × RoomRow)
      × List (Nat × UserRow) :=
  (db.activity_types.rows, db.donation_categories.rows, db.rooms.rows, db.users.rows)

/-- The unique keys of the four seeded tables are stored once each. -/
@[reducible] def Db.referenceKeysUnique (db : Db) : Prop :=
  (db.activity_types.keys (fun r => r.name)).Nodup
    ∧ (db.donation_categories.keys (fun r => r.name)).Nodup
    ∧ (db.rooms.keys (fun r => r.room_name)).Nodup
    ∧ (db.users.keys (fun r => r.username)).Nodup

/-! ## The page state of the client (`App.js`) -/

/-- The logged-in user as far as `App` reads it: `user.role`. -/
structure AppUser where
  username : String
  role : String
deriving DecidableEq, Repr

/-- The state of the component `App` once loading has finished. -/
structure AppState where
  currentPage : String
  selectedResidentId : Option Nat
  isAuthenticated : Bool
  user : Option AppUser
deriving DecidableEq, Repr

/-- The initial state of `App`. -/
def AppState.initial : AppState :=
  { currentPage := "dashboard", selectedResidentId := none, isAuthenticated := false
    user := none }

/-- The function `navigateTo` of `App`: a staff user asking for `donation` or
`users` gets an alert and stays where they are. -/
def navigateTo (page : String) (s : AppState) : AppState :=
  match s.user with
  | some user =>
    if user.role = "staff" then
      if page = "donation" ∨ page = "users" then s
      else { s with currentPage := page }
    else { s with currentPage := page }
  | none => { s with currentPage := page }

/-- The function `showDetail` of `App`. -/
def showDetail (residentId : Nat) (s : AppState) : AppState :=
  { s with selectedResidentId := some residentId, currentPage := "detail" }

/-- The function `handleLogin` of `App` (local storage left out). -/
def handleLogin (userData : AppUser) (s : AppState) : AppState :=
  { s with isAuthenticated := true, user := some userData, currentPage := "dashboard" }

/-- The function `handleLogout` of `App` (local storage left out). -/
def handleLogout (s : AppState) : AppState :=
  { s with isAuthenticated := false, user := none, currentPage := "dashboard" }

/-- What `renderPage` returns: one of the screens, `null`, or a `TypeError` when
`user.role` is read from `null`. -/
inductive Screen where
  | login
  | dashboard
  | inputData
  | residentList
  | residentDetail (residentId : Option Nat)
  | record
  | roomManagement
  | donation
  | userManagement
  | null
  | typeError
deriving DecidableEq, Repr

/-- The two admin-only cases of `renderPage`: the screen for an admin; for any
other user an alert, `navigateTo('dashboard')` and `null`; reading `user.role`
from `null` throws. -/
def adminOnly (screen : Screen) (s : AppState) : Screen × AppState :=
  match s.user with
  | none => (.typeError, s)
  | some user =>
    if user.role = "admin" then (screen, s) else (.null, navigateTo "dashboard" s)

/-- The function `renderPage` of `App`, with the state it leaves. -/
def renderPage (s : AppState) : Screen × AppState :=
  if !s.isAuthenticated then (.login, s)
  else if s.currentPage = "dashboard" then (.dashboard, s)
  else if s.currentPage = "input" then (.inputData, s)
  else if s.currentPage = "list" then (.residentList, s)
  else if s.currentPage = "detail" then (.residentDetail s.selectedResidentId, s)
  else if s.currentPage = "record" then (.record, s)
  else if s.currentPage = "rooms" then (.roomManagement, s)
  else if s.currentPage = "donation" then adminOnly .donation s
  else if s.currentPage = "users" then adminOnly .userManagement s
  else (.dashboard, s)

/-- What can happen to `App`: the four handlers and a render. -/
inductive AppEvent where
  | login (userData : AppUser)
  | navigate (page : String)
  | detail (residentId : Nat)
  | logout
  | render
deriving DecidableEq, Repr

/-- The state after one event. -/
def AppEvent.apply (e : AppEvent) (s : AppState) : AppState :=
  match e with
  | .login userData => handleLogin userData s
  | .navigate page => navigateTo page s
  | .detail residentId => showDetail residentId s
  | .logout => handleLogout s
  | .render => (renderPage s).2

/-- The state after a sequence of events, from the initial state. -/
def runApp (events : List AppEvent) : AppState :=
  events.foldl (fun s e => e.apply s) AppState.initial

/-- The gate on pages: a staff user is on neither `donation` nor `users`, and a
user is stored exactly while the state is authenticated. -/
@[reducible] def AppState.gated (s : AppState) : Prop :=
  (∀ u, s.user = some u → u.role = "staff" →
      s.currentPage ≠ "donation" ∧ s.currentPage ≠ "users")
    ∧ (s.isAuthenticated = true ↔ s.user ≠ none)

/-! ## Financial summary (`server.js` lines 1488-1527) -/

/-- The number of low bits that rounding to 53 significant bits drops from `a`:
the least `k` with `a < 2 ^ (53 + k)`, found bit by bit from the top (`i` bits
are still to be settled, `k` is what the settled bits add up to). -/
def findShift (a : Nat) : Nat → Nat → Nat
  | 0, k => k
  | i + 1, k =>
    if 1 <<< (53 + k + 2 ^ i - 1) ≤ a then findShift a i (k + 2 ^ i) else findShift a i k

/-- A natural number rounded to 53 significant bits, to the nearest and to the
even one of two nearest. -/
def roundBits (a : Nat) : Nat :=
  let k := findShift a 12 0
  let q := a >>> k
  let r := a - q <<< k
  let half := 1 <<< (k - 1)
  if r > half ∨ (r = half ∧ q % 2 = 1) then (q + 1) <<< k else q <<< k

/-- An IEEE 754 double: a JavaScript number, an SQLite `REAL`. A finite double is
a whole multiple `units` of 2^-1074 with at most 53 significant bits and an
absolute value below 2^1024; the sign of zero is not kept. -/
inductive Double where
  | finite (units : Int)
  | posInf
  | negInf
  | nan
deriving DecidableEq, Repr

/-- The double nearest to the exact value of `n` units of 2^-1074. -/
def Double.ofExact (n : Int) : Double :=
  if roundBits n.natAbs < 1 <<< 2098 then
    .finite (if n < 0 then -Int.ofNat (roundBits n.natAbs) else Int.ofNat (roundBits n.natAbs))
  else if n < 0 then .negInf else .posInf

/-- Addition of doubles: the exact sum, rounded. -/
def Double.add : Double → Double → Double
  | .finite a, .finite b => Double.ofExact (a + b)
  | .nan, _ => .nan
  | _, .nan => .nan
  | .posInf, .negInf => .nan
  | .negInf, .posInf => .nan
  | .posInf, _ => .posInf
  | _, .posInf => .posInf
  | .negInf, _ => .negInf
  | _, .negInf => .negInf

/-- Negation of a double. -/
def Double.neg : Double → Double
  | .finite a => .finite (-a)
  | .posInf => .negInf
  | .negInf => .posInf
  | .nan => .nan

/-- The double with the exact value `m` · 2^`e` · 2^-1074, for one that exists. -/
def Double.scaled (m : Int) (e : Nat) : Double := .finite (m * Int.ofNat (1 <<< e))

/-- The double whose value is the whole number `n`, for one that exists. -/
def Double.whole (n : Int) : Double := Double.scaled n 1074

/-- The conversion of a 64-bit integer to a double, as a driver hands an SQLite
`INTEGER` to JavaScript: the nearest double. -/
def Double.ofInt (n : Int) : Double := Double.ofExact (n * Int.ofNat (1 <<< 1074))

/-- A numeric value as the aggregate `SUM` reads it: an `INTEGER` or a `REAL`. -/
inductive SqlNumber where
  | int (n : Int)
  | real (x : Double)
deriving DecidableEq, Repr

/-- The number JavaScript receives for an SQLite value. -/
def SqlNumber.toJS : SqlNumber → Double
  | .int n => Double.ofInt n
  | .real x => x

/-- The scan of `SUM` while every value read so far was an `INTEGER`: `acc` is the
running total, lost (`none`, the error `integer overflow`) once it leaves the range
of a 64-bit integer. From the first `REAL` on the result is the floating-point sum
`sumReal` of the whole column, which SQLite computes in a way that differs between
its versions; a sum that is not a number is `NULL`, which `COALESCE` turns into 0. -/
def sumInts (sumReal : List SqlNumber → Double) (all : List SqlNumber) :
    Int → List SqlNumber → Option SqlNumber
  | acc, [] => some (.int acc)
  | acc, .int v :: rest =>
    if -9223372036854775808 ≤ acc + v ∧ acc + v < 9223372036854775808 then
      sumInts sumReal all (acc + v) rest
    else none
  | _, .real _ :: _ => some (if sumReal all = .nan then .int 0 else .real (sumReal all))

/-- The expression `COALESCE(SUM(x), 0)`, in the order of the scan. -/
def sqlSum (sumReal : List SqlNumber → Double) (xs : List SqlNumber) : Option SqlNumber :=
  sumInts sumReal xs 0 xs

/-- All values of a list, when none of them is lost. -/
def collect {α : Type} : List (Option α) → Option (List α)
  | [] => some []
  | none :: _ => none
  | some a :: rest => (collect rest).map (fun l => a :: l)

/-- The object `summary` of the answer. -/
structure Summary where
  total_income : Double
  total_expense : Double
  balance : Double
deriving DecidableEq, Repr

/-- A row of `monthly_breakdown`. -/
structure MonthRow where
  month : Option String
  income : Double
  expense : Double
deriving DecidableEq, Repr

/-- The answer of `GET /api/financial-summary`. -/
structure FinancialSummary where
  summary : Summary
  monthly_breakdown : List MonthRow
  current_year : String
deriving DecidableEq, Repr

/-- The expression `CASE WHEN dc.type = 'income' THEN t.amount ELSE 0 END`. -/
def caseIncome (amountOf : String → SqlNumber) (x : TransactionListing) : SqlNumber :=
  if x.transaction_type = "income" then amountOf x.row.amount else .int 0

/-- The expression `CASE WHEN dc.type = 'expense' THEN t.amount ELSE 0 END`. -/
def caseExpense (amountOf : String → SqlNumber) (x : TransactionListing) : SqlNumber :=
  if x.transaction_type = "expense" then amountOf x.row.amount else .int 0

/-- The expression `CASE WHEN dc.type = 'income' THEN t.amount ELSE -t.amount END`. -/
def caseBalance (amountOf negAmountOf : String → SqlNumber) (x : TransactionListing) :
    SqlNumber :=
  if x.transaction_type = "income" then amountOf x.row.amount else negAmountOf x.row.amount

/-- The joined rows with `strftime('%Y', t.transaction_date) = ?`. -/
def inYear (yearOf : String → Option String) (currentYear : String) (db : Db) :
    List TransactionListing :=
  (joinCategories db).filter (fun x => yearOf x.row.transaction_date == some currentYear)

/-- The rows of one group of `GROUP BY strftime('%Y-%m', t.transaction_date)`. -/
def monthGroup (yearMonth : String → Option String) (rows : List TransactionListing)
    (month : Option String) : List TransactionListing :=
  rows.filter (fun x => yearMonth x.row.transaction_date == month)

/-- The row of `monthly_breakdown` for one group. -/
def monthRow (sumReal : List SqlNumber → Double) (amountOf : String → SqlNumber)
    (yearMonth : String → Option String) (rows : List TransactionListing)
    (month : Option String) : Option MonthRow :=
  (sqlSum sumReal ((monthGroup yearMonth rows month).map (caseIncome amountOf))).bind
    (fun income =>
      (sqlSum sumReal ((monthGroup yearMonth rows month).map (caseExpense amountOf))).map
        (fun expense => { month := month, income := income.toJS, expense := expense.toJS }))

/-- The handler of `GET /api/financial-summary`; `none` is the answer 500.
`amountOf` and `negAmountOf` are what SQLite reads from a stored amount for
`t.amount` and for `-t.amount`; `yearOf` and `yearMonth` are `strftime('%Y', ·)`
and `strftime('%Y-%m', ·)`; `clockYear` is `new Date().getFullYear().toString()`.
The sums reach JavaScript as doubles. -/
def financialSummary (sumReal : List SqlNumber → Double)
    (amountOf negAmountOf : String → SqlNumber) (yearOf yearMonth : String → Option String)
    (clockYear : String) (year : Option String) (db : Db) : Option FinancialSummary :=
  let currentYear := orElse year clockYear
  let rows := inYear yearOf currentYear db
  (sqlSum sumReal (rows.map (caseIncome amountOf))).bind (fun total_income =>
    (sqlSum sumReal (rows.map (caseExpense amountOf))).bind (fun total_expense =>
      (sqlSum sumReal (rows.map (caseBalance amountOf negAmountOf))).bind (fun balance =>
        (collect (((rows.map (fun x => yearMonth x.row.transaction_date)).dedup).map
            (monthRow sumReal amountOf yearMonth rows))).map (fun monthly =>
          { summary :=
              { total_income := total_income.toJS, total_expense := total_expense.toJS
                balance := balance.toJS }
            monthly_breakdown := sortDescBy (fun g => g.month.getD "") monthly
            current_year := currentYear }))))

/-- The income of a row in whole numbers: its amount under an income category. -/
def incomeOf (amounts : String → Int) (x : TransactionListing) : Int :=
  if x.transaction_type = "income" then amounts x.row.amount else 0

/-- The expense of a row in whole numbers: its amount under an expense category. -/
def expenseOf (amounts : String → Int) (x : TransactionListing) : Int :=
  if x.transaction_type = "expense" then amounts x.row.amount else 0

/-- The signed amount of a row in whole numbers: the amount under an income
category, its negative under any other. -/
def balanceOf (amounts : String → Int) (x : TransactionListing) : Int :=
  if x.transaction_type = "income" then amounts x.row.amount else -amounts x.row.amount

/-- The sum of the absolute values of the amounts of the given rows. -/
def absTotal (amounts : String → Int) (rows : List TransactionListing) : Nat :=
  (rows.map (fun x => (amounts x.row.amount).natAbs)).sum

/-! ## Codes under creation and deletion -/

/-- The statement `DELETE FROM residents WHERE id = ?`, with the rows of the
modelled tables that reference the resident `ON DELETE CASCADE`. The server has
no endpoint that issues it. -/
def deleteResidentRow (id : Nat) (db : Db) : Db :=
  { db with
    residents := db.residents.delete id
    guardians := { db.guardians with
      rows := db.guardians.rows.filter (fun r => r.2.resident_id != id) }
    health_records := { db.health_records with
      rows := db.health_records.rows.filter (fun r => r.2.resident_id != id) }
    medications := { db.medications with
      rows := db.medications.rows.filter (fun r => r.2.resident_id != id) }
    daily_records := { db.daily_records with
      rows := db.daily_records.rows.filter (fun r => r.2.resident_id != id) } }

/-- A request that creates or deletes a row carrying a generated code. A deletion
of a transaction comes with the files on disk at that time. -/
inductive CodeOp where
  | intake (clock : Clock) (req : ResidentRequest)
  | removeResident (id : Nat)
  | donate (req : TransactionRequest)
  | removeTransaction (id : Nat) (files : Files)

/-- The database after a request has been handled. -/
def CodeOp.apply (pathJoin : String → String → String) : CodeOp → Db → Db
  | .intake clock req, db => (createResident clock req db).2
  | .removeResident id, db => deleteResidentRow id db
  | .donate req, db => (createTransaction req db).2
  | .removeTransaction id files, db => (deleteTransaction pathJoin id db files).2.1

/-- The database after a list of requests handled one after another. -/
def runCodeOps (pathJoin : String → String → String) (ops : List CodeOp) (db : Db) : Db :=
  ops.foldl (fun d op => op.apply pathJoin d) db

/-- A stored code read apart: the id of its row, its prefix and its number. -/
structure CodeEntry where
  id : Nat
  pfx : String
  number : Nat
deriving DecidableEq, Repr

/-- The `(id, code)` pair of an entry. -/
def CodeEntry.code (e : CodeEntry) : Nat × String :=
  (e.id, formatId e.pfx (.int (Int.ofNat e.number)))

/-- The number of the last entry with the given prefix, 0 when there is none. -/
def lastNumber (pfx : String) (entries : List CodeEntry) : Nat :=
  entries.foldl (fun n e => if e.pfx = pfx then e.number else n) 0

/-- The stored codes are well-formed codes of the given prefixes with numbers
from 1 to `bound`, whose ids increase in insertion order and whose numbers
increase in insertion order within each prefix. -/
@[reducible] def CodesOrdered (pfxs : List String) (bound : Nat) (codes : List (Nat × String)) :
    Prop :=
  ∃ entries : List CodeEntry,
    codes = entries.map CodeEntry.code
      ∧ (∀ e ∈ entries, e.pfx ∈ pfxs ∧ 1 ≤ e.number ∧ e.number ≤ bound)
      ∧ entries.Pairwise (fun a b => a.id < b.id ∧ (a.pfx = b.pfx → a.number < b.number))

/-- Codes of different prefixes of the list do not match each other's pattern. -/
@[reducible] def Separated (pfxs : List String) : Prop :=
  ∀ p ∈ pfxs, ∀ q ∈ pfxs, p ≠ q →
    ∀ k : Nat, likePrefix (p.data ++ ['-']) (formatId q (.int (Int.ofNat k))).data = false

/-! ## Sample inputs -/

/-- A clock on 15 June 2024 whose `Date` constructor reads two ISO dates. -/
def sampleClock : Clock :=
  { today := { year := 2024, month := 5, date := 15 }
    dateOf := fun s =>
      if s = "2000-06-15" then some { year := 2000, month := 5, date := 15 }
      else if s = "1950-01-31" then some { year := 1950, month := 0, date := 31 }
      else none }

/-- A form with the five required fields and nothing else. -/
def sampleForm : ResidentForm :=
  { name := some "Budi", gender := some "male", birth_date := some "1950-01-31"
    join_date := some "2024-06-15", condition := some "Sehat"
    birth_place := none, address := none, religion := none, medical_history := none
    allergies := none, smoking := none, alcohol := none, functional_walking := none
    functional_eating := none, mental_emotion := none, mental_consciousness := none
    room_id := none, guardians := .absent, medications := .absent
    hemoglobin := none, leukocyte := none, erythrocyte := none
    blood_sugar_random := none, blood_sugar_fasting := none, blood_sugar_two_hour := none }

/-- A request carrying `sampleForm` and no files. -/
def sampleResident : ResidentRequest := { form := sampleForm, photo := none, audio := none }

/-- A stored resident row with the given code. -/
def sampleRow (code : String) : ResidentRow :=
  { resident_id := code, name := "Siti", age := 80, gender := "female"
    birth_date := "1944-03-02", birth_place := none, address := none, religion := none
    join_date := "2020-01-01", condition := "Sehat", medical_history := none
    allergies := none, smoking := none, alcohol := none, functional_walking := none
    functional_eating := none, mental_emotion := none, mental_consciousness := none
    photo_path := none, audio_path := none, status := "Aktif", room_id := none }

/-- A database whose only resident, with id 1, has the given code. -/
def dbWithResident (code : String) : Db :=
  { Db.empty with residents := { rows := [(1, sampleRow code)], seq := 1 } }

/-- A ledger with an income category (id 1), an expense category (id 7) and two
expense transactions. -/
def sampleLedger : Db :=
  { Db.empty with
    donation_categories :=
      { rows := [(1, { name := "Donasi Umum", type := "income", description := none }),
                 (7, { name := "Medis & Obat-obatan", type := "expense", description := none })]
        seq := 14 }
    transactions :=
      { rows := [(1, { transaction_id := "EXP-001", category_id := 7, amount := "50000"
                       transaction_date := "2024-06-01", source := none, description := none
                       payment_method := "cash", reference_number := "", notes := ""
                       attachment_path := none }),
                 (2, { transaction_id := "EXP-002", category_id := 7, amount := "75000"
                       transaction_date := "2024-06-02", source := none, description := none
                       payment_method := "cash", reference_number := "", notes := ""
                       attachment_path := none })]
        seq := 2 } }

/-- A transaction request for the given category, amount and uploaded file. -/
def sampleTransaction (category : Option Nat) (amount : Option String) (file : Option String) :
    TransactionRequest :=
  { category_id := category, amount := amount, transaction_date := some "2024-06-15"
    source := some "Hamba Allah", description := none, payment_method := none
    reference_number := none, notes := none, file := file }

/-- A guardian entry with the given name and phone and nothing else. -/
def sampleGuardian (name phone : Option String) : GuardianEntry :=
  { name := name, id_number := none, email := none, phone := phone, relationship := none
    address := none, is_primary := false }

/-- The sample request with three guardians, the second without a phone, and
with a haemoglobin reading. -/
def sampleIntake : ResidentRequest :=
  { sampleResident with
    form :=
      { sampleForm with
        guardians :=
          .parsed [sampleGuardian (some "Ani") (some "0811"), sampleGuardian (some "Budi") none,
            sampleGuardian (some "Cici") (some "0813")]
        hemoglobin := some "13.5" } }

/-- The medication row inserted for an entry with a truthy name. -/
def medicationRow (residentDbId : Nat) (joinDate : String) (m : MedicationEntry) :
    MedicationRow :=
  { resident_id := residentDbId
    medication_name := m.medication_name.getD ""
    dosage := orNull m.dosage
    schedule := orNull m.schedule
    status := orElse m.status "Active"
    start_date := joinDate }

/-- A medication entry with the given name and status and nothing else. -/
def sampleMedication (name status : Option String) : MedicationEntry :=
  { medication_name := name, dosage := none, schedule := none, status := status }

/-- The sample request with three medications: one without a status, one without
a name, one stopped. -/
def sampleIntakeMedications : ResidentRequest :=
  { sampleResident with
    form :=
      { sampleForm with
        medications :=
          .parsed [sampleMedication (some "Amlodipin") none, sampleMedication none (some "Active"),
            sampleMedication (some "Metformin") (some "Stopped")] } }

/-- The sample request with an invalid `gender` and two uploaded files. -/
def sampleRejectedIntake : ResidentRequest :=
  { form := { sampleForm with gender := some "other" }
    photo := some "photo-1.jpg", audio := some "audio-1.mp3" }

/-- A room row with the given name, capacity and stored counter. -/
def sampleRoom (name : String) (capacity occupants : Int) : RoomRow :=
  { room_name := name, room_type := "private", capacity := capacity
    current_occupants := occupants, notes := some "", status := "available" }

/-- A home with the rooms Merpati (id 1, capacity 1, one occupant) and Kenari
(id 2, capacity 2, empty), resident 1 living in Merpati and resident 2 without
a room. -/
def sampleHome : Db :=
  { Db.empty with
    rooms := { rows := [(1, sampleRoom "Merpati" 1 1), (2, sampleRoom "Kenari" 2 0)], seq := 2 }
    residents :=
      { rows := [(1, { sampleRow "R-001" with room_id := some 1 }), (2, sampleRow "R-002")]
        seq := 2 } }

/-- The stored counters of the rooms, by room id. -/
def Db.counters (db : Db) : List (Nat × Int) :=
  db.rooms.rows.map (fun r => (r.1, r.2.current_occupants))

/-- The room references of the residents, by resident id. -/
def Db.roomRefs (db : Db) : List (Nat × Option Nat) :=
  db.residents.rows.map (fun r => (r.1, r.2.room_id))

/-- The first seven characters of a text: what `strftime('%Y-%m', text)` yields
on dates written `YYYY-MM-DD`. -/
def sampleYearMonth (s : String) : Option String := some (String.mk (s.data.take 7))

/-- The first ten characters of a text: what `DATE(text)` yields on datetimes
written `YYYY-MM-DDTHH:MM:SS`. -/
def sampleDateOf (s : String) : Option String := some (String.mk (s.data.take 10))

/-- The sample ledger with one income transaction added in July. -/
def sampleBooks : Db :=
  { sampleLedger with
    transactions :=
      { rows := sampleLedger.transactions.rows ++
          [(3, { transaction_id := "INC-001", category_id := 1, amount := "100000"
                 transaction_date := "2024-07-05", source := none, description := none
                 payment_method := "cash", reference_number := "", notes := ""
                 attachment_path := none })]
        seq := 3 } }

/-- A daily record of the given resident and activity type at the given time. -/
def sampleRecord (resident activity : Nat) (datetime : String) : DailyRecordRow :=
  { resident_id := resident, activity_type_id := activity, record_datetime := datetime
    condition := "Baik", notes := "Makan pagi", recorded_by := some "System" }

/-- The sample home with one activity type and three daily records. -/
def sampleDiary : Db :=
  { sampleHome with
    activity_types :=
      { rows := [(6, { name := "Makan", category := some "routine", color_code := "#fd7e14"
                       icon := "fa-utensils" })]
        seq := 9 }
    daily_records :=
      { rows := [(1, sampleRecord 1 6 "2024-06-01T07:30:00"),
                 (2, sampleRecord 2 6 "2024-06-03T07:45:00"),
                 (3, sampleRecord 1 6 "2024-06-02T12:00:00")]
        seq := 3 } }

/-- Joining a directory name with a path that starts with a slash. -/
def samplePathJoin (a b : String) : String := a ++ b

/-- The sample ledger with a third transaction that carries an attachment. -/
def sampleArchive : Db :=
  { sampleLedger with
    transactions :=
      { rows := sampleLedger.transactions.rows ++
          [(3, { transaction_id := "INC-001", category_id := 1, amount := "100000"
                 transaction_date := "2024-07-05", source := none, description := none
                 payment_method := "transfer", reference_number := "", notes := ""
                 attachment_path := some "/uploads/transactions/bukti.pdf" })]
        seq := 3 } }

/-- A record request for resident 1 and activity type 6 of the sample diary with
the given condition and notes. -/
def sampleRecordRequest (condition notes : Option String) : RecordRequest :=
  { resident_id := some 1, activity_type_id := some 6
    record_datetime := some "2024-06-04T08:15", condition := condition, notes := notes
    recorded_by := none }

/-- The row id denoted by a text of decimal digits, leading zeros allowed: the
part of SQLite's numeric conversion of a text compared with an integer column
that the examples use. -/
def decimalRowid (s : String) : Option Nat :=
  if s.data ≠ [] ∧ s.data.all Char.isDigit then
    some (s.data.foldl (fun n c => 10 * n + (c.toNat - 48)) 0)
  else none

/-- A stored user with the given name and role. -/
def sampleUser (username role : String) : UserRow :=
  { username := username, password_hash := "$2b$10$hash", full_name := username
    role := role, email := none, phone := none, is_active := 1, last_login := none }

/-- An office with the main admin (id 1) and a staff account (id 2). -/
def sampleOffice : Db :=
  { Db.empty with
    users := { rows := [(1, sampleUser "admin" "admin"), (2, sampleUser "staff" "staff")]
               seq := 2 } }

/-- A stand-in for `bcrypt.hash`. -/
def sampleHash (password : String) : String := "$2b$10$" ++ password

/-- A user request with the given name and role. -/
def sampleUserRequest (username role : String) : UserRequest :=
  { username := some username, password := some "rahasia", full_name := some "Perawat Jaga"
    role := some role, email := none, phone := some "0812" }

/-- A store in which a room called Merpati and an account called admin exist
with values of their own. -/
def sampleStore : Db :=
  { Db.empty with
    rooms := { rows := [(4, sampleRoom "Merpati" 3 2)], seq := 6 }
    users := { rows := [(1, sampleUser "admin" "admin")], seq := 1 } }

/-- A user of the client with the given role. -/
def sampleAppUser (role : String) : AppUser := { username := "siti", role := role }

/-- The whole number written by a text of decimal digits. -/
def sampleAmount (s : String) : Int :=
  Int.ofNat (s.data.foldl (fun n c => 10 * n + (c.toNat - 48)) 0)

/-- What SQLite stores for the amount texts of the examples: the doubles nearest
to 0.1, 0.2 and 0.3 for the texts `0.1`, `0.2` and `0.3`, and the whole number
for a text of decimal digits. -/
def sampleAmountOf (s : String) : SqlNumber :=
  if s = "0.1" then .real (Double.scaled 3602879701896397 1019)
  else if s = "0.2" then .real (Double.scaled 3602879701896397 1020)
  else if s = "0.3" then .real (Double.scaled 5404319552844595 1020)
  else .int (sampleAmount s)

/-- The negated amounts of the examples. -/
def sampleNegAmountOf (s : String) : SqlNumber :=
  match sampleAmountOf s with
  | .int n => .int (-n)
  | .real x => .real x.neg

/-- The floating-point sum of a column taken value by value from 0 (`rSum += v`). -/
def sequentialSum (xs : List SqlNumber) : Double :=
  xs.foldl (fun acc v => Double.add acc v.toJS) (.finite 0)

/-- The first four characters of a text: what `strftime('%Y', text)` yields on
dates written `YYYY-MM-DD`. -/
def sampleYear (s : String) : Option String := some (String.mk (s.data.take 4))

/-- A transaction of the given category and amount on 5 March 2024. -/
def sampleEntry (code : String) (category : Nat) (amount : String) : TransactionRow :=
  { transaction_id := code, category_id := category, amount := amount
    transaction_date := "2024-03-05", source := none, description := none
    payment_method := "cash", reference_number := "", notes := "", attachment_path := none }

/-- Books with an income of 0.1, an expense of 0.3 and an income of 0.2. -/
def sampleFractions : Db :=
  { sampleLedger with
    transactions :=
      { rows := [(1, sampleEntry "INC-001" 1 "0.1"), (2, sampleEntry "EXP-001" 7 "0.3"),
                 (3, sampleEntry "INC-002" 1 "0.2")]
        seq := 3 } }

/-- Books with the incomes 9007199254740992 (2^53) and 1. -/
def sampleFortune : Db :=
  { sampleLedger with
    transactions :=
      { rows := [(1, sampleEntry "INC-001" 1 "9007199254740992"),
                 (2, sampleEntry "INC-002" 1 "1")]
        seq := 2 } }

/-- Whether the absolute value of the first double exceeds that of the second. -/
def Double.absGt : Double → Double → Bool
  | .finite a, .finite b => decide (b.natAbs < a.natAbs)
  | .nan, _ => false
  | _, .nan => false
  | .finite _, _ => false
  | _, .finite _ => true
  | _, _ => false

/-- One step of a compensated floating-point sum (Kahan, Babuska and Neumaier):
the running sum and the running error after the value `r`. -/
def compensatedStep (state : Double × Double) (r : Double) : Double × Double :=
  let t := Double.add state.1 r
  if Double.absGt state.1 r then
    (t, Double.add state.2 (Double.add (Double.add state.1 t.neg) r))
  else (t, Double.add state.2 (Double.add (Double.add r t.neg) state.1))

/-- The compensated floating-point sum of a column of small values, as later
versions of SQLite compute it: running sum plus running error. -/
def compensatedSum (xs : List SqlNumber) : Double :=
  let state := xs.foldl (fun st v => compensatedStep st v.toJS) (.finite 0, .finite 0)
  Double.add state.1 state.2

/-- A store with the two sample categories and no residents or transactions. -/
def sampleSeeded : Db :=
  { Db.empty with donation_categories := sampleLedger.donation_categories }

/-- Three intakes with the second resident deleted before the third, and four
transactions with the first one deleted before the last. -/
def sampleCodeOps : List CodeOp :=
  [ .intake sampleClock sampleResident, .intake sampleClock sampleResident, .removeResident 2,
    .intake sampleClock sampleResident,
    .donate (sampleTransaction (some 1) (some "1000") none),
    .donate (sampleTransaction (some 7) (some "2000") none),
    .donate (sampleTransaction (some 1) (some "3000") none),
    .removeTransaction 1 [],
    .donate (sampleTransaction (some 1) (some "4000") none) ]

/-! ## Decimal numerals -/

theorem digitChar_mem {d : Nat} (h : d < 10) : digitChar d ∈ decimalDigits := by
  interval_cases d <;> decide

theorem digitValue_digitChar {d : Nat} (h : d < 10) : digitValue (digitChar d) = some d := by
  interval_cases d <;> decide

theorem digitValue_of_mem {c : Char} (h : c ∈ decimalDigits) :
    ∃ d, d < 10 ∧ c = digitChar d := by
  simp only [decimalDigits, List.mem_cons, List.mem_singleton, List.not_mem_nil, or_false] at h
  rcases h with h | h | h | h | h | h | h | h | h | h <;> subst h
  exacts [⟨0, by decide, by decide⟩, ⟨1, by decide, by decide⟩, ⟨2, by decide, by decide⟩,
    ⟨3, by decide, by decide⟩, ⟨4, by decide, by decide⟩, ⟨5, by decide, by decide⟩,
    ⟨6, by decide, by decide⟩, ⟨7, by decide, by decide⟩, ⟨8, by decide, by decide⟩,
    ⟨9, by decide, by decide⟩]

theorem isRadixDigit_of_mem {c : Char} (h : c ∈ decimalDigits) : isRadixDigit 10 c = true := by
  obtain ⟨d, hd, rfl⟩ := digitValue_of_mem h
  simp [isRadixDigit, digitValue_digitChar hd, hd]

theorem not_space_of_mem {c : Char} (h : c ∈ decimalDigits) : isStrWhiteSpaceChar c = false := by
  obtain ⟨d, hd, rfl⟩ := digitValue_of_mem h
  interval_cases d <;> decide

theorem ne_special_of_mem {c : Char} (h : c ∈ decimalDigits) :
    c ≠ '-' ∧ c ≠ '+' ∧ c ≠ 'x' ∧ c ≠ 'X' := by
  obtain ⟨d, hd, rfl⟩ := digitValue_of_mem h
  interval_cases d <;> decide

theorem radixValue_append (r : Nat) (l : List Char) (c : Char) :
    radixValue r (l ++ [c]) = radixValue r l * r + (digitValue c).getD 0 := by
  simp [radixValue, List.foldl_append]

theorem decimalAux_spec (fuel n : Nat) (h : n < fuel) :
    (∀ c ∈ decimalAux fuel n, c ∈ decimalDigits) ∧ radixValue 10 (decimalAux fuel n) = n
      ∧ decimalAux fuel n ≠ [] ∧ (1 ≤ n → (decimalAux fuel n).head? ≠ some '0') := by
  induction fuel generalizing n with
  | zero => omega
  | succ fuel ih =>
    unfold decimalAux
    by_cases hn : n < 10
    · simp only [hn, if_true]
      refine ⟨?_, ?_, by simp, ?_⟩
      · intro c hc
        simp only [List.mem_singleton] at hc
        subst hc
        exact digitChar_mem hn
      · simp [radixValue, digitValue_digitChar hn]
      · intro h1
        interval_cases n <;> first | omega | decide
    · simp only [hn, if_false]
      have hlt : n / 10 < fuel := by omega
      obtain ⟨h1, h2, h3, h4⟩ := ih (n / 10) hlt
      have hm : n % 10 < 10 := Nat.mod_lt _ (by decide)
      refine ⟨?_, ?_, by simp, ?_⟩
      · intro c hc
        rcases List.mem_append.1 hc with hc | hc
        · exact h1 c hc
        · simp only [List.mem_singleton] at hc
          subst hc
          exact digitChar_mem hm
      · rw [radixValue_append, h2, digitValue_digitChar hm]
        simp only [Option.getD_some]
        omega
      · intro _
        have h5 := h4 (by omega)
        cases hd : decimalAux fuel (n / 10) with
        | nil => exact absurd hd h3
        | cons a t =>
          rw [hd] at h5
          simpa using h5

theorem natToDecimal_spec (n : Nat) :
    (∀ c ∈ natToDecimal n, c ∈ decimalDigits) ∧ radixValue 10 (natToDecimal n) = n
      ∧ natToDecimal n ≠ [] ∧ (1 ≤ n → (natToDecimal n).head? ≠ some '0') :=
  decimalAux_spec (n + 1) n (Nat.lt_succ_self n)

theorem decimalAux_length (fuel n : Nat) (h : n < fuel) :
    n < 10 ^ (decimalAux fuel n).length
      ∧ ((decimalAux fuel n).length = 1 ∨ 10 ^ ((decimalAux fuel n).length - 1) ≤ n) := by
  induction fuel generalizing n with
  | zero => omega
  | succ fuel ih =>
    unfold decimalAux
    by_cases hn : n < 10
    · simp only [hn, if_true, List.length_singleton, pow_one, true_or, and_self]
    · simp only [hn, if_false, List.length_append, List.length_singleton, Nat.add_sub_cancel]
      obtain ⟨h1, h2⟩ := ih (n / 10) (by omega)
      generalize (decimalAux fuel (n / 10)).length = L at h1 h2
      constructor
      · rw [pow_succ]; omega
      · right
        rcases h2 with h2 | h2
        · subst h2; simp; omega
        · have : 10 ^ L = 10 ^ (L - 1) * 10 := by
            cases L with
            | zero => simp at h1; omega
            | succ k => simp [pow_succ]
          omega

theorem natToDecimal_length (n : Nat) :
    n < 10 ^ (natToDecimal n).length
      ∧ ((natToDecimal n).length = 1 ∨ 10 ^ ((natToDecimal n).length - 1) ≤ n) :=
  decimalAux_length (n + 1) n (Nat.lt_succ_self n)

theorem natToDecimal_length_le_three {n : Nat} (h : n ≤ 999) : (natToDecimal n).length ≤ 3 := by
  obtain ⟨_, h2⟩ := natToDecimal_length n
  by_contra hc
  rcases h2 with h2 | h2
  · omega
  · have : 10 ^ 3 ≤ 10 ^ ((natToDecimal n).length - 1) :=
      Nat.pow_le_pow_right (by decide) (by omega)
    omega

theorem natToDecimal_length_ge_four {n : Nat} (h : 1000 ≤ n) : 4 ≤ (natToDecimal n).length := by
  obtain ⟨h1, _⟩ := natToDecimal_length n
  by_contra hc
  have : 10 ^ (natToDecimal n).length ≤ 10 ^ 3 := Nat.pow_le_pow_right (by decide) (by omega)
  omega

/-! ## `parseInt`, `padStart` and `split` on numerals -/

theorem radixValue_cons_zero (ds : List Char) : radixValue 10 ('0' :: ds) = radixValue 10 ds := by
  simp [radixValue, digitValue]

theorem radixValue_replicate_zero (k : Nat) (ds : List Char) :
    radixValue 10 (List.replicate k '0' ++ ds) = radixValue 10 ds := by
  induction k with
  | zero => simp
  | succ k ih => rw [List.replicate_succ, List.cons_append, radixValue_cons_zero, ih]

theorem mem_padStart_zero {w : Nat} {ds : List Char} (h : ∀ c ∈ ds, c ∈ decimalDigits) :
    ∀ c ∈ padStart w '0' ds, c ∈ decimalDigits := by
  intro c hc
  rcases List.mem_append.1 hc with hc | hc
  · rw [(List.mem_replicate.1 hc).2]; decide
  · exact h c hc

theorem takeWhile_all {p : Char → Bool} {l : List Char} (h : ∀ c ∈ l, p c = true) :
    l.takeWhile p = l := by
  induction l with
  | nil => rfl
  | cons a t ih =>
    rw [List.takeWhile_cons, h a (List.mem_cons_self a t), if_pos rfl,
      ih (fun c hc => h c (List.mem_cons_of_mem a hc))]

/-- On a non-empty string of decimal digits `parseInt` returns its value. -/
theorem parseInt_decimal {ds : List Char} (hne : ds ≠ []) (h : ∀ c ∈ ds, c ∈ decimalDigits) :
    parseInt ds = .int (Int.ofNat (radixValue 10 ds)) := by
  cases ds with
  | nil => exact absurd rfl hne
  | cons a t =>
    have ha := h a (List.mem_cons_self a t)
    have hsp := not_space_of_mem ha
    obtain ⟨hm, hp, _, _⟩ := ne_special_of_mem ha
    have hdrop : (a :: t).dropWhile isStrWhiteSpaceChar = a :: t := by
      rw [List.dropWhile_cons, hsp]; rfl
    have hsign : stripSign (a :: t) = (false, a :: t) := by
      simp [stripSign, hm, hp]
    have hhex : stripHexPrefix (a :: t) = (10, a :: t) := by
      cases t with
      | nil => rfl
      | cons b u =>
        have hb := h b (List.mem_cons_of_mem a (List.mem_cons_self b u))
        obtain ⟨_, _, hx, hX⟩ := ne_special_of_mem hb
        simp [stripHexPrefix, hx, hX]
    have htake : (a :: t).takeWhile (isRadixDigit 10) = a :: t :=
      takeWhile_all (fun c hc => isRadixDigit_of_mem (h c hc))
    simp only [parseInt, hdrop, hsign, hhex, htake, List.isEmpty_cons, Bool.false_eq_true,
      if_false]

theorem splitOn_no_sep {sep : Char} {l : List Char} (h : sep ∉ l) : splitOn sep l = [l] := by
  induction l with
  | nil => rfl
  | cons a t ih =>
    have hat : a ≠ sep := fun e => h (e ▸ List.mem_cons_self a t)
    have ht : sep ∉ t := fun m => h (List.mem_cons_of_mem a m)
    simp [splitOn, hat, ih ht]

theorem splitOn_head_segment {sep : Char} (p s : List Char) (hp : sep ∉ p) :
    splitOn sep (p ++ sep :: s) = p :: splitOn sep s := by
  induction p with
  | nil => simp [splitOn]
  | cons a t ih =>
    have hat : a ≠ sep := fun e => hp (e ▸ List.mem_cons_self a t)
    have ht : sep ∉ t := fun m => hp (List.mem_cons_of_mem a m)
    simp [splitOn, hat, ih ht]

theorem dash_not_mem_of_decimal {ds : List Char} (h : ∀ c ∈ ds, c ∈ decimalDigits) :
    '-' ∉ ds := fun hm => (ne_special_of_mem (h _ hm)).1 rfl

/-- The second `-`-separated segment of `P-<digits>` is the digit string. -/
theorem segment_of_code (p ds : List Char) (hp : '-' ∉ p) (h : ∀ c ∈ ds, c ∈ decimalDigits) :
    (splitOn '-' (p ++ '-' :: ds))[1]? = some ds := by
  rw [splitOn_head_segment p ds hp, splitOn_no_sep (dash_not_mem_of_decimal h)]
  rfl

/-! ## `LIKE` and `ORDER BY id DESC LIMIT 1` -/

theorem likePrefix_append (l s : List Char) : likePrefix l (l ++ s) = true := by
  induction l with
  | nil => rfl
  | cons a t ih => simp [likePrefix, ih]

theorem foldl_lastStep_keep {α : Type} (r : Nat × α) (l : List (Nat × α))
    (h : ∀ x ∈ l, x.1 ≤ r.1) : l.foldl lastStep (some r) = some r := by
  induction l with
  | nil => rfl
  | cons x t ih =>
    have hx := h x (List.mem_cons_self x t)
    have : lastStep (some r) x = some r := by
      simp only [lastStep]
      rw [if_neg (by omega)]
    rw [List.foldl_cons, this]
    exact ih (fun y hy => h y (List.mem_cons_of_mem x hy))

theorem foldl_lastStep_greatest {α : Type} (r : Nat × α) (l : List (Nat × α))
    (acc : Option (Nat × α)) (hr : r ∈ l) (h : ∀ x ∈ l, x ≠ r → x.1 < r.1)
    (hacc : acc = none ∨ ∃ b, acc = some b ∧ (b.1 < r.1 ∨ b = r)) :
    l.foldl lastStep acc = some r := by
  induction l generalizing acc with
  | nil => cases hr
  | cons x t ih =>
    rw [List.foldl_cons]
    by_cases hxr : x = r
    · subst hxr
      have hstep : lastStep acc x = some x := by
        rcases hacc with rfl | ⟨b, rfl, hb | rfl⟩
        · rfl
        · simp [lastStep, hb]
        · simp [lastStep]
      rw [hstep]
      apply foldl_lastStep_keep
      intro y hy
      by_cases hyx : y = x
      · rw [hyx]
      · exact Nat.le_of_lt (h y (List.mem_cons_of_mem x hy) hyx)
    · have hrt : r ∈ t := by
        rcases List.mem_cons.1 hr with e | e
        · exact absurd e.symm hxr
        · exact e
      have hx : x.1 < r.1 := h x (List.mem_cons_self x t) hxr
      apply ih _ hrt (fun y hy => h y (List.mem_cons_of_mem x hy))
      right
      rcases hacc with rfl | ⟨b, rfl, hb | rfl⟩
      · exact ⟨x, rfl, Or.inl hx⟩
      · by_cases hbx : b.1 < x.1
        · exact ⟨x, by simp [lastStep, hbx], Or.inl hx⟩
        · exact ⟨b, by simp [lastStep, hbx], Or.inl hb⟩
      · exact ⟨b, by simp only [lastStep]; rw [if_neg (by omega)], Or.inr rfl⟩

/-- The row selected by `ORDER BY id DESC LIMIT 1` is the one whose id is greater
than every other row's. -/
theorem lastById_greatest {α : Type} (r : Nat × α) (l : List (Nat × α)) (hr : r ∈ l)
    (h : ∀ x ∈ l, x ≠ r → x.1 < r.1) : lastById l = some r :=
  foldl_lastStep_greatest r l none hr h (Or.inl rfl)

/-- The generated number when the selected row is `P-<digits>`. -/
theorem newNumber_of_code (code : String) (p ds : List Char) (hc : code.data = p ++ '-' :: ds)
    (hp : '-' ∉ p) (hne : ds ≠ []) (h : ∀ c ∈ ds, c ∈ decimalDigits) :
    newNumber (some code) = .int (Int.ofNat (radixValue 10 ds + 1)) := by
  simp only [newNumber, hc, segment_of_code p ds hp h, parseIntArg, parseInt_decimal hne h,
    JSNumber.addOne]
  rfl

theorem lastCode_of_greatest (pfx : String) (codes : List (Nat × String)) (r : Nat × String)
    (hr : r ∈ codes) (hm : likePrefix (pfx.data ++ ['-']) r.2.data = true)
    (h : ∀ x ∈ codes, likePrefix (pfx.data ++ ['-']) x.2.data = true → x ≠ r → x.1 < r.1) :
    lastCode pfx codes = some r.2 := by
  unfold lastCode
  rw [lastById_greatest r]
  · rfl
  · exact List.mem_filter.2 ⟨hr, by simpa using hm⟩
  · intro x hx hne
    have := List.mem_filter.1 hx
    exact h x this.1 (by simpa using this.2) hne

theorem lastCode_of_no_match (pfx : String) (codes : List (Nat × String))
    (h : ∀ x ∈ codes, likePrefix (pfx.data ++ ['-']) x.2.data = false) :
    lastCode pfx codes = none := by
  unfold lastCode
  have : codes.filter (fun r => likePrefix (pfx.data ++ ['-']) r.2.data) = [] := by
    rw [List.filter_eq_nil_iff]
    intro x hx
    simp [h x hx]
  rw [this]
  rfl

/-! ## Identifier generation: what the generator returns -/

theorem prefix_has_no_dash {pfx : String} (hp : pfx ∈ ["R", "INC", "EXP"]) : '-' ∉ pfx.data := by
  simp only [List.mem_cons, List.mem_singleton, List.not_mem_nil, or_false] at hp
  rcases hp with rfl | rfl | rfl <;> decide

theorem data_code (pfx : String) (ds : List Char) :
    (pfx ++ "-" ++ String.mk ds).data = pfx.data ++ '-' :: ds := by
  simp [String.data_append]

/-- C1 (amended): for every prefix P in R, INC, EXP: when no stored code matches
`LIKE 'P-%'` (it starts with `P-` up to the case of ASCII letters) the generated
code carries number 1; when the matching row of greatest id has the code
`P-<digits>` with value n, and n + 1 is below 2^53, the generated code carries
number n + 1, whatever the numbers of the other rows. -/
theorem C1_generateId_last_row (pfx : String) (hp : pfx ∈ ["R", "INC", "EXP"])
    (codes : List (Nat × String)) :
    ((∀ r ∈ codes, likePrefix (pfx.data ++ ['-']) r.2.data = false) →
        generateId pfx codes = formatId pfx (.int 1))
    ∧ (∀ r ∈ codes, ∀ ds : List Char,
        r.2 = pfx ++ "-" ++ String.mk ds → ds ≠ [] → (∀ c ∈ ds, c ∈ decimalDigits) →
        (∀ x ∈ codes, likePrefix (pfx.data ++ ['-']) x.2.data = true → x ≠ r → x.1 < r.1) →
        radixValue 10 ds + 1 < 2 ^ 53 →
        generateId pfx codes = formatId pfx (.int (Int.ofNat (radixValue 10 ds + 1)))) := by
  constructor
  · intro h
    simp only [generateId, lastCode_of_no_match pfx codes h, newNumber]
  · intro r hr ds hcode hne hds hgreat _
    have hdata : r.2.data = pfx.data ++ '-' :: ds := by rw [hcode, data_code]
    have hlike : likePrefix (pfx.data ++ ['-']) r.2.data = true := by
      rw [hdata]
      have := likePrefix_append (pfx.data ++ ['-']) ds
      simpa using this
    simp only [generateId, lastCode_of_greatest pfx codes r hr hlike hgreat,
      newNumber_of_code r.2 pfx.data ds hdata (prefix_has_no_dash hp) hne hds]

/-- Witness for C1: with `R-009` stored before `R-002`, the next code is `R-003`. -/
theorem C1_generateId_last_row_witness :
    generateId "R" [(1, "R-009"), (2, "R-002")] = "R-003" := by
  have h := (C1_generateId_last_row "R" (by decide) [(1, "R-009"), (2, "R-002")]).2
    (2, "R-002") (by decide) "002".data (by decide) (by decide) (by decide) (by decide)
    (by decide)
  rw [h]
  decide

/-- Counterexample to C1 as stated: the only stored code `r-005` does not start
with `R-`, yet the generated code is `R-006`, not number 1; and after the code
`R-2024-007`, which starts with `R-` and ends in the number 7, the generated
code is `R-2025`, not number 8. -/
theorem C1_counterexample :
    (∀ r ∈ [((1 : Nat), "r-005")], ¬ ("R-".data <+: r.2.data))
      ∧ generateId "R" [(1, "r-005")] = "R-006"
      ∧ generateId "R" [(1, "r-005")] ≠ formatId "R" (.int 1)
      ∧ generateId "R" [(1, "R-2024-007")] = "R-2025"
      ∧ generateId "R" [(1, "R-2024-007")] ≠ formatId "R" (.int 8) := by
  decide

/-- C2: for every prefix and every number n with 1 ≤ n (below 2^53, where
JavaScript integers are exact) the generated code is the prefix, a `-`, and the
decimal numeral of n (digits only, value n, no leading zero) left-padded with
`0` to width 3: the padded part has exactly 3 characters when n ≤ 999, and for
n ≥ 1000 it is the unpadded numeral, of 4 or more digits. -/
theorem C2_formatId_padding (pfx : String) (n : Nat) (h1 : 1 ≤ n) (_hs : n < 2 ^ 53) :
    ∃ ds : List Char,
      (∀ c ∈ ds, c ∈ decimalDigits) ∧ radixValue 10 ds = n ∧ ds.head? ≠ some '0'
      ∧ formatId pfx (.int (Int.ofNat n))
          = pfx ++ "-" ++ String.mk (List.replicate (3 - ds.length) '0' ++ ds)
      ∧ (n ≤ 999 → (List.replicate (3 - ds.length) '0' ++ ds).length = 3)
      ∧ (1000 ≤ n → formatId pfx (.int (Int.ofNat n)) = pfx ++ "-" ++ String.mk ds
          ∧ 4 ≤ ds.length) := by
  obtain ⟨hd, hv, hne, hz⟩ := natToDecimal_spec n
  refine ⟨natToDecimal n, hd, hv, hz h1, rfl, ?_, ?_⟩
  · intro h
    have hl := natToDecimal_length_le_three h
    simp only [List.length_append, List.length_replicate]
    omega
  · intro h
    have hl := natToDecimal_length_ge_four h
    refine ⟨?_, hl⟩
    have h0 : 3 - (natToDecimal n).length = 0 := by omega
    simp [formatId, JSNumber.toJSString, padStart, h0]

/-- Witness for C2: number 7 gives `R-007` and number 1000 gives `R-1000`. -/
theorem C2_formatId_padding_witness :
    formatId "R" (.int 7) = "R-007" ∧ formatId "R" (.int 1000) = "R-1000"
      ∧ ∃ ds : List Char,
        (∀ c ∈ ds, c ∈ decimalDigits) ∧ radixValue 10 ds = 1000 ∧ ds.head? ≠ some '0'
        ∧ formatId "R" (.int (Int.ofNat 1000))
            = "R" ++ "-" ++ String.mk (List.replicate (3 - ds.length) '0' ++ ds)
        ∧ (1000 ≤ 999 → (List.replicate (3 - ds.length) '0' ++ ds).length = 3)
        ∧ (1000 ≤ 1000 → formatId "R" (.int (Int.ofNat 1000)) = "R" ++ "-" ++ String.mk ds
            ∧ 4 ≤ ds.length) :=
  ⟨by decide, by decide, C2_formatId_padding "R" 1000 (by decide) (by norm_num)⟩

/-! ## The intake handler, step by step -/

theorem Table.lt_nextId {α : Type} (t : Table α) : ∀ x ∈ t.rows, x.1 < t.nextId := by
  have key : ∀ (l : List (Nat × α)), ∀ x ∈ l, x.1 ≤ l.foldr (fun r m => max r.1 m) 0 := by
    intro l
    induction l with
    | nil => intro x hx; cases hx
    | cons a u ih =>
      intro x hx
      rcases List.mem_cons.1 hx with rfl | hx
      · simp
      · have := ih x hx
        simp only [List.foldr_cons]
        omega
  intro x hx
  have := key t.rows x hx
  simp only [Table.nextId, Table.maxId]
  omega

/-- What a successful `INSERT INTO residents` does. -/
theorem insertResident_some {db : Db} {code : String} {age : JSNumber} {req : ResidentRequest}
    {id : Nat} {db1 : Db} (h : insertResident db code age req = some (id, db1)) :
    id = db.residents.nextId
      ∧ (∃ row : ResidentRow, row.resident_id = code ∧ db1.residents = db.residents.insert row)
      ∧ db1.guardians = db.guardians ∧ db1.health_records = db.health_records
      ∧ db1.medications = db.medications ∧ db1.rooms = db.rooms
      ∧ db1.donation_categories = db.donation_categories
      ∧ db1.transactions = db.transactions := by
  unfold insertResident at h
  cases age with
  | nan => simp at h
  | int a =>
    simp only at h
    split at h
    · simp only [Option.some.injEq, Prod.mk.injEq] at h
      obtain ⟨rfl, rfl⟩ := h
      exact ⟨rfl, ⟨_, rfl, rfl⟩, rfl, rfl, rfl, rfl, rfl, rfl⟩
    · cases h

/-- What the statements between `BEGIN` and `COMMIT` do when none throws. -/
theorem residentWrites_some {db : Db} {code : String} {age : JSNumber} {req : ResidentRequest}
    {id : Nat} {db' : Db} (h : residentWrites db code age req = some (id, db')) :
    id = db.residents.nextId
      ∧ (∃ row : ResidentRow, row.resident_id = code ∧ db'.residents = db.residents.insert row)
      ∧ db'.guardians = insertGuardians id req.form.guardians.items db.guardians
      ∧ db'.health_records = insertHealthRecords id req.form db.health_records
      ∧ insertMedications id (req.form.join_date.getD "") req.form.medications.items
          db.medications = some db'.medications
      ∧ db'.rooms = db.rooms ∧ db'.donation_categories = db.donation_categories
      ∧ db'.transactions = db.transactions := by
  unfold residentWrites at h
  cases hi : insertResident db code age req with
  | none => simp [hi] at h
  | some r =>
    obtain ⟨rid, db1⟩ := r
    obtain ⟨h1, h2, h3, h4, h5, h6, h7, h8⟩ := insertResident_some hi
    simp only [hi] at h
    cases hm : insertMedications rid (req.form.join_date.getD "") req.form.medications.items
        db1.medications with
    | none => simp [hm] at h
    | some meds =>
      simp only [hm, Option.some.injEq, Prod.mk.injEq] at h
      obtain ⟨rfl, rfl⟩ := h
      rw [h5] at hm
      exact ⟨h1, h2, by simp [h3], by simp [h4], by simpa using hm, h6, h7, h8⟩

/-- The handler either answers `201` after the writes succeeded, with the
generated code and the committed database, or leaves the database as it was. -/
theorem createResident_cases (clock : Clock) (req : ResidentRequest) (db : Db) :
    (∃ id p a age db',
        createResident clock req db
          = (.created id (generateId "R" db.residentCodes) p a age, db')
        ∧ firstMissing req.form = none
        ∧ residentWrites db (generateId "R" db.residentCodes)
            (calculateAge clock.today (clock.dateOf (req.form.birth_date.getD ""))) req
          = some (id, db'))
      ∨ ((createResident clock req db).2 = db
          ∧ (createResident clock req db).1.isCreated = false) := by
  unfold createResident
  cases hf : firstMissing req.form with
  | some f => right; exact ⟨rfl, rfl⟩
  | none =>
    simp only
    cases hw : residentWrites db (generateId "R" db.residentCodes)
        (calculateAge clock.today (clock.dateOf (req.form.birth_date.getD ""))) req with
    | none => right; exact ⟨rfl, rfl⟩
    | some r =>
      obtain ⟨id, db'⟩ := r
      cases ha : calculateAge clock.today (clock.dateOf (req.form.birth_date.getD "")) with
      | nan => right; exact ⟨rfl, rfl⟩
      | int a =>
        left
        refine ⟨id, _, _, a, db', rfl, ?_, ?_⟩ <;> first | rfl | trivial

/-! ## Codes generated by successive creations -/

theorem formatId_data (pfx : String) (k : Nat) :
    (formatId pfx (.int (Int.ofNat k))).data
      = pfx.data ++ '-' :: padStart 3 '0' (natToDecimal k) := by
  simp [formatId, JSNumber.toJSString, String.data_append]

theorem padStart_natToDecimal (k : Nat) :
    (∀ c ∈ padStart 3 '0' (natToDecimal k), c ∈ decimalDigits)
      ∧ radixValue 10 (padStart 3 '0' (natToDecimal k)) = k
      ∧ padStart 3 '0' (natToDecimal k) ≠ [] := by
  obtain ⟨hd, hv, hne, _⟩ := natToDecimal_spec k
  refine ⟨mem_padStart_zero hd, ?_, ?_⟩
  · rw [padStart, radixValue_replicate_zero, hv]
  · intro h
    rw [padStart, List.append_eq_nil] at h
    exact hne h.2

theorem formatId_injective (pfx : String) {a b : Nat}
    (h : formatId pfx (.int (Int.ofNat a)) = formatId pfx (.int (Int.ofNat b))) : a = b := by
  have h1 := congrArg String.data h
  rw [formatId_data, formatId_data] at h1
  have h2 := List.append_cancel_left h1
  simp only [List.cons.injEq, true_and] at h2
  have := congrArg (radixValue 10) h2
  rwa [(padStart_natToDecimal a).2.1, (padStart_natToDecimal b).2.1] at this

theorem newNumber_formatId {pfx : String} (hp : pfx ∈ ["R", "INC", "EXP"]) (k : Nat) :
    newNumber (some (formatId pfx (.int (Int.ofNat k)))) = .int (Int.ofNat (k + 1)) := by
  obtain ⟨hd, hv, hne⟩ := padStart_natToDecimal k
  rw [newNumber_of_code _ pfx.data _ (formatId_data pfx k) (prefix_has_no_dash hp) hne hd, hv]

theorem likePrefix_formatId (pfx : String) (n : JSNumber) :
    likePrefix (pfx.data ++ ['-']) (formatId pfx n).data = true := by
  have : (formatId pfx n).data = (pfx.data ++ ['-']) ++ padStart 3 '0' n.toJSString := by
    simp [formatId, String.data_append]
  rw [this]
  exact likePrefix_append _ _

theorem lastCode_append (pfx : String) (codes : List (Nat × String)) (i : Nat) (c : String)
    (hlt : ∀ x ∈ codes, x.1 < i) (hm : likePrefix (pfx.data ++ ['-']) c.data = true) :
    lastCode pfx (codes ++ [(i, c)]) = some c := by
  apply lastCode_of_greatest pfx _ (i, c) (by simp) hm
  intro x hx _ hne
  rcases List.mem_append.1 hx with hx | hx
  · exact hlt x hx
  · simp only [List.mem_singleton] at hx
    exact absurd hx hne

theorem residentCodes_insert (db db' : Db) (row : ResidentRow)
    (h : db'.residents = db.residents.insert row) :
    db'.residentCodes = db.residentCodes ++ [(db.residents.nextId, row.resident_id)] := by
  simp [Db.residentCodes, h, Table.insert]

theorem residentCodes_lt (db : Db) : ∀ x ∈ db.residentCodes, x.1 < db.residents.nextId := by
  intro x hx
  simp only [Db.residentCodes, List.mem_map] at hx
  obtain ⟨y, hy, rfl⟩ := hx
  exact Table.lt_nextId _ y hy

theorem createResidents_codes (steps : List (Clock × ResidentRequest)) :
    ∀ (db : Db) (k : Nat),
      lastCode "R" db.residentCodes
          = (if k = 0 then none else some (formatId "R" (.int (Int.ofNat k)))) →
      (∀ resp ∈ (createResidents steps db).1, resp.isCreated = true) →
      (createResidents steps db).1.map ResidentResponse.code?
        = (List.range steps.length).map
            (fun j => some (formatId "R" (.int (Int.ofNat (k + j + 1))))) := by
  induction steps with
  | nil => intro db k _ _; rfl
  | cons s rest ih =>
    intro db k hlast hok
    obtain ⟨clock, req⟩ := s
    have hgen : generateId "R" db.residentCodes = formatId "R" (.int (Int.ofNat (k + 1))) := by
      unfold generateId
      rw [hlast]
      by_cases hk : k = 0
      · subst hk; rfl
      · rw [if_neg hk, newNumber_formatId (by decide) k]
    rcases createResident_cases clock req db with ⟨id, p, a, age, db', hres, _, hw⟩ | ⟨_, hno⟩
    · obtain ⟨_, ⟨row, hrow, hins⟩, _⟩ := residentWrites_some hw
      have hcodes := residentCodes_insert db db' row hins
      have hlast' : lastCode "R" db'.residentCodes
          = (if k + 1 = 0 then none else some (formatId "R" (.int (Int.ofNat (k + 1))))) := by
        rw [if_neg (Nat.succ_ne_zero k), hcodes, hrow, hgen]
        exact lastCode_append "R" _ _ _ (residentCodes_lt db) (likePrefix_formatId _ _)
      have hrest : ∀ resp ∈ (createResidents rest db').1, resp.isCreated = true := by
        intro resp hresp
        apply hok
        simp only [createResidents, hres]
        exact List.mem_cons_of_mem _ hresp
      have := ih db' (k + 1) hlast' hrest
      simp only [createResidents, hres, List.map_cons, ResidentResponse.code?, this, hgen,
        List.length_cons, List.range_succ_eq_map, List.map_map]
      congr 1
      apply List.map_congr_left
      intro j _
      simp only [Function.comp]
      congr 4
      omega
    · exfalso
      have := hok (createResident clock req db).1 (by simp [createResidents])
      rw [hno] at this
      cases this

/-- C3: starting from a store with no residents, N resident creations handled
one after another that all succeed (N below 2^53) return, in order, exactly the
codes numbered 1, 2, ..., N, and no code twice. -/
theorem C3_sequential_codes (steps : List (Clock × ResidentRequest)) (db : Db)
    (hempty : db.residents.rows = []) (_hN : steps.length < 2 ^ 53)
    (hok : ∀ resp ∈ (createResidents steps db).1, resp.isCreated = true) :
    (createResidents steps db).1.map ResidentResponse.code?
        = (List.range steps.length).map
            (fun j => some (formatId "R" (.int (Int.ofNat (j + 1)))))
      ∧ ((createResidents steps db).1.map ResidentResponse.code?).Nodup := by
  have hlast : lastCode "R" db.residentCodes
      = (if 0 = 0 then none else some (formatId "R" (.int (Int.ofNat 0)))) := by
    simp [Db.residentCodes, hempty, lastCode, lastById]
  have h := createResidents_codes steps db 0 hlast hok
  simp only [Nat.zero_add] at h
  refine ⟨h, ?_⟩
  rw [h]
  apply List.Nodup.map _ (List.nodup_range _)
  intro a b hab
  simp only [Option.some.injEq] at hab
  have := formatId_injective "R" hab
  omega

/-- Witness for C3: three creations on the empty database return `R-001`,
`R-002`, `R-003`. -/
theorem C3_sequential_codes_witness :
    (createResidents [(sampleClock, sampleResident), (sampleClock, sampleResident),
        (sampleClock, sampleResident)] Db.empty).1.map ResidentResponse.code?
      = [some "R-001", some "R-002", some "R-003"] := by
  have h := (C3_sequential_codes [(sampleClock, sampleResident), (sampleClock, sampleResident),
    (sampleClock, sampleResident)] Db.empty rfl (by norm_num) (by decide)).1
  rw [h]
  decide

/-! ## Codes whose number cannot be read -/

theorem splitOn_head (sep : Char) (s : List Char) :
    (splitOn sep s).head? = some (s.takeWhile (fun c => c != sep)) := by
  induction s with
  | nil => rfl
  | cons a t ih =>
    by_cases h : a = sep
    · simp [splitOn, h]
    · cases hs : splitOn sep t with
      | nil => simp [hs] at ih
      | cons x u =>
        rw [hs] at ih
        simp only [List.head?_cons, Option.some.injEq] at ih
        simp [splitOn, h, hs, ih]

theorem mem_decimalDigits_of_isRadixDigit {c : Char} (h : isRadixDigit 10 c = true) :
    c ∈ decimalDigits := by
  unfold isRadixDigit digitValue at h
  simp only at h
  have hc : Char.ofNat c.toNat = c := Char.ofNat_toNat c
  split at h
  · rename_i v hv
    split at hv
    · rename_i hr
      obtain ⟨h1, h2⟩ := hr
      rw [← hc]
      generalize c.toNat = n at h1 h2
      interval_cases n <;> decide
    · split at hv
      · simp only [Option.some.injEq] at hv
        subst hv
        simp at h
      · split at hv
        · simp only [Option.some.injEq] at hv
          subst hv
          simp at h
        · cases hv
  · cases h

theorem parseInt_nan_of_head {seg : List Char}
    (h : ∀ c, seg.head? = some c →
      c ∉ decimalDigits ∧ isStrWhiteSpaceChar c = false ∧ c ≠ '+' ∧ c ≠ '-') :
    parseInt seg = .nan := by
  cases seg with
  | nil => rfl
  | cons a t =>
    obtain ⟨hd, hsp, hplus, hminus⟩ := h a rfl
    have hdrop : (a :: t).dropWhile isStrWhiteSpaceChar = a :: t := by
      rw [List.dropWhile_cons, hsp]; rfl
    have hsign : stripSign (a :: t) = (false, a :: t) := by
      simp [stripSign, hminus, hplus]
    have h0 : a ≠ '0' := fun e => hd (e ▸ by decide)
    have hhex : stripHexPrefix (a :: t) = (10, a :: t) := by
      cases t with
      | nil => rfl
      | cons b u => simp [stripHexPrefix, h0]
    have hnd : isRadixDigit 10 a = false := by
      cases hr : isRadixDigit 10 a with
      | false => rfl
      | true => exact absurd (mem_decimalDigits_of_isRadixDigit hr) hd
    have htake : (a :: t).takeWhile (isRadixDigit 10) = [] := by
      rw [List.takeWhile_cons, hnd]; rfl
    simp only [parseInt, hdrop, hsign, hhex, htake, List.isEmpty_nil, if_true]

/-- On decimal digits followed by the end or by a character that is no decimal
digit `parseInt` returns the value of the digits, unless the text begins `0x` or
`0X`. -/
theorem parseInt_digits_then {ds rest : List Char} (hne : ds ≠ [])
    (h : ∀ c ∈ ds, c ∈ decimalDigits) (hrest : ∀ c, rest.head? = some c → c ∉ decimalDigits)
    (hhex : ¬ (ds = ['0'] ∧ (rest.head? = some 'x' ∨ rest.head? = some 'X'))) :
    parseInt (ds ++ rest) = .int (Int.ofNat (radixValue 10 ds)) := by
  cases ds with
  | nil => exact absurd rfl hne
  | cons a t =>
    have ha := h a (List.mem_cons_self a t)
    have hsp := not_space_of_mem ha
    obtain ⟨hm, hp, _, _⟩ := ne_special_of_mem ha
    have hdrop : (a :: t ++ rest).dropWhile isStrWhiteSpaceChar = a :: t ++ rest := by
      rw [List.cons_append, List.dropWhile_cons, hsp]; rfl
    have hsign : stripSign (a :: t ++ rest) = (false, a :: t ++ rest) := by
      simp [stripSign, hm, hp]
    have hstrip : stripHexPrefix (a :: t ++ rest) = (10, a :: t ++ rest) := by
      cases t with
      | nil =>
        cases rest with
        | nil => rfl
        | cons b u =>
          have hb : ¬ (a = '0' ∧ (b = 'x' ∨ b = 'X')) := by
            rintro ⟨h0, hx⟩
            apply hhex
            refine ⟨by rw [h0], ?_⟩
            rcases hx with hx | hx
            · exact Or.inl (by rw [hx]; rfl)
            · exact Or.inr (by rw [hx]; rfl)
          simp only [List.cons_append, List.nil_append, stripHexPrefix, if_neg hb]
      | cons b u =>
        have hb := h b (List.mem_cons_of_mem a (List.mem_cons_self b u))
        obtain ⟨_, _, hx, hX⟩ := ne_special_of_mem hb
        simp [stripHexPrefix, hx, hX]
    have htake : (a :: t ++ rest).takeWhile (isRadixDigit 10) = a :: t := by
      have hall : ∀ c ∈ a :: t, isRadixDigit 10 c = true := fun c hc =>
        isRadixDigit_of_mem (h c hc)
      have hstop : rest.takeWhile (isRadixDigit 10) = [] := by
        cases rest with
        | nil => rfl
        | cons b u =>
          have hnd : isRadixDigit 10 b = false := by
            cases hr : isRadixDigit 10 b with
            | false => rfl
            | true => exact absurd (mem_decimalDigits_of_isRadixDigit hr) (hrest b rfl)
          rw [List.takeWhile_cons, hnd]; rfl
      rw [List.takeWhile_append_of_pos hall, hstop, List.append_nil]
    simp only [parseInt, hdrop, hsign, hstrip, htake, List.isEmpty_cons, Bool.false_eq_true,
      if_false]

theorem takeWhile_digits_then {ds rest : List Char} (h : ∀ c ∈ ds, c ∈ decimalDigits) :
    (ds ++ rest).takeWhile (fun c => c != '-') = ds ++ rest.takeWhile (fun c => c != '-') := by
  apply List.takeWhile_append_of_pos
  intro c hc
  have := (ne_special_of_mem (h c hc)).1
  simpa using this

theorem head_takeWhile {p : Char → Bool} {l : List Char} {c : Char}
    (h : (l.takeWhile p).head? = some c) : l.head? = some c := by
  cases l with
  | nil => cases h
  | cons a t =>
    rw [List.takeWhile_cons] at h
    split at h
    · exact h
    · cases h

/-! ## The transaction handler -/

theorem createTransaction_invalid {req : TransactionRequest} {db : Db}
    (h : db.categoryType req.category_id = none) :
    createTransaction req db = (.invalidCategory, db) := by
  simp [createTransaction, h]

theorem createTransaction_rejected {req : TransactionRequest} {db : Db} {type : String}
    (h : db.categoryType req.category_id = some type)
    (hno : transactionInsertOk db (generateId (transactionPrefix type) db.transactionCodes) req
      = false) :
    createTransaction req db = (.internalError, db) := by
  simp [createTransaction, h, hno]

theorem transactionCodes_insert (db : Db) (row : TransactionRow) :
    ({ db with transactions := db.transactions.insert row } : Db).transactionCodes
      = db.transactionCodes ++ [(db.transactions.nextId, row.transaction_id)] := by
  simp [Db.transactionCodes, Table.insert]

theorem lastCode_append_no_match (pfx : String) (codes : List (Nat × String)) (i : Nat)
    (c : String) (hm : likePrefix (pfx.data ++ ['-']) c.data = false) :
    lastCode pfx (codes ++ [(i, c)]) = lastCode pfx codes := by
  simp [lastCode, List.filter_append, List.filter_cons, hm]

/-- After any request, the codes stored are the old ones, possibly followed by
one new code generated for the prefix of the request's category. -/
theorem createTransaction_codes (req : TransactionRequest) (db : Db) {type : String}
    (h : db.categoryType req.category_id = some type) :
    (createTransaction req db).2.transactionCodes = db.transactionCodes
      ∨ (createTransaction req db).2.transactionCodes = db.transactionCodes
          ++ [(db.transactions.nextId, generateId (transactionPrefix type) db.transactionCodes)]
        := by
  cases hok : transactionInsertOk db (generateId (transactionPrefix type) db.transactionCodes) req
  · left; rw [createTransaction_rejected h hok]
  · right
    simp only [createTransaction, h, hok, if_true]
    rw [transactionCodes_insert]
    rfl

theorem createTransaction_created {req : TransactionRequest} {db : Db} {type : String}
    (h : db.categoryType req.category_id = some type) {id : Nat} {code : String}
    {att : Option String} (hc : (createTransaction req db).1 = .created id code att) :
    code = generateId (transactionPrefix type) db.transactionCodes := by
  cases hok : transactionInsertOk db (generateId (transactionPrefix type) db.transactionCodes) req
  · rw [createTransaction_rejected h hok] at hc; cases hc
  · simp only [createTransaction, h, hok, if_true, TransactionResponse.created.injEq] at hc
    exact hc.2.1.symm

/-- C4 (amended): identifier generation performs no integrity check and never
fails. When the matching row of greatest id has a code whose part after `P-`
is empty or begins with a character that is neither a decimal digit, nor white
space, nor `+`, the generated code is `P-NaN`. When that part consists of
decimal digits followed by the end or by a character that is no decimal digit,
and does not begin `0x` or `0X`, the digits are read as the number n and the
generated code carries n + 1 (below 2^53). Both handlers store a created row
under the generated code, whatever it is. -/
theorem C4_generateId_unreadable (pfx : String) (hp : pfx ∈ ["R", "INC", "EXP"])
    (codes : List (Nat × String)) (r : Nat × String) (s : List Char) (hr : r ∈ codes)
    (hcode : r.2 = pfx ++ "-" ++ String.mk s)
    (hgreat : ∀ x ∈ codes, likePrefix (pfx.data ++ ['-']) x.2.data = true → x ≠ r → x.1 < r.1) :
    ((∀ c, s.head? = some c →
        c ∉ decimalDigits ∧ isStrWhiteSpaceChar c = false ∧ c ≠ '+') →
      generateId pfx codes = pfx ++ "-" ++ "NaN")
    ∧ (∀ ds rest : List Char, s = ds ++ rest → ds ≠ [] → (∀ c ∈ ds, c ∈ decimalDigits) →
        (∀ c, rest.head? = some c → c ∉ decimalDigits) →
        ¬ (ds = ['0'] ∧ (rest.head? = some 'x' ∨ rest.head? = some 'X')) →
        radixValue 10 ds + 1 < 2 ^ 53 →
        generateId pfx codes = formatId pfx (.int (Int.ofNat (radixValue 10 ds + 1))))
    ∧ (∀ (clock : Clock) (req : ResidentRequest) (db : Db),
        (createResident clock req db).1.isCreated = true →
        ∃ id p a age,
          (createResident clock req db).1
              = .created id (generateId "R" db.residentCodes) p a age
            ∧ (createResident clock req db).2.residentCodes
                = db.residentCodes ++ [(id, generateId "R" db.residentCodes)])
    ∧ (∀ (req : TransactionRequest) (db : Db) (type : String),
        db.categoryType req.category_id = some type →
        ∀ id code att, (createTransaction req db).1 = .created id code att →
          code = generateId (transactionPrefix type) db.transactionCodes
            ∧ (createTransaction req db).2.transactionCodes
                = db.transactionCodes ++ [(db.transactions.nextId, code)]) := by
  have hdata : r.2.data = pfx.data ++ '-' :: s := by rw [hcode, data_code]
  have hlike : likePrefix (pfx.data ++ ['-']) r.2.data = true := by
    rw [hdata]
    have := likePrefix_append (pfx.data ++ ['-']) s
    simpa using this
  have hseg : (splitOn '-' r.2.data)[1]? = some (s.takeWhile (fun c => c != '-')) := by
    rw [hdata, splitOn_head_segment pfx.data s (prefix_has_no_dash hp)]
    have := splitOn_head '-' s
    cases hsp : splitOn '-' s with
    | nil => simp [hsp] at this
    | cons x u => simpa [hsp] using this
  refine ⟨?_, ?_, ?_, ?_⟩
  · intro hs
    have hnan : parseInt (s.takeWhile (fun c => c != '-')) = .nan := by
      apply parseInt_nan_of_head
      intro c hc
      cases s with
      | nil => simp at hc
      | cons a t =>
        rw [List.takeWhile_cons] at hc
        by_cases ha : a = '-'
        · simp [ha] at hc
        · have hb : (a != '-') = true := by simpa using ha
          rw [hb] at hc
          simp only [if_true, List.head?_cons, Option.some.injEq] at hc
          subst hc
          obtain ⟨h1, h2, h3⟩ := hs a rfl
          exact ⟨h1, h2, h3, ha⟩
    simp only [generateId, lastCode_of_greatest pfx codes r hr hlike hgreat, newNumber, hseg,
      parseIntArg, hnan, JSNumber.addOne]
    rfl
  · intro ds rest hs hne hds hrest hhex _
    have hpart : parseInt (s.takeWhile (fun c => c != '-'))
        = .int (Int.ofNat (radixValue 10 ds)) := by
      rw [hs, takeWhile_digits_then hds]
      apply parseInt_digits_then hne hds
      · intro c hc
        exact hrest c (head_takeWhile hc)
      · rintro ⟨h0, hx⟩
        apply hhex
        refine ⟨h0, ?_⟩
        rcases hx with hx | hx
        · exact Or.inl (head_takeWhile hx)
        · exact Or.inr (head_takeWhile hx)
    simp only [generateId, lastCode_of_greatest pfx codes r hr hlike hgreat, newNumber, hseg,
      parseIntArg, hpart, JSNumber.addOne]
    rfl
  · intro clock req db hcreated
    rcases createResident_cases clock req db with ⟨id, p, a, age, db', hres, _, hw⟩ | ⟨_, hno⟩
    · obtain ⟨hid, ⟨row, hrow, hins⟩, _⟩ := residentWrites_some hw
      have hcodes := residentCodes_insert db db' row hins
      rw [hrow, ← hid] at hcodes
      exact ⟨id, p, a, age, by rw [hres], by rw [hres]; exact hcodes⟩
    · rw [hno] at hcreated
      cases hcreated
  · intro req db type hcat id code att hc
    have hcode := createTransaction_created hcat hc
    refine ⟨hcode, ?_⟩
    cases hok : transactionInsertOk db (generateId (transactionPrefix type) db.transactionCodes)
        req
    · rw [createTransaction_rejected hcat hok] at hc
      cases hc
    · rcases createTransaction_codes req db hcat with h | h
      · exfalso
        have hlen := congrArg List.length h
        simp only [createTransaction, hcat, hok, if_true, transactionCodes_insert,
          List.length_append, List.length_singleton] at hlen
        omega
      · rw [h, hcode]

/-- Witness for C4: after `R-abc` the generated code is `R-NaN` and after `R-12x`
it is `R-013`; the parts `0x1F` and `0x` are read as hexadecimal, giving `R-032`
and `R-NaN`. -/
theorem C4_generateId_unreadable_witness :
    generateId "R" [(1, "R-abc")] = "R-NaN"
    ∧ generateId "R" [(1, "R-12x")] = "R-013"
    ∧ generateId "R" [(1, "R-0x1F")] = "R-032"
    ∧ generateId "R" [(1, "R-0x")] = "R-NaN" := by
  have h1 := (C4_generateId_unreadable "R" (by decide) [(1, "R-abc")] (1, "R-abc") "abc".data
    (by decide) (by decide) (by decide)).1 (by decide)
  have h2 := (C4_generateId_unreadable "R" (by decide) [(1, "R-12x")] (1, "R-12x") "12x".data
    (by decide) (by decide) (by decide)).2.1 "12".data "x".data (by decide) (by decide)
    (by decide) (by decide) (by decide) (by decide)
  refine ⟨?_, ?_, by decide, by decide⟩
  · rw [h1]; decide
  · rw [h2]; decide

/-- Counterexample to C4 as stated: after `R-abc` or `R-` the generator yields
`R-NaN`, after `R-12x` it yields `R-013`, and the intake handler then answers
`201` and stores the resident under `R-NaN`. -/
theorem C4_counterexample :
    generateId "R" [(1, "R-abc")] = "R-NaN"
      ∧ generateId "R" [(1, "R-")] = "R-NaN"
      ∧ generateId "R" [(1, "R-12x")] = "R-013"
      ∧ (createResident sampleClock sampleResident (dbWithResident "R-abc")).1
          = .created 2 "R-NaN" none none 74
      ∧ (createResident sampleClock sampleResident (dbWithResident "R-abc")).2.residentCodes
          = [(1, "R-abc"), (2, "R-NaN")] := by
  decide

theorem not_like_INC_of_EXP {c : List Char} (h : "EXP-".data <+: c) :
    likePrefix ("INC".data ++ ['-']) c = false := by
  obtain ⟨t, rfl⟩ := h
  rfl

theorem not_like_EXP_of_INC {c : List Char} (h : "INC-".data <+: c) :
    likePrefix ("EXP".data ++ ['-']) c = false := by
  obtain ⟨t, rfl⟩ := h
  rfl

theorem generateId_isPrefix (pfx : String) (codes : List (Nat × String)) :
    (pfx.data ++ ['-']) <+: (generateId pfx codes).data := by
  refine ⟨padStart 3 '0' (newNumber (lastCode pfx codes)).toJSString, ?_⟩
  simp [generateId, formatId, String.data_append]

/-- C5: transaction codes form two independent sequences. For a request whose
category has type `type`: a created code is the one generated for prefix INC
when the type is income and for EXP otherwise, and starts with that prefix; the
first income transaction (every stored code starts with `EXP-`) gets `INC-001`
and the first expense transaction (every stored code starts with `INC-`) gets
`EXP-001`; and the request leaves the next code of the other direction
unchanged. -/
theorem C5_independent_sequences (req : TransactionRequest) (db : Db) (type : String)
    (hcat : db.categoryType req.category_id = some type) :
    (∀ id code att, (createTransaction req db).1 = .created id code att →
        code = generateId (if type = "income" then "INC" else "EXP") db.transactionCodes
          ∧ (type = "income" → "INC-".data <+: code.data)
          ∧ (type ≠ "income" → "EXP-".data <+: code.data))
      ∧ (type = "income" → (∀ r ∈ db.transactionCodes, "EXP-".data <+: r.2.data) →
          ∀ id code att, (createTransaction req db).1 = .created id code att → code = "INC-001")
      ∧ (type ≠ "income" → (∀ r ∈ db.transactionCodes, "INC-".data <+: r.2.data) →
          ∀ id code att, (createTransaction req db).1 = .created id code att → code = "EXP-001")
      ∧ (type ≠ "income" →
          generateId "INC" (createTransaction req db).2.transactionCodes
            = generateId "INC" db.transactionCodes)
      ∧ (type = "income" →
          generateId "EXP" (createTransaction req db).2.transactionCodes
            = generateId "EXP" db.transactionCodes) := by
  refine ⟨?_, ?_, ?_, ?_, ?_⟩
  · intro id code att hc
    have h := createTransaction_created hcat hc
    refine ⟨h, ?_, ?_⟩
    · intro ht
      rw [h, transactionPrefix, if_pos ht]
      exact generateId_isPrefix "INC" _
    · intro ht
      rw [h, transactionPrefix, if_neg ht]
      exact generateId_isPrefix "EXP" _
  · intro ht hall id code att hc
    rw [createTransaction_created hcat hc, transactionPrefix, if_pos ht, generateId,
      lastCode_of_no_match "INC" _ (fun x hx => not_like_INC_of_EXP (hall x hx))]
    decide
  · intro ht hall id code att hc
    rw [createTransaction_created hcat hc, transactionPrefix, if_neg ht, generateId,
      lastCode_of_no_match "EXP" _ (fun x hx => not_like_EXP_of_INC (hall x hx))]
    decide
  · intro ht
    rcases createTransaction_codes req db hcat with h | h
    · rw [h]
    · rw [h, transactionPrefix, if_neg ht]
      exact congrArg (fun l => formatId "INC" (newNumber l))
        (lastCode_append_no_match "INC" _ _ _
          (not_like_INC_of_EXP (generateId_isPrefix "EXP" _)))
  · intro ht
    rcases createTransaction_codes req db hcat with h | h
    · rw [h]
    · rw [h, transactionPrefix, if_pos ht]
      exact congrArg (fun l => formatId "EXP" (newNumber l))
        (lastCode_append_no_match "EXP" _ _ _
          (not_like_EXP_of_INC (generateId_isPrefix "INC" _)))

/-- Witness for C5: on a ledger holding two expense transactions, an income
request is answered with `INC-001`, and the next expense code stays `EXP-003`. -/
theorem C5_independent_sequences_witness :
    (createTransaction (sampleTransaction (some 1) (some "100000") none) sampleLedger).1
        = .created 3 "INC-001" none
      ∧ generateId "EXP"
          (createTransaction (sampleTransaction (some 1) (some "100000") none)
            sampleLedger).2.transactionCodes = "EXP-003"
      ∧ generateId "EXP" sampleLedger.transactionCodes = "EXP-003" := by
  have h := C5_independent_sequences (sampleTransaction (some 1) (some "100000") none)
    sampleLedger "income" (by decide)
  refine ⟨?_, ?_, by decide⟩
  · have h1 := h.2.1 rfl (by decide) 3
      (generateId "INC" sampleLedger.transactionCodes) none (by decide)
    rw [← h1]
    decide
  · rw [h.2.2.2.2 rfl]
    decide

/-- C6 (amended): a category id that matches no donation category is answered
`400 Invalid category` and the database is unchanged. With an existing category
the handler inserts under the generated code: when the table's constraints hold
(the code is not stored yet, amount and date were sent, the payment method,
`cash` by default, is one of the four allowed) exactly one row is appended to
`transactions`, carrying the generated code, the given category, amount and
date and the attachment path of the uploaded file (null without a file), and
nothing else changes; when a constraint fails the answer is `500` and the
database is unchanged. -/
theorem C6_createTransaction_effect (req : TransactionRequest) (db : Db) :
    (db.categoryType req.category_id = none →
        createTransaction req db = (.invalidCategory, db))
      ∧ (∀ type, db.categoryType req.category_id = some type →
          (transactionInsertOk db (generateId (transactionPrefix type) db.transactionCodes) req
              = true →
            ∃ row : TransactionRow,
              createTransaction req db
                = (.created db.transactions.nextId
                      (generateId (transactionPrefix type) db.transactionCodes)
                      (req.file.map (fun f => "/uploads/transactions/" ++ f)),
                    { db with
                      transactions :=
                        { rows := db.transactions.rows ++ [(db.transactions.nextId, row)]
                          seq := db.transactions.nextId } })
              ∧ row.transaction_id = generateId (transactionPrefix type) db.transactionCodes
              ∧ some row.category_id = req.category_id
              ∧ some row.amount = req.amount
              ∧ some row.transaction_date = req.transaction_date
              ∧ row.attachment_path = req.file.map (fun f => "/uploads/transactions/" ++ f))
          ∧ (transactionInsertOk db (generateId (transactionPrefix type) db.transactionCodes) req
              = false →
            createTransaction req db = (.internalError, db))) := by
  refine ⟨createTransaction_invalid, ?_⟩
  intro type hcat
  refine ⟨?_, createTransaction_rejected hcat⟩
  intro hok
  have hcid : ∃ c, req.category_id = some c := by
    cases hc : req.category_id with
    | none => simp [Db.categoryType, hc] at hcat
    | some c => exact ⟨c, rfl⟩
  obtain ⟨c, hc⟩ := hcid
  have hparts := hok
  simp only [transactionInsertOk, Bool.and_eq_true] at hparts
  obtain ⟨⟨⟨_, ha⟩, hd⟩, _⟩ := hparts
  obtain ⟨a, ha⟩ := Option.isSome_iff_exists.1 ha
  obtain ⟨d, hd⟩ := Option.isSome_iff_exists.1 hd
  refine ⟨transactionRow (generateId (transactionPrefix type) db.transactionCodes)
    (req.file.map (fun f => "/uploads/transactions/" ++ f)) req, ?_, rfl, ?_, ?_, ?_, rfl⟩
  · simp only [createTransaction, hcat, hok, if_true, Table.insert]
  · simp [transactionRow, hc]
  · simp [transactionRow, ha]
  · simp [transactionRow, hd]

/-- Witness for C6: an income request with a receipt is answered `201` with
`INC-001` and the attachment path, and the table has one row more. -/
theorem C6_createTransaction_effect_witness :
    (createTransaction (sampleTransaction (some 1) (some "100000") (some "proof-1.pdf"))
        sampleLedger).1 = .created 3 "INC-001" (some "/uploads/transactions/proof-1.pdf")
      ∧ (createTransaction (sampleTransaction (some 1) (some "100000") (some "proof-1.pdf"))
          sampleLedger).2.transactions.rows.length
        = sampleLedger.transactions.rows.length + 1 := by
  obtain ⟨row, h1, _⟩ :=
    ((C6_createTransaction_effect (sampleTransaction (some 1) (some "100000")
      (some "proof-1.pdf")) sampleLedger).2 "income" (by decide)).1 (by decide)
  rw [h1]
  exact ⟨by simp only; decide, by simp⟩

/-- Counterexample to C6 as stated: with the existing category 1 but no amount,
or with a payment method outside the allowed values, the insert is rejected:
the answer is `500` and no row is persisted. -/
theorem C6_counterexample :
    sampleLedger.categoryType (some 1) = some "income"
      ∧ createTransaction (sampleTransaction (some 1) none none) sampleLedger
          = (.internalError, sampleLedger)
      ∧ createTransaction
          { sampleTransaction (some 1) (some "100000") none with payment_method := some "qris" }
          sampleLedger
          = (.internalError, sampleLedger) := by
  decide

/-! ## Validation of the required fields -/

theorem firstMissing_eq (f : ResidentForm) :
    firstMissing f =
      if truthy f.name = false then some "name"
      else if truthy f.gender = false then some "gender"
      else if truthy f.birth_date = false then some "birth_date"
      else if truthy f.join_date = false then some "join_date"
      else if truthy f.condition = false then some "condition"
      else none := by
  simp only [firstMissing, requiredFields, List.find?]
  rw [show f.field "name" = f.name from rfl, show f.field "gender" = f.gender from rfl,
    show f.field "birth_date" = f.birth_date from rfl,
    show f.field "join_date" = f.join_date from rfl,
    show f.field "condition" = f.condition from rfl]
  generalize truthy f.name = a
  generalize truthy f.gender = b
  generalize truthy f.birth_date = c
  generalize truthy f.join_date = d
  generalize truthy f.condition = e
  cases a <;> cases b <;> cases c <;> cases d <;> cases e <;> rfl

/-- C7: the intake handler rejects a request with `400` and the message
`Field <name> harus diisi` whenever one of name, gender, birth_date, join_date,
condition is missing or empty; the field named is the first such one in that
order; the database is then unchanged (no resident, guardian, medication or
health-record row is added). When all five are present the validation does not
reject. -/
theorem C7_required_fields (clock : Clock) (req : ResidentRequest) (db : Db) :
    (∀ field, firstMissing req.form = some field →
        createResident clock req db = (.badRequest ("Field " ++ field ++ " harus diisi"), db))
      ∧ (truthy req.form.name = false → firstMissing req.form = some "name")
      ∧ (truthy req.form.name = true → truthy req.form.gender = false →
          firstMissing req.form = some "gender")
      ∧ (truthy req.form.name = true → truthy req.form.gender = true →
          truthy req.form.birth_date = false → firstMissing req.form = some "birth_date")
      ∧ (truthy req.form.name = true → truthy req.form.gender = true →
          truthy req.form.birth_date = true → truthy req.form.join_date = false →
          firstMissing req.form = some "join_date")
      ∧ (truthy req.form.name = true → truthy req.form.gender = true →
          truthy req.form.birth_date = true → truthy req.form.join_date = true →
          truthy req.form.condition = false → firstMissing req.form = some "condition")
      ∧ (truthy req.form.name = true → truthy req.form.gender = true →
          truthy req.form.birth_date = true → truthy req.form.join_date = true →
          truthy req.form.condition = true →
          firstMissing req.form = none
            ∧ ∀ error, (createResident clock req db).1 ≠ .badRequest error) := by
  refine ⟨?_, ?_, ?_, ?_, ?_, ?_, ?_⟩
  · intro field h
    simp only [createResident, h]
  · intro h1; simp [firstMissing_eq, h1]
  · intro h1 h2; simp [firstMissing_eq, h1, h2]
  · intro h1 h2 h3; simp [firstMissing_eq, h1, h2, h3]
  · intro h1 h2 h3 h4; simp [firstMissing_eq, h1, h2, h3, h4]
  · intro h1 h2 h3 h4 h5; simp [firstMissing_eq, h1, h2, h3, h4, h5]
  · intro h1 h2 h3 h4 h5
    have hnone : firstMissing req.form = none := by
      simp [firstMissing_eq, h1, h2, h3, h4, h5]
    refine ⟨hnone, ?_⟩
    intro error
    unfold createResident
    simp only [hnone]
    split <;> intro h <;> cases h

/-- Witness for C7: a form with an empty gender and no birth date is rejected
naming `gender`, on a database that stays as it was; the complete sample form is
not rejected. -/
theorem C7_required_fields_witness :
    createResident sampleClock
        { sampleResident with
          form := { sampleForm with gender := some "", birth_date := none } }
        (dbWithResident "R-001")
      = (.badRequest "Field gender harus diisi", dbWithResident "R-001")
    ∧ ∀ error,
        (createResident sampleClock sampleResident (dbWithResident "R-001")).1
          ≠ .badRequest error := by
  constructor
  · have h := (C7_required_fields sampleClock
      { sampleResident with form := { sampleForm with gender := some "", birth_date := none } }
      (dbWithResident "R-001")).1 "gender" (by decide)
    rw [h]
    decide
  · exact ((C7_required_fields sampleClock sampleResident (dbWithResident "R-001")).2.2.2.2.2.2
      (by decide) (by decide) (by decide) (by decide) (by decide)).2

/-! ## `calculateAge` -/

theorem ageOn_eq (today birth : JSDate) :
    ageOn today birth
      = today.year - birth.year - (if today.monthDayBefore birth then 1 else 0) := by
  unfold ageOn JSDate.monthDayBefore
  simp only
  split <;> split <;> omega

/-- C8: for a birth date not after today, `calculateAge` (server and client)
returns the number of completed years: the difference of the years, minus 1
when today's month and day come before the birth month and day. It is not
negative, and birth + age years ≤ today < birth + (age + 1) years. -/
theorem C8_calculateAge_exact (today birth : JSDate) (h : birth.le today) :
    calculateAge today (some birth)
        = .int (today.year - birth.year - (if today.monthDayBefore birth then 1 else 0))
      ∧ (∀ (text : Option String) (dateOf : String → Option JSDate),
          truthy text = true → dateOf (text.getD "") = some birth →
          clientCalculateAge today text dateOf
            = .years (today.year - birth.year - (if today.monthDayBefore birth then 1 else 0)))
      ∧ 0 ≤ ageOn today birth
      ∧ (birth.addYears (ageOn today birth)).le today
      ∧ today.lt (birth.addYears (ageOn today birth + 1)) := by
  refine ⟨?_, ?_, ?_, ?_, ?_⟩
  · simp only [calculateAge, ageOn_eq]
  · intro text dateOf ht hd
    simp only [clientCalculateAge, ht, if_true, hd, ageOn_eq]
  · rw [ageOn_eq]
    unfold JSDate.le at h
    unfold JSDate.monthDayBefore
    split <;> omega
  · rw [ageOn_eq]
    unfold JSDate.le JSDate.addYears JSDate.monthDayBefore
    simp only
    split <;> omega
  · rw [ageOn_eq]
    unfold JSDate.lt JSDate.addYears JSDate.monthDayBefore
    simp only
    split <;> omega

/-- Witness for C8: born 2000-06-15, the age is 23 on 2024-06-14 and 24 on
2024-06-15. -/
theorem C8_calculateAge_exact_witness :
    calculateAge { year := 2024, month := 5, date := 14 }
        (some { year := 2000, month := 5, date := 15 }) = .int 23
      ∧ calculateAge { year := 2024, month := 5, date := 15 }
        (some { year := 2000, month := 5, date := 15 }) = .int 24 := by
  have h1 := (C8_calculateAge_exact { year := 2024, month := 5, date := 14 }
    { year := 2000, month := 5, date := 15 } (by decide)).1
  have h2 := (C8_calculateAge_exact { year := 2024, month := 5, date := 15 }
    { year := 2000, month := 5, date := 15 } (by decide)).1
  rw [h1, h2]
  exact ⟨by decide, by decide⟩

/-! ## Dependent rows of a new resident -/

theorem insertGuardians_rows (id : Nat) (gs : List GuardianEntry) :
    ∀ t : Table GuardianRow,
      ∃ new : List (Nat × GuardianRow),
        (insertGuardians id gs t).rows = t.rows ++ new
          ∧ new.map (·.2)
              = (gs.filter (fun g => truthy g.name && truthy g.phone)).map (guardianRow id)
          ∧ (∀ x ∈ new, ∀ y ∈ t.rows, y.1 < x.1) := by
  induction gs with
  | nil => intro t; exact ⟨[], by simp [insertGuardians], rfl, by simp⟩
  | cons g rest ih =>
    intro t
    by_cases hg : (truthy g.name && truthy g.phone) = true
    · obtain ⟨new, h1, h2, h3⟩ := ih (t.insert (guardianRow id g))
      refine ⟨(t.nextId, guardianRow id g) :: new, ?_, ?_, ?_⟩
      · have : insertGuardians id (g :: rest) t
            = insertGuardians id rest (t.insert (guardianRow id g)) := by
          simp only [insertGuardians, List.foldl_cons, hg, if_true]
        rw [this, h1]
        simp [Table.insert]
      · simp [List.filter_cons, hg, h2]
      · intro x hx y hy
        rcases List.mem_cons.1 hx with rfl | hx
        · exact Table.lt_nextId t y hy
        · exact h3 x hx y (by simp [Table.insert, hy])
    · obtain ⟨new, h1, h2, h3⟩ := ih t
      refine ⟨new, ?_, ?_, h3⟩
      · have : insertGuardians id (g :: rest) t = insertGuardians id rest t := by
          simp only [insertGuardians, List.foldl_cons, hg]
          rfl
        rw [this, h1]
      · simp [List.filter_cons, hg, h2]

theorem createResident_created {clock : Clock} {req : ResidentRequest} {db db' : Db} {id : Nat}
    {code : String} {p a : Option String} {age : Int}
    (h : createResident clock req db = (.created id code p a age, db')) :
    residentWrites db (generateId "R" db.residentCodes)
      (calculateAge clock.today (clock.dateOf (req.form.birth_date.getD ""))) req
        = some (id, db') := by
  rcases createResident_cases clock req db with ⟨id2, p2, a2, age2, db2, hres, _, hw⟩ | ⟨_, hno⟩
  · rw [hres] at h
    simp only [Prod.mk.injEq, ResidentResponse.created.injEq] at h
    obtain ⟨⟨rfl, _⟩, rfl⟩ := h
    exact hw
  · rw [h] at hno
    cases hno

/-- The response does not depend on the `guardians` payload. -/
theorem createResident_response_guardians (clock : Clock) (req : ResidentRequest) (db : Db)
    (payload : JsonField (List GuardianEntry)) :
    (createResident clock { req with form := { req.form with guardians := payload } } db).1
      = (createResident clock req db).1 := by
  have hf : firstMissing { req.form with guardians := payload } = firstMissing req.form := by
    rw [firstMissing_eq, firstMissing_eq]
  unfold createResident
  simp only [hf]
  cases firstMissing req.form with
  | some f => rfl
  | none =>
    simp only [residentWrites]
    have hi : ∀ code age,
        insertResident db code age { req with form := { req.form with guardians := payload } }
          = insertResident db code age req := fun _ _ => rfl
    rw [hi]
    cases insertResident db (generateId "R" db.residentCodes)
        (calculateAge clock.today (clock.dateOf (req.form.birth_date.getD ""))) req with
    | none => rfl
    | some r =>
      obtain ⟨rid, db1⟩ := r
      simp only
      cases insertMedications rid (req.form.join_date.getD "") req.form.medications.items
          db1.medications with
      | none => rfl
      | some meds =>
        cases calculateAge clock.today (clock.dateOf (req.form.birth_date.getD "")) <;> rfl

/-- C9: after a successful intake whose `guardians` payload is the list G, the
guardian rows added are, in the order of G, exactly the entries of G with a
non-empty name and a non-empty phone, under fresh ids and linked to the new
resident's id; the other entries are dropped, and the response (hence the
success of the intake) does not depend on the guardian payload. -/
theorem C9_guardians_persisted (clock : Clock) (req : ResidentRequest) (db db' : Db)
    (G : List GuardianEntry) (id : Nat) (code : String) (p a : Option String) (age : Int)
    (hG : req.form.guardians = .parsed G)
    (hres : createResident clock req db = (.created id code p a age, db')) :
    (∃ new : List (Nat × GuardianRow),
        db'.guardians.rows = db.guardians.rows ++ new
          ∧ new.map (·.2)
              = (G.filter (fun g => truthy g.name && truthy g.phone)).map (guardianRow id)
          ∧ (∀ x ∈ new, ∀ y ∈ db.guardians.rows, y.1 < x.1)
          ∧ (∀ x ∈ new, x.2.resident_id = id))
      ∧ (∀ g : GuardianEntry, truthy g.name = true → truthy g.phone = true →
          some (guardianRow id g).name = g.name ∧ some (guardianRow id g).phone = g.phone)
      ∧ id = db.residents.nextId
      ∧ (∃ row : ResidentRow, row.resident_id = code
          ∧ db'.residents.rows = db.residents.rows ++ [(id, row)])
      ∧ (∀ payload : JsonField (List GuardianEntry),
          (createResident clock { req with form := { req.form with guardians := payload } } db).1
            = .created id code p a age) := by
  have hw := createResident_created hres
  obtain ⟨hid, ⟨row, hrow, hins⟩, hg, _⟩ := residentWrites_some hw
  have hcode : code = generateId "R" db.residentCodes := by
    rcases createResident_cases clock req db with ⟨_, _, _, _, _, h2, _, _⟩ | ⟨_, hno⟩
    · rw [h2] at hres
      simp only [Prod.mk.injEq, ResidentResponse.created.injEq] at hres
      exact hres.1.2.1.symm
    · rw [hres] at hno; cases hno
  refine ⟨?_, ?_, hid, ⟨row, by rw [hrow, hcode], by rw [hins, hid]; rfl⟩, ?_⟩
  · obtain ⟨new, h1, h2, h3⟩ := insertGuardians_rows id G db.guardians
    refine ⟨new, ?_, h2, h3, ?_⟩
    · rw [hg, hG]; exact h1
    · intro x hx
      have hmem : x.2 ∈ new.map (·.2) := List.mem_map_of_mem _ hx
      rw [h2] at hmem
      obtain ⟨g, _, hgx⟩ := List.mem_map.1 hmem
      rw [← hgx]
      rfl
  · intro g hn hp
    cases hgn : g.name with
    | none => simp [truthy, hgn] at hn
    | some n =>
      cases hgp : g.phone with
      | none => simp [truthy, hgp] at hp
      | some ph => simp [guardianRow, hgn, hgp]
  · intro payload
    rw [createResident_response_guardians, hres]

/-- Witness for C9: of three submitted guardians the one without a phone is
dropped; the other two are stored, in order, for the new resident 1. -/
theorem C9_guardians_persisted_witness :
    (createResident sampleClock sampleIntake Db.empty).1 = .created 1 "R-001" none none 74
      ∧ (createResident sampleClock sampleIntake Db.empty).2.guardians.rows.map (·.2)
          = [guardianRow 1 (sampleGuardian (some "Ani") (some "0811")),
              guardianRow 1 (sampleGuardian (some "Cici") (some "0813"))] := by
  have hres : createResident sampleClock sampleIntake Db.empty
      = (.created 1 "R-001" none none 74, (createResident sampleClock sampleIntake Db.empty).2) :=
    Prod.ext (by decide) rfl
  obtain ⟨⟨new, h1, h2, _⟩, _⟩ := C9_guardians_persisted sampleClock sampleIntake Db.empty _
    _ 1 "R-001" none none 74 rfl hres
  refine ⟨by decide, ?_⟩
  rw [h1, List.map_append, h2]
  decide

theorem truthy_some_getD {v : Option String} (h : truthy v = true) : some (v.getD "") = v := by
  cases v with
  | none => simp [truthy] at h
  | some s => rfl

theorem insertHealthRecords_rows (id : Nat) (f : ResidentForm) (t : Table HealthRow) :
    ∃ new : List (Nat × HealthRow),
      (insertHealthRecords id f t).rows = t.rows ++ new
        ∧ new.map (·.2)
            = (if truthy f.hemoglobin || truthy f.leukocyte || truthy f.erythrocyte then
                [hematologyRow id f] else [])
              ++ (if truthy f.blood_sugar_random || truthy f.blood_sugar_fasting
                    || truthy f.blood_sugar_two_hour then
                  [bloodSugarRow id f] else []) := by
  unfold insertHealthRecords
  cases (truthy f.hemoglobin || truthy f.leukocyte || truthy f.erythrocyte) <;>
    cases (truthy f.blood_sugar_random || truthy f.blood_sugar_fasting
      || truthy f.blood_sugar_two_hour)
  · exact ⟨[], by simp, by simp⟩
  · exact ⟨[(t.nextId, bloodSugarRow id f)], by simp [Table.insert], by simp⟩
  · exact ⟨[(t.nextId, hematologyRow id f)], by simp [Table.insert], by simp⟩
  · exact ⟨[(t.nextId, hematologyRow id f),
      ((t.insert (hematologyRow id f)).nextId, bloodSugarRow id f)],
      by simp [Table.insert], by simp⟩

/-- C10: after a successful intake the health records added for the new
resident are at most two: a `hematology` record exactly when one of hemoglobin,
leukocyte, erythrocyte is non-empty, followed by a `blood_sugar` record exactly
when one of the three glucose readings is non-empty; each is linked to the new
resident, dated at the submitted join date, and holds null for every reading
that was not given. -/
theorem C10_health_records (clock : Clock) (req : ResidentRequest) (db db' : Db)
    (id : Nat) (code : String) (p a : Option String) (age : Int)
    (hres : createResident clock req db = (.created id code p a age, db')) :
    ∃ new : List (Nat × HealthRow),
      db'.health_records.rows = db.health_records.rows ++ new
        ∧ new.length ≤ 2
        ∧ new.map (·.2)
            = (if truthy req.form.hemoglobin || truthy req.form.leukocyte
                  || truthy req.form.erythrocyte then
                [hematologyRow id req.form] else [])
              ++ (if truthy req.form.blood_sugar_random || truthy req.form.blood_sugar_fasting
                    || truthy req.form.blood_sugar_two_hour then
                  [bloodSugarRow id req.form] else [])
        ∧ ((∃ x ∈ new, x.2.record_type = "hematology")
            ↔ (truthy req.form.hemoglobin = true ∨ truthy req.form.leukocyte = true
                ∨ truthy req.form.erythrocyte = true))
        ∧ ((∃ x ∈ new, x.2.record_type = "blood_sugar")
            ↔ (truthy req.form.blood_sugar_random = true
                ∨ truthy req.form.blood_sugar_fasting = true
                ∨ truthy req.form.blood_sugar_two_hour = true))
        ∧ (∀ x ∈ new, x.2.resident_id = id ∧ some x.2.recorded_date = req.form.join_date)
        ∧ (∀ v : Option String, (truthy v = false → orNull v = none)
            ∧ (truthy v = true → orNull v = v)) := by
  have hw := createResident_created hres
  obtain ⟨_, _, _, hh, _⟩ := residentWrites_some hw
  have hjoin : truthy req.form.join_date = true := by
    rcases createResident_cases clock req db with ⟨_, _, _, _, _, _, hf, _⟩ | ⟨_, hno⟩
    · rw [firstMissing_eq] at hf
      cases h : truthy req.form.join_date with
      | true => rfl
      | false =>
        rw [h] at hf
        split at hf
        · cases hf
        · split at hf
          · cases hf
          · split at hf
            · cases hf
            · simp at hf
    · rw [hres] at hno; cases hno
  obtain ⟨new, h1, h2⟩ := insertHealthRecords_rows id req.form db.health_records
  have hlen : new.length = (new.map (·.2)).length := by simp
  have hmem : ∀ q : HealthRow → Prop, (∃ x ∈ new, q x.2) ↔ ∃ r ∈ new.map (·.2), q r := by
    intro q
    constructor
    · rintro ⟨x, hx, hq⟩
      exact ⟨x.2, List.mem_map_of_mem _ hx, hq⟩
    · rintro ⟨r, hr, hq⟩
      obtain ⟨x, hx, rfl⟩ := List.mem_map.1 hr
      exact ⟨x, hx, hq⟩
  have hall : ∀ q : HealthRow → Prop, (∀ r ∈ new.map (·.2), q r) → ∀ x ∈ new, q x.2 :=
    fun q h x hx => h x.2 (List.mem_map_of_mem _ hx)
  refine ⟨new, by rw [hh]; exact h1, ?_, h2, ?_, ?_, ?_, ?_⟩
  · rw [hlen, h2]
    split <;> split <;> simp
  · rw [hmem (fun r => r.record_type = "hematology"), h2]
    cases truthy req.form.hemoglobin <;> cases truthy req.form.leukocyte <;>
      cases truthy req.form.erythrocyte <;>
      cases (truthy req.form.blood_sugar_random || truthy req.form.blood_sugar_fasting
        || truthy req.form.blood_sugar_two_hour) <;>
      simp [hematologyRow, bloodSugarRow]
  · rw [hmem (fun r => r.record_type = "blood_sugar"), h2]
    cases truthy req.form.blood_sugar_random <;> cases truthy req.form.blood_sugar_fasting <;>
      cases truthy req.form.blood_sugar_two_hour <;>
      cases (truthy req.form.hemoglobin || truthy req.form.leukocyte
        || truthy req.form.erythrocyte) <;>
      simp [hematologyRow, bloodSugarRow]
  · apply hall (fun r => r.resident_id = id ∧ some r.recorded_date = req.form.join_date)
    rw [h2]
    intro r hr
    have hd := truthy_some_getD hjoin
    rcases List.mem_append.1 hr with hr | hr
    · split at hr
      · simp only [List.mem_singleton] at hr
        subst hr
        exact ⟨rfl, hd⟩
      · cases hr
    · split at hr
      · simp only [List.mem_singleton] at hr
        subst hr
        exact ⟨rfl, hd⟩
      · cases hr
  · intro v
    constructor
    · intro h; simp [orNull, h]
    · intro h; simp [orNull, h]

/-- Witness for C10: an intake with only a haemoglobin reading stores one
`hematology` record dated at the join date, the other readings null. -/
theorem C10_health_records_witness :
    (createResident sampleClock sampleIntake Db.empty).2.health_records.rows.map (·.2)
      = [{ resident_id := 1, record_type := "hematology", hemoglobin := some "13.5"
           leukocyte := none, erythrocyte := none, blood_sugar_random := none
           blood_sugar_fasting := none, blood_sugar_two_hour := none
           recorded_date := "2024-06-15", recorded_by := "system" }] := by
  have hres : createResident sampleClock sampleIntake Db.empty
      = (.created 1 "R-001" none none 74, (createResident sampleClock sampleIntake Db.empty).2) :=
    Prod.ext (by decide) rfl
  obtain ⟨new, h1, _, h2, _⟩ := C10_health_records sampleClock sampleIntake Db.empty _
    1 "R-001" none none 74 hres
  rw [h1, List.map_append, h2]
  decide

/-! ## Medications of a new resident -/

theorem insertMedications_rows (id : Nat) (joinDate : String) (ms : List MedicationEntry) :
    ∀ t t' : Table MedicationRow, insertMedications id joinDate ms t = some t' →
      ∃ new : List (Nat × MedicationRow),
        t'.rows = t.rows ++ new
          ∧ new.map (·.2)
              = (ms.filter (fun m => truthy m.medication_name)).map (medicationRow id joinDate)
          ∧ (∀ x ∈ new, ∀ y ∈ t.rows, y.1 < x.1) := by
  induction ms with
  | nil =>
    intro t t' h
    simp only [insertMedications, Option.some.injEq] at h
    subst h
    exact ⟨[], by simp, rfl, by simp⟩
  | cons m rest ih =>
    intro t t' h
    unfold insertMedications at h
    by_cases hm : truthy m.medication_name = true
    · simp only [hm, if_true] at h
      split at h
      · obtain ⟨new, h1, h2, h3⟩ := ih _ _ h
        refine ⟨(t.nextId, medicationRow id joinDate m) :: new, ?_, ?_, ?_⟩
        · rw [h1]
          simp [Table.insert, medicationRow]
        · simp [List.filter_cons, hm, h2]
        · intro x hx y hy
          rcases List.mem_cons.1 hx with rfl | hx
          · exact Table.lt_nextId t y hy
          · exact h3 x hx y (by simp [Table.insert, hy])
      · cases h
    · simp only [hm] at h
      obtain ⟨new, h1, h2, h3⟩ := ih _ _ h
      exact ⟨new, h1, by simp [List.filter_cons, hm, h2], h3⟩

theorem createResident_join_date {clock : Clock} {req : ResidentRequest} {db db' : Db} {id : Nat}
    {code : String} {p a : Option String} {age : Int}
    (h : createResident clock req db = (.created id code p a age, db')) :
    some (req.form.join_date.getD "") = req.form.join_date := by
  apply truthy_some_getD
  rcases createResident_cases clock req db with ⟨_, _, _, _, _, _, hf, _⟩ | ⟨_, hno⟩
  · rw [firstMissing_eq] at hf
    cases hj : truthy req.form.join_date with
    | true => rfl
    | false =>
      rw [hj] at hf
      split at hf
      · cases hf
      · split at hf
        · cases hf
        · split at hf
          · cases hf
          · simp at hf
  · rw [h] at hno; cases hno

/-- C11: after a successful intake whose `medications` payload is the list M,
the medication rows added are, in the order of M, exactly the entries of M with
a non-empty medication_name, under fresh ids and linked to the new resident;
each row has the submitted status, or `Active` when no status (or an empty
one) was submitted, and start_date equal to the submitted join date. -/
theorem C11_medications_persisted (clock : Clock) (req : ResidentRequest) (db db' : Db)
    (M : List MedicationEntry) (id : Nat) (code : String) (p a : Option String) (age : Int)
    (hM : req.form.medications = .parsed M)
    (hres : createResident clock req db = (.created id code p a age, db')) :
    (∃ new : List (Nat × MedicationRow),
        db'.medications.rows = db.medications.rows ++ new
          ∧ new.map (·.2)
              = (M.filter (fun m => truthy m.medication_name)).map
                  (medicationRow id (req.form.join_date.getD ""))
          ∧ (∀ x ∈ new, ∀ y ∈ db.medications.rows, y.1 < x.1)
          ∧ (∀ x ∈ new, x.2.resident_id = id ∧ some x.2.start_date = req.form.join_date))
      ∧ (∀ (m : MedicationEntry) (joinDate : String), truthy m.medication_name = true →
          some (medicationRow id joinDate m).medication_name = m.medication_name
            ∧ (truthy m.status = true → some (medicationRow id joinDate m).status = m.status)
            ∧ (truthy m.status = false → (medicationRow id joinDate m).status = "Active")) := by
  have hw := createResident_created hres
  obtain ⟨_, _, _, _, hmeds, _⟩ := residentWrites_some hw
  have hjoin := createResident_join_date hres
  rw [hM] at hmeds
  obtain ⟨new, h1, h2, h3⟩ := insertMedications_rows _ _ _ _ _ hmeds
  refine ⟨⟨new, h1, h2, h3, ?_⟩, ?_⟩
  · intro x hx
    have hmem : x.2 ∈ new.map (·.2) := List.mem_map_of_mem _ hx
    rw [h2] at hmem
    obtain ⟨m, _, hmx⟩ := List.mem_map.1 hmem
    rw [← hmx]
    exact ⟨rfl, hjoin⟩
  · intro m joinDate hn
    refine ⟨truthy_some_getD hn, ?_, ?_⟩
    · intro hs
      simp only [medicationRow, orElse, hs, if_true]
      cases hv : m.status with
      | none => simp [truthy, hv] at hs
      | some s => rfl
    · intro hs
      simp [medicationRow, orElse, hs]

/-- Witness for C11: of three submitted medications the one without a name is
dropped; the first gets status `Active`, the last keeps `Stopped`. -/
theorem C11_medications_persisted_witness :
    (createResident sampleClock sampleIntakeMedications Db.empty).2.medications.rows.map (·.2)
      = [{ resident_id := 1, medication_name := "Amlodipin", dosage := none, schedule := none
           status := "Active", start_date := "2024-06-15" },
         { resident_id := 1, medication_name := "Metformin", dosage := none, schedule := none
           status := "Stopped", start_date := "2024-06-15" }] := by
  have hres : createResident sampleClock sampleIntakeMedications Db.empty
      = (.created 1 "R-001" none none 74,
          (createResident sampleClock sampleIntakeMedications Db.empty).2) :=
    Prod.ext (by decide) rfl
  obtain ⟨⟨new, h1, h2, _⟩, _⟩ := C11_medications_persisted sampleClock
    sampleIntakeMedications Db.empty _ _ 1 "R-001" none none 74 rfl hres
  rw [h1, List.map_append, h2]
  decide

/-! ## Payloads that are not JSON -/

/-- C12: a `guardians` (respectively `medications`) payload that is not valid
JSON is handled exactly like the empty list: response and database are the
same as for `[]`, so the payload never makes the request fail, and a successful
intake stores the resident and adds no guardian (respectively medication) row. -/
theorem C12_malformed_payload (clock : Clock) (req : ResidentRequest) (db : Db) :
    createResident clock { req with form := { req.form with guardians := .malformed } } db
        = createResident clock { req with form := { req.form with guardians := .parsed [] } } db
      ∧ createResident clock { req with form := { req.form with medications := .malformed } } db
        = createResident clock { req with form := { req.form with medications := .parsed [] } } db
      ∧ (∀ id code p a age db',
          createResident clock { req with form := { req.form with guardians := .malformed } } db
            = (.created id code p a age, db') →
          db'.guardians = db.guardians
            ∧ ∃ row : ResidentRow, db'.residents = db.residents.insert row)
      ∧ (∀ id code p a age db',
          createResident clock { req with form := { req.form with medications := .malformed } } db
            = (.created id code p a age, db') →
          db'.medications = db.medications
            ∧ ∃ row : ResidentRow, db'.residents = db.residents.insert row) := by
  refine ⟨rfl, rfl, ?_, ?_⟩
  · intro id code p a age db' h
    obtain ⟨_, ⟨row, _, hins⟩, hg, _⟩ := residentWrites_some (createResident_created h)
    exact ⟨hg, row, hins⟩
  · intro id code p a age db' h
    obtain ⟨_, ⟨row, _, hins⟩, _, _, hm, _⟩ := residentWrites_some (createResident_created h)
    refine ⟨?_, row, hins⟩
    simp only [JsonField.items, insertMedications, Option.some.injEq] at hm
    exact hm.symm

/-- Witness for C12: with both payloads malformed the sample intake is answered
`201` and stores the resident, no guardian and no medication. -/
theorem C12_malformed_payload_witness :
    (createResident sampleClock
        { sampleResident with
          form := { sampleForm with guardians := .malformed, medications := .malformed } }
        Db.empty).1 = .created 1 "R-001" none none 74
      ∧ (createResident sampleClock
          { sampleResident with
            form := { sampleForm with guardians := .malformed, medications := .malformed } }
          Db.empty).2.guardians = Db.empty.guardians := by
  have hres : createResident sampleClock
      { sampleResident with
        form := { sampleForm with guardians := .malformed, medications := .malformed } } Db.empty
      = (.created 1 "R-001" none none 74, (createResident sampleClock
          { sampleResident with
            form := { sampleForm with guardians := .malformed, medications := .malformed } }
          Db.empty).2) := Prod.ext (by decide) rfl
  exact ⟨by decide, ((C12_malformed_payload sampleClock
    { sampleResident with form := { sampleForm with medications := .malformed } }
    Db.empty).2.2.1 1 "R-001" none none 74 _ hres).1⟩

/-! ## Atomicity of the intake -/

theorem photoFile_ne_audioFile (p a : String) : photoFile p ≠ audioFile a := by
  intro h
  have h1 := congrArg String.data h
  simp only [photoFile, audioFile, String.data_append] at h1
  simp at h1

theorem unlinkSync_of_mem {files : Files} {path : String} (h : path ∈ files) :
    unlinkSync files path = some (files.filter (fun f => f != path)) := by
  simp [unlinkSync, h]

/-- C13: the intake is atomic. When the required fields are present and a
statement of the transaction fails, the answer is `500`, the database is exactly
as before the request, every photo or audio file uploaded with the request
(stored by multer, hence on disk) has been deleted and every other file is kept. -/
theorem C13_atomic_intake (clock : Clock) (req : ResidentRequest) (db : Db) (files : Files)
    (hvalid : firstMissing req.form = none)
    (hfail : residentWrites db (generateId "R" db.residentCodes)
      (calculateAge clock.today (clock.dateOf (req.form.birth_date.getD ""))) req = none)
    (hphoto : ∀ p, req.photo = some p → photoFile p ∈ files)
    (haudio : ∀ a, req.audio = some a → audioFile a ∈ files) :
    createResident clock req db = (.internalError, db)
      ∧ (∀ p, req.photo = some p → photoFile p ∉ createResidentFiles clock req db files)
      ∧ (∀ a, req.audio = some a → audioFile a ∉ createResidentFiles clock req db files)
      ∧ (∀ f ∈ files, (∀ p, req.photo = some p → f ≠ photoFile p) →
          (∀ a, req.audio = some a → f ≠ audioFile a) →
          f ∈ createResidentFiles clock req db files)
      ∧ (∀ f ∈ createResidentFiles clock req db files, f ∈ files) := by
  have hdb : createResident clock req db = (.internalError, db) := by
    simp only [createResident, hvalid, hfail]
  have hfiles : createResidentFiles clock req db files = cleanupUploads req files := by
    simp only [createResidentFiles, hvalid, hfail]
  rw [hfiles]
  refine ⟨hdb, ?_⟩
  unfold cleanupUploads
  cases hp : req.photo with
  | none =>
    cases ha : req.audio with
    | none => simp
    | some a =>
      have hmem := haudio a ha
      simp only [unlinkSync_of_mem hmem, Option.getD_some]
      refine ⟨by simp, ?_, ?_, ?_⟩
      · intro a' ha'
        cases ha'
        simp [List.mem_filter]
      · intro f hf _ h2
        simp [List.mem_filter, hf, h2 a rfl]
      · intro f hf
        exact (List.mem_filter.1 hf).1
  | some p =>
    have hpm := hphoto p hp
    simp only [unlinkSync_of_mem hpm]
    cases ha : req.audio with
    | none =>
      refine ⟨?_, by simp, ?_, ?_⟩
      · intro p' hp'
        cases hp'
        simp [List.mem_filter]
      · intro f hf h1 _
        simp [List.mem_filter, hf, h1 p rfl]
      · intro f hf
        exact (List.mem_filter.1 hf).1
    | some a =>
      have ham : audioFile a ∈ files.filter (fun f => f != photoFile p) := by
        simp [List.mem_filter, haudio a ha, (photoFile_ne_audioFile p a).symm]
      simp only [unlinkSync_of_mem ham, Option.getD_some]
      refine ⟨?_, ?_, ?_, ?_⟩
      · intro p' hp'
        cases hp'
        simp [List.mem_filter]
      · intro a' ha'
        cases ha'
        simp [List.mem_filter]
      · intro f hf h1 h2
        simp [List.mem_filter, hf, h1 p rfl, h2 a rfl]
      · intro f hf
        exact (List.mem_filter.1 (List.mem_filter.1 hf).1).1

/-- Witness for C13: an intake with an invalid gender and two uploads is answered
`500`, leaves the database unchanged and removes both uploads from disk. -/
theorem C13_atomic_intake_witness :
    createResident sampleClock sampleRejectedIntake (dbWithResident "R-001")
        = (.internalError, dbWithResident "R-001")
      ∧ createResidentFiles sampleClock sampleRejectedIntake (dbWithResident "R-001")
          ["public/uploads/photos/old.jpg", "public/uploads/photos/photo-1.jpg",
            "public/uploads/audio/audio-1.mp3"]
        = ["public/uploads/photos/old.jpg"] := by
  have h := C13_atomic_intake sampleClock sampleRejectedIntake (dbWithResident "R-001")
    ["public/uploads/photos/old.jpg", "public/uploads/photos/photo-1.jpg",
      "public/uploads/audio/audio-1.mp3"] (by decide) (by decide) (by decide) (by decide)
  exact ⟨h.1, by decide⟩

/-! ## Room assignment: what a request changes -/

theorem adjustOccupants_rows (rooms : Table RoomRow) (room : Option Nat) (d : Int) :
    (adjustOccupants rooms room d).rows
      = rooms.rows.map (fun r =>
          (r.1, { r.2 with
            current_occupants := r.2.current_occupants + (if room = some r.1 then d else 0) }))
      ∧ (adjustOccupants rooms room d).seq = rooms.seq := by
  cases room with
  | none =>
    refine ⟨?_, rfl⟩
    simp only [adjustOccupants]
    have : ∀ r : Nat × RoomRow,
        (r.1, ({ r.2 with current_occupants := r.2.current_occupants
          + (if (none : Option Nat) = some r.1 then d else 0) } : RoomRow)) = r := by
      intro r
      simp
    simp [this]
  | some x =>
    refine ⟨?_, rfl⟩
    simp only [adjustOccupants, Table.update]
    apply List.map_congr_left
    intro r _
    by_cases h : r.1 = x
    · simp [h]
    · have h' : ¬ x = r.1 := fun e => h e.symm
      simp [h, h']

theorem assignRoom_rejected {req : AssignRoomRequest} {db : Db}
    (h : assignRoomRejected req db = true) : assignRoom req db = (.internalError, db) := by
  unfold assignRoomRejected at h
  simp only [assignRoom, h, if_true]

theorem assignRoom_accepted {req : AssignRoomRequest} {db : Db}
    (h : assignRoomRejected req db = false) :
    (assignRoom req db).1
        = .ok (if req.room_id.isSome then "Room assigned successfully"
            else "Room assignment removed successfully")
      ∧ (assignRoom req db).2
        = { db with
            residents := { db.residents with rows := db.residents.rows.map (moveResident req) }
            rooms := { db.rooms with rows := db.rooms.rows.map (shiftOccupants req) } } := by
  unfold assignRoomRejected at h
  simp only [assignRoom, h, Bool.false_eq_true, if_false, true_and]
  have h1 := adjustOccupants_rows db.rooms req.previous_room_id (-1)
  have h2 := adjustOccupants_rows (adjustOccupants db.rooms req.previous_room_id (-1))
    req.room_id 1
  have hres : db.residents.update req.id (fun row => { row with room_id := req.room_id })
      = { db.residents with rows := db.residents.rows.map (moveResident req) } := rfl
  have hrooms : adjustOccupants (adjustOccupants db.rooms req.previous_room_id (-1)) req.room_id 1
      = { db.rooms with rows := db.rooms.rows.map (shiftOccupants req) } := by
    have hrows : (adjustOccupants (adjustOccupants db.rooms req.previous_room_id (-1))
        req.room_id 1).rows = db.rooms.rows.map (shiftOccupants req) := by
      rw [h2.1, h1.1, List.map_map]
      apply List.map_congr_left
      intro r _
      simp [shiftOccupants]
    have hseq : (adjustOccupants (adjustOccupants db.rooms req.previous_room_id (-1))
        req.room_id 1).seq = db.rooms.seq := by rw [h2.2, h1.2]
    cases hx : adjustOccupants (adjustOccupants db.rooms req.previous_room_id (-1))
      req.room_id 1 with
    | mk rows seq =>
      rw [hx] at hrows hseq
      simp only at hrows hseq
      rw [hrows, hseq]
  rw [hres, hrooms]

theorem assignRoom_isOk (req : AssignRoomRequest) (db : Db) :
    (assignRoom req db).1.isOk = !assignRoomRejected req db := by
  cases h : assignRoomRejected req db with
  | true => rw [assignRoom_rejected h]; rfl
  | false => rw [(assignRoom_accepted h).1]; rfl

/-- C15: a successful `assignRoom` changes exactly this: every room row's counter
moves by minus one if the room is the previous room and by plus one if it is the
new room, and the room reference of the resident named by the request becomes
the new room (null when not set); all other fields, rows and tables are
unchanged. A request that fails is rolled back: the database is as before. -/
theorem C15_assignRoom_frame (req : AssignRoomRequest) (db : Db) :
    ((assignRoom req db).1.isOk = true →
        (assignRoom req db).2
            = { db with
                residents :=
                  { db.residents with rows := db.residents.rows.map (moveResident req) }
                rooms := { db.rooms with rows := db.rooms.rows.map (shiftOccupants req) } }
          ∧ (∀ r : Nat × RoomRow,
              (shiftOccupants req r).1 = r.1
                ∧ (shiftOccupants req r).2
                    = { r.2 with
                        current_occupants :=
                          r.2.current_occupants
                            - (if req.previous_room_id = some r.1 then 1 else 0)
                            + (if req.room_id = some r.1 then 1 else 0) }
                ∧ (req.previous_room_id ≠ some r.1 → req.room_id ≠ some r.1 →
                    shiftOccupants req r = r))
          ∧ (∀ r : Nat × ResidentRow,
              (r.1 = req.id → moveResident req r = (r.1, { r.2 with room_id := req.room_id }))
                ∧ (r.1 ≠ req.id → moveResident req r = r)))
      ∧ ((assignRoom req db).1.isOk = false → assignRoom req db = (.internalError, db)) := by
  constructor
  · intro hok
    rw [assignRoom_isOk] at hok
    have hacc : assignRoomRejected req db = false := by simpa using hok
    refine ⟨(assignRoom_accepted hacc).2, ?_, ?_⟩
    · intro r
      refine ⟨rfl, ?_, ?_⟩
      · simp only [shiftOccupants]
        congr 1
        split <;> split <;> omega
      · intro h1 h2
        simp [shiftOccupants, h1, h2]
    · intro r
      constructor
      · intro h; simp [moveResident, h]
      · intro h; simp [moveResident, h]
  · intro hno
    rw [assignRoom_isOk] at hno
    exact assignRoom_rejected (by simpa using hno)

/-- Witness for C15: moving resident 1 from Merpati to Kenari makes the counters
0 and 1 and the reference of resident 1 Kenari; resident 2 is untouched. -/
theorem C15_assignRoom_frame_witness :
    (assignRoom { id := 1, room_id := some 2, previous_room_id := some 1 } sampleHome).2.counters
        = [(1, 0), (2, 1)]
      ∧ (assignRoom { id := 1, room_id := some 2, previous_room_id := some 1 }
          sampleHome).2.roomRefs = [(1, some 2), (2, none)] := by
  have h := ((C15_assignRoom_frame { id := 1, room_id := some 2, previous_room_id := some 1 }
    sampleHome).1 (by decide)).1
  rw [h]
  exact ⟨by decide, by decide⟩

/-! ## Room assignment: capacity and repetition -/

theorem has_map_of_fst {α : Type} (t t' : Table α) (f : Nat × α → Nat × α)
    (hrows : t'.rows = t.rows.map f) (hf : ∀ r, (f r).1 = r.1) (id : Nat) :
    t'.has id = t.has id := by
  simp only [Table.has, hrows, List.any_map]
  congr 1
  funext r
  simp [hf r]

theorem shiftOccupants_fst (req : AssignRoomRequest) (r : Nat × RoomRow) :
    (shiftOccupants req r).1 = r.1 := rfl

theorem moveResident_fst (req : AssignRoomRequest) (r : Nat × ResidentRow) :
    (moveResident req r).1 = r.1 := by
  unfold moveResident
  split <;> rfl

theorem assignRoomRejected_of_has {req : AssignRoomRequest} {db : Db} {r : Nat}
    (hr : req.room_id = some r) (hhas : db.rooms.has r = true) :
    assignRoomRejected req db = false := by
  simp [assignRoomRejected, hr, hhas]

theorem assignRoom_keeps_rejected (req req2 : AssignRoomRequest) (db : Db) :
    assignRoomRejected req2 (assignRoom req db).2 = assignRoomRejected req2 db := by
  cases h : assignRoomRejected req db with
  | true => rw [assignRoom_rejected h]
  | false =>
    rw [(assignRoom_accepted h).2]
    simp only [assignRoomRejected]
    have h1 : ∀ i, Table.has (Table.mk (db.residents.rows.map (moveResident req))
        db.residents.seq) i = db.residents.has i :=
      fun i => has_map_of_fst db.residents _ _ rfl (moveResident_fst req) i
    have h2 : ∀ i, Table.has (Table.mk (db.rooms.rows.map (shiftOccupants req))
        db.rooms.seq) i = db.rooms.has i :=
      fun i => has_map_of_fst db.rooms _ _ rfl (shiftOccupants_fst req) i
    rw [h1]
    cases req2.room_id with
    | none => rfl
    | some r => simp only [h2]

/-- C16 (amended): `assignRoom` performs no capacity check. Whenever the new room
exists the request succeeds, whatever the room's capacity and stored counter,
and the counter of the new room is increased by one (unless the room is also the
previous room, when it stays as it is). -/
theorem C16_no_capacity_check (req : AssignRoomRequest) (db : Db) (r : Nat)
    (hr : req.room_id = some r) (hhas : db.rooms.has r = true) :
    (assignRoom req db).1.isOk = true
      ∧ (assignRoom req db).2.rooms.rows = db.rooms.rows.map (shiftOccupants req)
      ∧ (∀ x : Nat × RoomRow, x.1 = r →
          (shiftOccupants req x).2.capacity = x.2.capacity
            ∧ (shiftOccupants req x).2.current_occupants
                = x.2.current_occupants + 1
                    - (if req.previous_room_id = some r then 1 else 0)) := by
  have hacc := assignRoomRejected_of_has hr hhas
  refine ⟨by rw [assignRoom_isOk, hacc]; rfl, by rw [(assignRoom_accepted hacc).2], ?_⟩
  intro x hx
  refine ⟨rfl, ?_⟩
  simp only [shiftOccupants, hr, hx, if_true]
  split <;> omega

/-- Witness for C16: Merpati is full (capacity 1, counter 1); assigning resident 2
to it succeeds and the counter becomes 2. -/
theorem C16_no_capacity_check_witness :
    (assignRoom { id := 2, room_id := some 1, previous_room_id := none } sampleHome).1.isOk = true
      ∧ (assignRoom { id := 2, room_id := some 1, previous_room_id := none }
          sampleHome).2.counters = [(1, 2), (2, 0)] := by
  have h := C16_no_capacity_check { id := 2, room_id := some 1, previous_room_id := none }
    sampleHome 1 rfl (by decide)
  refine ⟨h.1, ?_⟩
  simp only [Db.counters, h.2.1]
  decide

/-- Counterexample to C16 as stated: Merpati has capacity 1 and counter 1;
assigning resident 2 to it is answered `200`, the resident then references
Merpati and the counter is 2, above the capacity. -/
theorem C16_counterexample :
    sampleHome.rooms.rows.map (fun r => (r.1, r.2.capacity, r.2.current_occupants))
        = [(1, 1, 1), (2, 2, 0)]
      ∧ assignRoom { id := 2, room_id := some 1, previous_room_id := none } sampleHome
        ≠ (.internalError, sampleHome)
      ∧ (assignRoom { id := 2, room_id := some 1, previous_room_id := none } sampleHome).1
        = .ok "Room assigned successfully"
      ∧ (assignRoom { id := 2, room_id := some 1, previous_room_id := none }
          sampleHome).2.counters = [(1, 2), (2, 0)]
      ∧ (assignRoom { id := 2, room_id := some 1, previous_room_id := none }
          sampleHome).2.roomRefs = [(1, some 1), (2, some 1)] := by
  decide

/-- C17 (amended): `assignRoom` has no guard against repetition. When the new
room exists, the same request handled twice in a row succeeds both times and
applies its change to every counter twice: the counter of the new room after
the second request is one more than after the first, unless the request names
the new room as previous room too, in which case neither request changes it. -/
theorem C17_double_assignment (req : AssignRoomRequest) (db : Db) (r : Nat)
    (hr : req.room_id = some r) (hhas : db.rooms.has r = true) :
    (assignRoom req db).1.isOk = true
      ∧ (assignRoom req (assignRoom req db).2).1.isOk = true
      ∧ (assignRoom req db).2.rooms.rows = db.rooms.rows.map (shiftOccupants req)
      ∧ (assignRoom req (assignRoom req db).2).2.rooms.rows
          = (db.rooms.rows.map (shiftOccupants req)).map (shiftOccupants req)
      ∧ (∀ x : Nat × RoomRow, x.1 = r →
          (req.previous_room_id ≠ some r →
            (shiftOccupants req (shiftOccupants req x)).2.current_occupants
              = (shiftOccupants req x).2.current_occupants + 1)
          ∧ (req.previous_room_id = some r →
            (shiftOccupants req (shiftOccupants req x)).2.current_occupants
                = x.2.current_occupants
              ∧ (shiftOccupants req x).2.current_occupants = x.2.current_occupants)) := by
  have hacc := assignRoomRejected_of_has hr hhas
  have hacc2 : assignRoomRejected req (assignRoom req db).2 = false := by
    rw [assignRoom_keeps_rejected, hacc]
  have h1 := (assignRoom_accepted hacc).2
  have h2 := (assignRoom_accepted hacc2).2
  refine ⟨by rw [assignRoom_isOk, hacc]; rfl, by rw [assignRoom_isOk, hacc2]; rfl,
    by rw [h1], ?_, ?_⟩
  · rw [h2]
    simp only
    rw [h1]
  · intro x hx
    constructor
    · intro hp
      simp [shiftOccupants, hr, hx, hp]
    · intro hp
      simp [shiftOccupants, hr, hx, hp]

/-- Witness for C17: assigning resident 2 to Kenari twice, each time without a
previous room, takes Kenari's counter from 0 to 1 and then to 2. -/
theorem C17_double_assignment_witness :
    (assignRoom { id := 2, room_id := some 2, previous_room_id := none } sampleHome).2.counters
        = [(1, 1), (2, 1)]
      ∧ (assignRoom { id := 2, room_id := some 2, previous_room_id := none }
          (assignRoom { id := 2, room_id := some 2, previous_room_id := none }
            sampleHome).2).2.counters = [(1, 1), (2, 2)] := by
  have h := C17_double_assignment { id := 2, room_id := some 2, previous_room_id := none }
    sampleHome 2 rfl (by decide)
  refine ⟨?_, ?_⟩
  · simp only [Db.counters, h.2.2.1]
    decide
  · simp only [Db.counters, h.2.2.2.1]
    decide

/-- Counterexample to C17 as stated: the request "resident 2 to Kenari" handled
twice leaves Kenari's counter at 2, not at its value 1 after the first request,
while one resident references Kenari. -/
theorem C17_counterexample :
    (assignRoom { id := 2, room_id := some 2, previous_room_id := none } sampleHome).2.counters
        = [(1, 1), (2, 1)]
      ∧ (assignRoom { id := 2, room_id := some 2, previous_room_id := none }
          (assignRoom { id := 2, room_id := some 2, previous_room_id := none }
            sampleHome).2).2.counters = [(1, 1), (2, 2)]
      ∧ (assignRoom { id := 2, room_id := some 2, previous_room_id := none }
          (assignRoom { id := 2, room_id := some 2, previous_room_id := none }
            sampleHome).2).2.occupants 2 = 1 := by
  decide

/-! ## Room deletion -/

theorem occupants_pos_iff (db : Db) (id : Nat) :
    0 < db.occupants id ↔ ∃ r ∈ db.residents.rows, r.2.room_id = some id := by
  simp only [Db.occupants, List.length_pos_iff_exists_mem, List.mem_filter, beq_iff_eq]

theorem occupants_eq_zero_iff (db : Db) (id : Nat) :
    db.occupants id = 0 ↔ ∀ r ∈ db.residents.rows, r.2.room_id ≠ some id := by
  have h := occupants_pos_iff db id
  constructor
  · intro h0 r hr hc
    have : 0 < db.occupants id := h.2 ⟨r, hr, hc⟩
    omega
  · intro hall
    by_contra hne
    obtain ⟨r, hr, hc⟩ := h.1 (Nat.pos_of_ne_zero hne)
    exact hall r hr hc

/-- C18: `deleteRoom` answers `400` exactly when at least one resident references
the room; the stored counter plays no part (when it agrees with the number of
referencing residents, a positive counter means rejection). A rejected deletion
leaves the database unchanged. When no resident references the room, an
existing room is removed and nothing else changes, and an unknown id is
answered `404` with the database unchanged. -/
theorem C18_deleteRoom (id : Nat) (db : Db) :
    ((deleteRoom id db).1 = .conflict ↔ ∃ r ∈ db.residents.rows, r.2.room_id = some id)
      ∧ ((deleteRoom id db).1 = .conflict → (deleteRoom id db).2 = db)
      ∧ (∀ x ∈ db.rooms.rows, x.1 = id → x.2.current_occupants = Int.ofNat (db.occupants id) →
          0 < x.2.current_occupants → (deleteRoom id db).1 = .conflict)
      ∧ ((∀ r ∈ db.residents.rows, r.2.room_id ≠ some id) → db.rooms.has id = true →
          deleteRoom id db
            = (.ok,
                { db with
                  rooms := { db.rooms with rows := db.rooms.rows.filter (fun r => r.1 != id) } }))
      ∧ ((∀ r ∈ db.residents.rows, r.2.room_id ≠ some id) → db.rooms.has id = false →
          deleteRoom id db = (.notFound, db)) := by
  have hpos := occupants_pos_iff db id
  have hconf : (deleteRoom id db).1 = .conflict ↔ 0 < db.occupants id := by
    unfold deleteRoom
    by_cases h : 0 < db.occupants id
    · simp [h]
    · simp only [h, if_false, false_iff]
      split <;> simp
  refine ⟨hconf.trans hpos, ?_, ?_, ?_, ?_⟩
  · intro h
    have h' := hconf.1 h
    simp [deleteRoom, h']
  · intro x _ _ hcount hx
    apply hconf.2
    rw [hcount] at hx
    exact Int.ofNat_lt.1 hx
  · intro hall hhas
    have h0 := (occupants_eq_zero_iff db id).2 hall
    simp [deleteRoom, h0, hhas, Table.delete]
  · intro hall hhas
    have h0 := (occupants_eq_zero_iff db id).2 hall
    simp [deleteRoom, h0, hhas]

/-- Witness for C18: Merpati, where resident 1 lives, cannot be deleted; the
empty room Kenari is deleted and only Merpati remains. -/
theorem C18_deleteRoom_witness :
    deleteRoom 1 sampleHome = (.conflict, sampleHome)
      ∧ (deleteRoom 2 sampleHome).1 = .ok
      ∧ (deleteRoom 2 sampleHome).2.counters = [(1, 1)]
      ∧ (deleteRoom 2 sampleHome).2.roomRefs = sampleHome.roomRefs := by
  have h := C18_deleteRoom 2 sampleHome
  have h2 := h.2.2.2.1 (by decide) (by decide)
  rw [h2]
  exact ⟨by decide, rfl, by decide, rfl⟩

/-! ## The occupancy counters under sequences of requests -/

theorem map_moveResident_of_not_mem (req : AssignRoomRequest) (rows : List (Nat × ResidentRow))
    (h : req.id ∉ rows.map (·.1)) : rows.map (moveResident req) = rows := by
  induction rows with
  | nil => rfl
  | cons a t ih =>
    simp only [List.map_cons, List.mem_cons, not_or] at h
    have ha : a.1 ≠ req.id := fun e => h.1 e.symm
    rw [List.map_cons, ih h.2]
    simp [moveResident, ha]

theorem refCount_move (req : AssignRoomRequest) (room : Nat) (row : ResidentRow) :
    ∀ rows : List (Nat × ResidentRow), (rows.map (·.1)).Nodup → (req.id, row) ∈ rows →
      Int.ofNat ((rows.map (moveResident req)).filter
          (fun r => r.2.room_id == some room)).length
        = Int.ofNat (rows.filter (fun r => r.2.room_id == some room)).length
            + (if row.room_id = some room then -1 else 0)
            + (if req.room_id = some room then 1 else 0) := by
  intro rows
  induction rows with
  | nil => intro _ h; cases h
  | cons a t ih =>
    intro hnd hmem
    simp only [List.map_cons, List.nodup_cons] at hnd
    obtain ⟨hnot, hnd'⟩ := hnd
    by_cases ha : a.1 = req.id
    · have hrow : a = (req.id, row) := by
        rcases List.mem_cons.1 hmem with e | e
        · exact e.symm
        · exfalso
          apply hnot
          rw [ha]
          exact List.mem_map_of_mem (·.1) e
      have htail : t.map (moveResident req) = t :=
        map_moveResident_of_not_mem req t (by rw [← ha]; exact hnot)
      rw [List.map_cons, htail, hrow]
      simp only [moveResident, if_true, List.filter_cons]
      by_cases h1 : row.room_id = some room <;> by_cases h2 : req.room_id = some room <;>
        simp [h1, h2]
    · have hmem' : (req.id, row) ∈ t := by
        rcases List.mem_cons.1 hmem with e | e
        · exact absurd (by rw [← e]) ha
        · exact e
      have := ih hnd' hmem'
      have hmove : moveResident req a = a := by simp [moveResident, ha]
      rw [List.map_cons, hmove]
      simp only [List.filter_cons]
      by_cases h1 : a.2.room_id = some room
      · simp only [h1, beq_self_eq_true, if_true, List.length_cons] at this ⊢
        simp only [Int.ofNat_eq_coe, Nat.cast_add, Nat.cast_one] at this ⊢
        omega
      · have h1' : (a.2.room_id == some room) = false := by simpa using h1
        simp only [h1'] at this ⊢
        exact this

theorem has_iff {α : Type} (t : Table α) (id : Nat) :
    t.has id = true ↔ ∃ r ∈ t.rows, r.1 = id := by
  simp [Table.has]

theorem assignRoom_keeps (req : AssignRoomRequest) (db : Db) (hkeys : db.keysHold)
    (hocc : db.occupancyHolds) (hhonest : assignRoomHonest req db = true) :
    (assignRoom req db).2.keysHold ∧ (assignRoom req db).2.occupancyHolds := by
  cases hrej : assignRoomRejected req db with
  | true => rw [assignRoom_rejected hrej]; exact ⟨hkeys, hocc⟩
  | false =>
    rw [(assignRoom_accepted hrej).2]
    obtain ⟨hnd, hfk⟩ := hkeys
    simp only [assignRoomHonest, List.any_eq_true, Bool.and_eq_true, beq_iff_eq] at hhonest
    obtain ⟨res, hres, hid, hprev⟩ := hhonest
    have hrooms : ∀ i, Table.has (Table.mk (db.rooms.rows.map (shiftOccupants req))
        db.rooms.seq) i = db.rooms.has i :=
      fun i => has_map_of_fst db.rooms _ _ rfl (shiftOccupants_fst req) i
    have hhasid : db.residents.has req.id = true := (has_iff _ _).2 ⟨res, hres, hid⟩
    refine ⟨⟨?_, ?_⟩, ?_⟩
    · have : ((db.residents.rows.map (moveResident req)).map (·.1))
          = db.residents.rows.map (·.1) := by
        rw [List.map_map]
        apply List.map_congr_left
        intro r _
        exact moveResident_fst req r
      simp only [this]
      exact hnd
    · intro r hr room hroom
      simp only [List.mem_map] at hr
      obtain ⟨r0, hr0, rfl⟩ := hr
      rw [hrooms]
      by_cases hr0id : r0.1 = req.id
      · simp only [moveResident, hr0id, if_true, Option.mem_def] at hroom
        simp only [assignRoomRejected, hhasid, hroom, Bool.true_and, Bool.not_eq_false'] at hrej
        simpa using hrej
      · simp only [moveResident, hr0id, if_false] at hroom
        exact hfk r0 hr0 room hroom
    · intro x hx
      simp only [List.mem_map] at hx
      obtain ⟨x0, hx0, rfl⟩ := hx
      have hc := hocc x0 hx0
      have hmem : (req.id, res.2) ∈ db.residents.rows := by
        rw [← hid]
        exact hres
      have hcount := refCount_move req x0.1 res.2 db.residents.rows hnd hmem
      simp only [Db.occupants, shiftOccupants]
      simp only [Db.occupants] at hc
      rw [hcount, hc, hprev]

theorem occupants_of_rows {db db' : Db} (h : db'.residents.rows = db.residents.rows) (id : Nat) :
    db'.occupants id = db.occupants id := by
  simp only [Db.occupants, h]

theorem lt_nextId_of_has {α : Type} (t : Table α) (id : Nat) (h : t.has id = true) :
    id < t.nextId := by
  obtain ⟨r, hr, rfl⟩ := (has_iff t id).1 h
  exact Table.lt_nextId t r hr

theorem createRoom_keeps (req : RoomRequest) (db : Db) (hkeys : db.keysHold)
    (hocc : db.occupancyHolds) :
    (createRoom req db).2.keysHold ∧ (createRoom req db).2.occupancyHolds := by
  unfold createRoom
  split
  · obtain ⟨hnd, hfk⟩ := hkeys
    refine ⟨⟨hnd, ?_⟩, ?_⟩
    · intro r hr room hroom
      have := hfk r hr room hroom
      obtain ⟨x, hx, hxid⟩ := (has_iff _ _).1 this
      apply (has_iff _ _).2
      exact ⟨x, by simp [Table.insert, hx], hxid⟩
    · intro x hx
      simp only [Table.insert, List.mem_append, List.mem_singleton] at hx
      rcases hx with hx | hx
      · exact hocc x hx
      · subst hx
        have h0 : db.occupants db.rooms.nextId = 0 := by
          apply (occupants_eq_zero_iff db _).2
          intro r hr hc
          have := lt_nextId_of_has db.rooms _ (hfk r hr _ hc)
          omega
        simp only [Db.occupants] at h0 ⊢
        rw [h0]
        rfl
  · exact ⟨hkeys, hocc⟩

theorem updateRoom_keeps (id : Nat) (req : RoomRequest) (db : Db) (hkeys : db.keysHold)
    (hocc : db.occupancyHolds) :
    (updateRoom id req db).2.keysHold ∧ (updateRoom id req db).2.occupancyHolds := by
  unfold updateRoom
  split
  · split
    · obtain ⟨hnd, hfk⟩ := hkeys
      refine ⟨⟨hnd, ?_⟩, ?_⟩
      · intro r hr room hroom
        have := hfk r hr room hroom
        rw [← this]
        apply has_map_of_fst db.rooms _ _ rfl
        intro x
        split <;> rfl
      · intro x hx
        simp only [Table.update, List.mem_map] at hx
        obtain ⟨x0, hx0, rfl⟩ := hx
        have := hocc x0 hx0
        split
        · exact this
        · exact this
    · exact ⟨hkeys, hocc⟩
  · exact ⟨hkeys, hocc⟩

theorem deleteRoom_keeps (id : Nat) (db : Db) (hkeys : db.keysHold)
    (hocc : db.occupancyHolds) :
    (deleteRoom id db).2.keysHold ∧ (deleteRoom id db).2.occupancyHolds := by
  unfold deleteRoom
  split
  · exact ⟨hkeys, hocc⟩
  · rename_i hzero
    split
    · obtain ⟨hnd, hfk⟩ := hkeys
      have h0 : db.occupants id = 0 := by omega
      have hnone := (occupants_eq_zero_iff db id).1 h0
      refine ⟨⟨hnd, ?_⟩, ?_⟩
      · intro r hr room hroom
        obtain ⟨x, hx, hxid⟩ := (has_iff _ _).1 (hfk r hr room hroom)
        apply (has_iff _ _).2
        refine ⟨x, ?_, hxid⟩
        simp only [Table.delete, List.mem_filter, bne_iff_ne]
        refine ⟨hx, ?_⟩
        rw [hxid]
        intro e
        exact hnone r hr (by rw [← e]; exact hroom)
      · intro x hx
        simp only [Table.delete, List.mem_filter] at hx
        exact hocc x hx.1
    · exact ⟨hkeys, hocc⟩

/-- A successful `INSERT INTO residents` appends a row holding the submitted room
reference, which (if any) names an existing room. -/
theorem insertResident_room {db : Db} {code : String} {age : JSNumber} {req : ResidentRequest}
    {id : Nat} {db1 : Db} (h : insertResident db code age req = some (id, db1)) :
    ∃ row : ResidentRow, row.room_id = req.form.room_id
      ∧ db1.residents.rows = db.residents.rows ++ [(db.residents.nextId, row)]
      ∧ db1.rooms = db.rooms
      ∧ (∀ room ∈ req.form.room_id, db.rooms.has room = true) := by
  unfold insertResident at h
  cases age with
  | nan => simp at h
  | int a =>
    simp only at h
    split at h
    · rename_i hcond
      simp only [Option.some.injEq, Prod.mk.injEq] at h
      obtain ⟨_, rfl⟩ := h
      refine ⟨_, rfl, rfl, rfl, ?_⟩
      intro room hroom
      simp only [Option.mem_def] at hroom
      simp only [hroom, Bool.and_eq_true] at hcond
      exact hcond.2
    · cases h

theorem residentWrites_room {db : Db} {code : String} {age : JSNumber} {req : ResidentRequest}
    {id : Nat} {db' : Db} (h : residentWrites db code age req = some (id, db')) :
    ∃ row : ResidentRow, row.room_id = req.form.room_id
      ∧ db'.residents.rows = db.residents.rows ++ [(db.residents.nextId, row)]
      ∧ db'.rooms = db.rooms
      ∧ (∀ room ∈ req.form.room_id, db.rooms.has room = true) := by
  unfold residentWrites at h
  cases hi : insertResident db code age req with
  | none => simp [hi] at h
  | some r =>
    obtain ⟨rid, db1⟩ := r
    obtain ⟨row, h1, h2, h3, h4⟩ := insertResident_room hi
    simp only [hi] at h
    cases hm : insertMedications rid (req.form.join_date.getD "") req.form.medications.items
        db1.medications with
    | none => simp [hm] at h
    | some meds =>
      simp only [hm, Option.some.injEq, Prod.mk.injEq] at h
      obtain ⟨_, rfl⟩ := h
      exact ⟨row, h1, h2, h3, h4⟩

theorem createResident_keeps (clock : Clock) (req : ResidentRequest) (db : Db)
    (hkeys : db.keysHold) (hocc : db.occupancyHolds) (hroom : req.form.room_id = none) :
    (createResident clock req db).2.keysHold ∧ (createResident clock req db).2.occupancyHolds := by
  rcases createResident_cases clock req db with ⟨id, p, a, age, db', hres, _, hw⟩ | ⟨hsame, _⟩
  · rw [hres]
    obtain ⟨row, hrow, hrows, hrooms, _⟩ := residentWrites_room hw
    obtain ⟨hnd, hfk⟩ := hkeys
    rw [hroom] at hrow
    refine ⟨⟨?_, ?_⟩, ?_⟩
    · simp only [hrows, List.map_append, List.map_cons, List.map_nil]
      rw [List.nodup_append]
      refine ⟨hnd, by simp, ?_⟩
      intro i hi hi'
      simp only [List.mem_singleton] at hi'
      obtain ⟨r, hr, rfl⟩ := List.mem_map.1 hi
      have := Table.lt_nextId db.residents r hr
      omega
    · intro r hr room hmem
      simp only [hrows, List.mem_append, List.mem_singleton] at hr
      simp only [hrooms]
      rcases hr with hr | hr
      · exact hfk r hr room hmem
      · subst hr
        simp only [hrow, Option.mem_def] at hmem
        cases hmem
    · intro x hx
      simp only [hrooms] at hx
      have := hocc x hx
      simp only [Db.occupants, hrows, List.filter_append] at this ⊢
      simp [hrow, this]
  · rw [hsame]
    exact ⟨hkeys, hocc⟩

theorem apply_keeps (op : RoomOp) (db : Db) (hkeys : db.keysHold) (hocc : db.occupancyHolds)
    (hop : op.keepsCount db = true) : (op.apply db).keysHold ∧ (op.apply db).occupancyHolds := by
  cases op with
  | intake clock req =>
    apply createResident_keeps clock req db hkeys hocc
    simpa [RoomOp.keepsCount] using hop
  | assign req => exact assignRoom_keeps req db hkeys hocc hop
  | addRoom req => exact createRoom_keeps req db hkeys hocc
  | editRoom id req => exact updateRoom_keeps id req db hkeys hocc
  | removeRoom id => exact deleteRoom_keeps id db hkeys hocc

theorem runOps_keeps (ops : List RoomOp) :
    ∀ db : Db, db.keysHold → db.occupancyHolds → opsKeepCount ops db = true →
      (runOps ops db).keysHold ∧ (runOps ops db).occupancyHolds := by
  induction ops with
  | nil => intro db hkeys hocc _; exact ⟨hkeys, hocc⟩
  | cons op rest ih =>
    intro db hkeys hocc hops
    simp only [opsKeepCount, Bool.and_eq_true] at hops
    obtain ⟨h1, h2⟩ := apply_keeps op db hkeys hocc hops.1
    exact ih (op.apply db) h1 h2 hops.2

/-- C14 (amended): starting from a state in which every room's stored
`current_occupants` equals the number of residents referencing the room (and
resident ids are unique and room references name existing rooms, as the schema
enforces), the same holds after any sequence of `createResident` requests
without a room_id, `assignRoom` requests in which the resident exists and
previous_room_id is the resident's current room reference, and arbitrary
`createRoom`, `updateRoom` and `deleteRoom` requests, whether they succeed or
are refused. -/
theorem C14_occupancy_invariant (ops : List RoomOp) (db : Db) (hkeys : db.keysHold)
    (hocc : db.occupancyHolds) (hops : opsKeepCount ops db = true) :
    ∀ r ∈ (runOps ops db).rooms.rows,
      r.2.current_occupants = Int.ofNat ((runOps ops db).occupants r.1) :=
  (runOps_keeps ops db hkeys hocc hops).2

/-- Witness for C14: from the sample home, move resident 1 from Merpati to
Kenari, admit a resident without a room, add a room, delete Merpati: the
counters still equal the reference counts. -/
theorem C14_occupancy_invariant_witness :
    (runOps [.assign { id := 1, room_id := some 2, previous_room_id := some 1 },
        .intake sampleClock sampleResident,
        .addRoom { room_name := some "Elang", room_type := some "private", capacity := some 1
                   notes := none, status := none },
        .removeRoom 1] sampleHome).counters = [(2, 1), (3, 0)]
      ∧ ∀ r ∈ (runOps [.assign { id := 1, room_id := some 2, previous_room_id := some 1 },
          .intake sampleClock sampleResident,
          .addRoom { room_name := some "Elang", room_type := some "private", capacity := some 1
                     notes := none, status := none },
          .removeRoom 1] sampleHome).rooms.rows,
        r.2.current_occupants
          = Int.ofNat ((runOps [.assign { id := 1, room_id := some 2, previous_room_id := some 1 },
              .intake sampleClock sampleResident,
              .addRoom { room_name := some "Elang", room_type := some "private"
                         capacity := some 1, notes := none, status := none },
              .removeRoom 1] sampleHome).occupants r.1) :=
  ⟨by decide, C14_occupancy_invariant _ sampleHome (by decide) (by decide) (by decide)⟩

/-- Counterexample to C14 as stated: in the sample home the counters equal the
reference counts; a successful `assignRoom` of resident 2 to Kenari that names
Merpati as previous room leaves Merpati's counter at 0 while resident 1 still
references Merpati. -/
theorem C14_counterexample :
    sampleHome.occupancyHolds
      ∧ (assignRoom { id := 2, room_id := some 2, previous_room_id := some 1 } sampleHome).1
          = .ok "Room assigned successfully"
      ∧ (assignRoom { id := 2, room_id := some 2, previous_room_id := some 1 }
          sampleHome).2.counters = [(1, 0), (2, 1)]
      ∧ (assignRoom { id := 2, room_id := some 2, previous_room_id := some 1 }
          sampleHome).2.occupants 1 = 1
      ∧ ¬ (assignRoom { id := 2, room_id := some 2, previous_room_id := some 1 }
          sampleHome).2.occupancyHolds := by
  decide

/-! ## Listings -/

theorem sortDescBy_perm {α : Type} (key : α → String) (l : List α) :
    (sortDescBy key l).Perm l :=
  List.perm_insertionSort _ l

theorem sortDescBy_sorted {α : Type} (key : α → String) (l : List α) :
    (sortDescBy key l).Pairwise (fun a b => textLe (key b) (key a)) := by
  haveI : IsTotal α (fun a b => textLe (key b) (key a)) :=
    ⟨fun a b => le_total (key b).data (key a).data⟩
  haveI : IsTrans α (fun a b => textLe (key b) (key a)) :=
    ⟨fun a b c hab hbc => le_trans hbc hab⟩
  exact List.sorted_insertionSort (fun a b => textLe (key b) (key a)) l

theorem transactionMatches_iff (yearMonth : String → Option String) (q : TransactionQuery)
    (x : TransactionListing) :
    transactionMatches yearMonth q x = true
      ↔ (truthy q.type = true → some x.transaction_type = q.type)
        ∧ (truthy q.month = true → yearMonth x.row.transaction_date = q.month)
        ∧ (∀ c, q.category_id = some c → x.row.category_id = c) := by
  unfold transactionMatches
  cases truthy q.type <;> cases truthy q.month <;> cases q.category_id <;> simp [and_assoc]

theorem mem_joinCategories (db : Db) (x : TransactionListing) :
    x ∈ joinCategories db
      ↔ ∃ t ∈ db.transactions.rows, ∃ c : Nat × CategoryRow,
          db.donation_categories.rows.find? (fun c => c.1 == t.2.category_id) = some c
            ∧ x = { id := t.1, row := t.2, category_name := c.2.name
                    transaction_type := c.2.type } := by
  simp only [joinCategories, List.mem_filterMap, Option.map_eq_some']
  constructor
  · rintro ⟨t, ht, c, hc, rfl⟩
    exact ⟨t, ht, c, hc, rfl⟩
  · rintro ⟨t, ht, c, hc, rfl⟩
    exact ⟨t, ht, c, hc, rfl⟩

theorem joinCategories_all (rows : List (Nat × TransactionRow)) (cats : List (Nat × CategoryRow))
    (h : ∀ t ∈ rows, (cats.find? (fun c => c.1 == t.2.category_id)).isSome = true) :
    (rows.filterMap (fun t =>
      (cats.find? (fun c => c.1 == t.2.category_id)).map (fun c =>
        ({ id := t.1, row := t.2, category_name := c.2.name
           transaction_type := c.2.type } : TransactionListing)))).map (fun x => (x.id, x.row))
      = rows := by
  induction rows with
  | nil => rfl
  | cons t rest ih =>
    obtain ⟨c, hc⟩ := Option.isSome_iff_exists.1 (h t (List.mem_cons_self t rest))
    rw [List.filterMap_cons, hc]
    simp only [Option.map_some', List.map_cons]
    rw [ih (fun u hu => h u (List.mem_cons_of_mem t hu))]

/-- C19: `listTransactions` returns, ordered by transaction date descending,
exactly the stored transactions joined with name and direction of their
category that satisfy every supplied filter (direction equals `type`,
year-month of the date equals `month`, category id equals `category_id`; an
absent or empty parameter filters nothing); with no filter it returns every
stored transaction (every transaction has a category, as the foreign key
enforces). -/
theorem C19_listTransactions (yearMonth : String → Option String) (q : TransactionQuery)
    (db : Db) :
    (listTransactions yearMonth q db).Perm
        ((joinCategories db).filter (transactionMatches yearMonth q))
      ∧ (listTransactions yearMonth q db).Pairwise
          (fun a b => textLe b.row.transaction_date a.row.transaction_date)
      ∧ (∀ x, x ∈ listTransactions yearMonth q db
          ↔ (∃ t ∈ db.transactions.rows, ∃ c : Nat × CategoryRow,
                db.donation_categories.rows.find? (fun c => c.1 == t.2.category_id) = some c
                  ∧ x = { id := t.1, row := t.2, category_name := c.2.name
                          transaction_type := c.2.type })
            ∧ (truthy q.type = true → some x.transaction_type = q.type)
            ∧ (truthy q.month = true → yearMonth x.row.transaction_date = q.month)
            ∧ (∀ c, q.category_id = some c → x.row.category_id = c))
      ∧ (truthy q.type = false → truthy q.month = false → q.category_id = none →
          (∀ t ∈ db.transactions.rows, db.donation_categories.has t.2.category_id = true) →
          ((listTransactions yearMonth q db).map (fun x => (x.id, x.row))).Perm
            db.transactions.rows) := by
  have hperm : (listTransactions yearMonth q db).Perm
      ((joinCategories db).filter (transactionMatches yearMonth q)) := sortDescBy_perm _ _
  refine ⟨hperm, sortDescBy_sorted _ _, ?_, ?_⟩
  · intro x
    rw [hperm.mem_iff, List.mem_filter, mem_joinCategories, transactionMatches_iff]
  · intro h1 h2 h3 hfk
    have hall : (joinCategories db).filter (transactionMatches yearMonth q) = joinCategories db := by
      rw [List.filter_eq_self]
      intro x _
      rw [transactionMatches_iff]
      simp [h1, h2, h3]
    rw [hall] at hperm
    have hjoin : (joinCategories db).map (fun x => (x.id, x.row)) = db.transactions.rows := by
      apply joinCategories_all
      intro t ht
      have := hfk t ht
      simp only [Table.has, List.any_eq_true] at this
      obtain ⟨c, hc, hid⟩ := this
      rw [List.find?_isSome]
      exact ⟨c, hc, hid⟩
    rw [← hjoin]
    exact hperm.map _

/-- Witness for C19: of the three sample transactions, the expenses of June 2024
are listed most recent first; without a filter all three are listed. -/
theorem C19_listTransactions_witness :
    (listTransactions sampleYearMonth
        { type := some "expense", month := some "2024-06", category_id := none }
        sampleBooks).map (fun x => (x.row.transaction_id, x.category_name))
      = [("EXP-002", "Medis & Obat-obatan"), ("EXP-001", "Medis & Obat-obatan")]
    ∧ ((listTransactions sampleYearMonth { type := none, month := some "", category_id := none }
        sampleBooks).map (fun x => (x.id, x.row))).Perm sampleBooks.transactions.rows
    ∧ (listTransactions sampleYearMonth { type := none, month := some "", category_id := none }
        sampleBooks).map (fun x => x.row.transaction_id) = ["INC-001", "EXP-002", "EXP-001"] :=
  ⟨by decide,
    (C19_listTransactions sampleYearMonth { type := none, month := some "", category_id := none }
      sampleBooks).2.2.2 (by decide) (by decide) rfl (by decide),
    by decide⟩

theorem recordMatches_iff (dateOf : String → Option String) (q : RecordQuery)
    (row : DailyRecordRow) :
    recordMatches dateOf q row = true
      ↔ (∀ r, q.resident_id = some r → row.resident_id = r)
        ∧ (truthy q.date_from = true →
            ∃ d, dateOf row.record_datetime = some d ∧ textLe (q.date_from.getD "") d)
        ∧ (truthy q.date_to = true →
            ∃ d, dateOf row.record_datetime = some d ∧ textLe d (q.date_to.getD ""))
        ∧ (∀ a, q.activity_type_id = some a → row.activity_type_id = a) := by
  unfold recordMatches
  cases q.resident_id <;> cases truthy q.date_from <;> cases truthy q.date_to <;>
    cases q.activity_type_id <;> cases dateOf row.record_datetime <;> simp [and_assoc]

theorem joinRecords_rows (db : Db) :
    ((joinRecords db).map (fun x => (x.id, x.row))).Sublist db.daily_records.rows
      ∧ ((∀ dr ∈ db.daily_records.rows, db.residents.has dr.2.resident_id = true) →
          (joinRecords db).map (fun x => (x.id, x.row)) = db.daily_records.rows) := by
  unfold joinRecords
  generalize db.daily_records.rows = rows
  induction rows with
  | nil => exact ⟨List.Sublist.slnil, fun _ => rfl⟩
  | cons dr rest ih =>
    cases hr : db.residents.rows.find? (fun r => r.1 == dr.2.resident_id) with
    | none =>
      rw [List.filterMap_cons, hr]
      simp only [Option.map_none']
      refine ⟨ih.1.cons _, ?_⟩
      intro hfk
      have := hfk dr (List.mem_cons_self dr rest)
      simp only [Table.has, List.any_eq_true] at this
      obtain ⟨r, hmem, hid⟩ := this
      have hsome : (db.residents.rows.find? (fun r => r.1 == dr.2.resident_id)).isSome = true := by
        rw [List.find?_isSome]
        exact ⟨r, hmem, hid⟩
      rw [hr] at hsome
      cases hsome
    | some r =>
      rw [List.filterMap_cons, hr]
      simp only [Option.map_some', List.map_cons]
      refine ⟨ih.1.cons₂ _, ?_⟩
      intro hfk
      rw [ih.2 (fun u hu => hfk u (List.mem_cons_of_mem dr hu))]

/-- C20: `listDailyRecords` returns, ordered by record_datetime descending, the
daily records (joined with their resident and activity type) that satisfy every
supplied filter: the date part d of record_datetime satisfies date_from ≤ d
when date_from is given and d ≤ date_to when date_to is given, both bounds
inclusive, and resident_id and activity_type_id equal the given ones. Every
record has a resident, as the foreign key enforces; then the answer holds
exactly the stored records that satisfy the filters. -/
theorem C20_listDailyRecords (dateOf : String → Option String) (q : RecordQuery) (db : Db) :
    (listDailyRecords dateOf q db).Perm
        ((joinRecords db).filter (fun x => recordMatches dateOf q x.row))
      ∧ (listDailyRecords dateOf q db).Pairwise
          (fun a b => textLe b.row.record_datetime a.row.record_datetime)
      ∧ (∀ x ∈ listDailyRecords dateOf q db,
          (x.id, x.row) ∈ db.daily_records.rows
            ∧ (∀ r, q.resident_id = some r → x.row.resident_id = r)
            ∧ (truthy q.date_from = true →
                ∃ d, dateOf x.row.record_datetime = some d ∧ textLe (q.date_from.getD "") d)
            ∧ (truthy q.date_to = true →
                ∃ d, dateOf x.row.record_datetime = some d ∧ textLe d (q.date_to.getD ""))
            ∧ (∀ a, q.activity_type_id = some a → x.row.activity_type_id = a))
      ∧ ((∀ dr ∈ db.daily_records.rows, db.residents.has dr.2.resident_id = true) →
          ((listDailyRecords dateOf q db).map (fun x => (x.id, x.row))).Perm
            (db.daily_records.rows.filter (fun dr => recordMatches dateOf q dr.2))) := by
  have hperm : (listDailyRecords dateOf q db).Perm
      ((joinRecords db).filter (fun x => recordMatches dateOf q x.row)) := sortDescBy_perm _ _
  refine ⟨hperm, sortDescBy_sorted _ _, ?_, ?_⟩
  · intro x hx
    rw [hperm.mem_iff, List.mem_filter] at hx
    refine ⟨?_, (recordMatches_iff dateOf q x.row).1 hx.2⟩
    exact (joinRecords_rows db).1.subset (List.mem_map_of_mem (fun x => (x.id, x.row)) hx.1)
  · intro hfk
    have hmap := (joinRecords_rows db).2 hfk
    have h1 := hperm.map (fun x => (x.id, x.row))
    have h2 : ((joinRecords db).filter (fun x => recordMatches dateOf q x.row)).map
        (fun x => (x.id, x.row))
        = db.daily_records.rows.filter (fun dr => recordMatches dateOf q dr.2) := by
      rw [← hmap, List.filter_map]
      rfl
    rw [h2] at h1
    exact h1

/-- Witness for C20: of the three sample records, those from 2 June to 3 June
2024 are listed most recent first. -/
theorem C20_listDailyRecords_witness :
    (listDailyRecords sampleDateOf
        { resident_id := none, date_from := some "2024-06-02", date_to := some "2024-06-03"
          activity_type_id := none } sampleDiary).map
          (fun x => (x.id, x.row.record_datetime, x.resident_type, x.activity_name))
      = [(2, "2024-06-03T07:45:00", "Oma", some "Makan"),
          (3, "2024-06-02T12:00:00", "Oma", some "Makan")]
    ∧ ((listDailyRecords sampleDateOf
        { resident_id := none, date_from := some "2024-06-02", date_to := some "2024-06-03"
          activity_type_id := none } sampleDiary).map (fun x => (x.id, x.row))).Perm
        (sampleDiary.daily_records.rows.filter (fun dr =>
          recordMatches sampleDateOf
            { resident_id := none, date_from := some "2024-06-02", date_to := some "2024-06-03"
              activity_type_id := none } dr.2)) :=
  ⟨by decide,
    (C20_listDailyRecords sampleDateOf
      { resident_id := none, date_from := some "2024-06-02", date_to := some "2024-06-03"
        activity_type_id := none } sampleDiary).2.2.2 (by decide)⟩


/-- An intake that names a room stores the reference but leaves the room's
counter as it is: in the sample home, admitting a resident into Kenari is
answered `201`, one resident then references Kenari and its counter is still 0. -/
theorem createResident_with_room_keeps_counter :
    sampleHome.occupancyHolds
      ∧ (createResident sampleClock
          { sampleResident with form := { sampleForm with room_id := some 2 } } sampleHome).1
        = .created 3 "R-003" none none 74
      ∧ (createResident sampleClock
          { sampleResident with form := { sampleForm with room_id := some 2 } }
          sampleHome).2.counters = [(1, 1), (2, 0)]
      ∧ (createResident sampleClock
          { sampleResident with form := { sampleForm with room_id := some 2 } }
          sampleHome).2.occupants 2 = 1 := by
  decide

/-! ## Room assignment under honest requests -/

theorem eq_of_mem_of_nodup_fst {α : Type} {l : List (Nat × α)} (hnd : (l.map (·.1)).Nodup)
    {a b : Nat × α} (ha : a ∈ l) (hb : b ∈ l) (hab : a.1 = b.1) : a = b :=
  List.inj_on_of_nodup_map hnd ha hb hab

theorem assignRoom_occupancy (req : AssignRoomRequest) (db : Db)
    (hnd : (db.residents.rows.map (·.1)).Nodup) (hocc : db.occupancyHolds)
    (hhonest : assignRoomHonest req db = true) : (assignRoom req db).2.occupancyHolds := by
  cases hrej : assignRoomRejected req db with
  | true => rw [assignRoom_rejected hrej]; exact hocc
  | false =>
    rw [(assignRoom_accepted hrej).2]
    simp only [assignRoomHonest, List.any_eq_true, Bool.and_eq_true, beq_iff_eq] at hhonest
    obtain ⟨res, hres, hid, hprev⟩ := hhonest
    intro x hx
    simp only [List.mem_map] at hx
    obtain ⟨x0, hx0, rfl⟩ := hx
    have hc := hocc x0 hx0
    have hmem : (req.id, res.2) ∈ db.residents.rows := by
      rw [← hid]
      exact hres
    have hcount := refCount_move req x0.1 res.2 db.residents.rows hnd hmem
    simp only [Db.occupants, shiftOccupants]
    simp only [Db.occupants] at hc
    rw [hcount, hc, hprev]

theorem assignRoom_same_room (req : AssignRoomRequest) (db : Db)
    (hnd : (db.residents.rows.map (·.1)).Nodup) (hhonest : assignRoomHonest req db = true)
    (hsame : req.room_id = req.previous_room_id) : (assignRoom req db).2 = db := by
  cases hrej : assignRoomRejected req db with
  | true => rw [assignRoom_rejected hrej]
  | false =>
    rw [(assignRoom_accepted hrej).2]
    simp only [assignRoomHonest, List.any_eq_true, Bool.and_eq_true, beq_iff_eq] at hhonest
    obtain ⟨res, hres, hid, hprev⟩ := hhonest
    have h1 : db.residents.rows.map (moveResident req) = db.residents.rows := by
      conv_rhs => rw [← List.map_id db.residents.rows]
      apply List.map_congr_left
      intro r hr
      unfold moveResident
      split
      · rename_i hrid
        have : r = res := eq_of_mem_of_nodup_fst hnd hr hres (by rw [hrid, hid])
        subst this
        simp only [id]
        have hroom : req.room_id = r.2.room_id := by rw [hsame, hprev]
        rw [hroom]
      · rfl
    have h2 : db.rooms.rows.map (shiftOccupants req) = db.rooms.rows := by
      conv_rhs => rw [← List.map_id db.rooms.rows]
      apply List.map_congr_left
      intro r _
      have : r.2.current_occupants + (if req.previous_room_id = some r.1 then -1 else 0)
          + (if req.room_id = some r.1 then 1 else 0) = r.2.current_occupants := by
        rw [hsame]
        split <;> omega
      simp only [shiftOccupants, this, id]
    rw [h1, h2]

/-- C29: `assignRoom` keeps the occupancy invariant under honest requests. In a
state where every room's counter equals the number of residents referencing it
(resident ids being unique, as the primary key enforces), a request whose
resident exists, whose previous_room_id is the resident's current room
reference and whose room_id is unset or names an existing room succeeds, and
afterwards every room's counter again equals the number of residents
referencing it; when room_id equals previous_room_id the database is unchanged. -/
theorem C29_assignRoom_honest (req : AssignRoomRequest) (db : Db)
    (hnd : (db.residents.rows.map (·.1)).Nodup)
    (hocc : ∀ r ∈ db.rooms.rows, r.2.current_occupants = Int.ofNat (db.occupants r.1))
    (hhonest : assignRoomHonest req db = true)
    (hroom : ∀ r ∈ req.room_id, db.rooms.has r = true) :
    (assignRoom req db).1.isOk = true
      ∧ (∀ r ∈ (assignRoom req db).2.rooms.rows,
          r.2.current_occupants = Int.ofNat ((assignRoom req db).2.occupants r.1))
      ∧ (req.room_id = req.previous_room_id → (assignRoom req db).2 = db) := by
  refine ⟨?_, assignRoom_occupancy req db hnd hocc hhonest,
    assignRoom_same_room req db hnd hhonest⟩
  rw [assignRoom_isOk]
  cases hr : req.room_id with
  | none => simp [assignRoomRejected, hr]
  | some r => simp [assignRoomRejected, hr, hroom r (by simp [hr])]

/-- Witness for C29: in the sample home, moving resident 1 from Merpati to Kenari
with the true previous room keeps every counter equal to its reference count. -/
theorem C29_assignRoom_honest_witness :
    (assignRoom { id := 1, room_id := some 2, previous_room_id := some 1 } sampleHome).2.counters
        = [(1, 0), (2, 1)]
      ∧ ∀ r ∈ (assignRoom { id := 1, room_id := some 2, previous_room_id := some 1 }
          sampleHome).2.rooms.rows,
        r.2.current_occupants
          = Int.ofNat ((assignRoom { id := 1, room_id := some 2, previous_room_id := some 1 }
              sampleHome).2.occupants r.1) :=
  ⟨by decide,
    (C29_assignRoom_honest { id := 1, room_id := some 2, previous_room_id := some 1 } sampleHome
      (by decide) (by decide) (by decide) (by decide)).2.1⟩

/-! ## Resident listing -/

theorem sortAscBy_perm {α : Type} (key : α → String) (l : List α) :
    (sortAscBy key l).Perm l :=
  List.perm_insertionSort _ l

theorem sortAscBy_sorted {α : Type} (key : α → String) (l : List α) :
    (sortAscBy key l).Pairwise (fun a b => textLe (key a) (key b)) := by
  haveI : IsTotal α (fun a b => textLe (key a) (key b)) :=
    ⟨fun a b => le_total (key a).data (key b).data⟩
  haveI : IsTrans α (fun a b => textLe (key a) (key b)) :=
    ⟨fun a b c hab hbc => le_trans hab hbc⟩
  exact List.sorted_insertionSort (fun a b => textLe (key a) (key b)) l

theorem anySuffix_iff (f : List Char → Bool) (s : List Char) :
    anySuffix f s = true ↔ ∃ pre post, s = pre ++ post ∧ f post = true := by
  induction s with
  | nil =>
    simp only [anySuffix]
    constructor
    · intro h; exact ⟨[], [], rfl, h⟩
    · rintro ⟨pre, post, h, hf⟩
      have := List.append_eq_nil.1 h.symm
      rw [this.2] at hf
      exact hf
  | cons c cs ih =>
    simp only [anySuffix, Bool.or_eq_true, ih]
    constructor
    · rintro (h | ⟨pre, post, h, hf⟩)
      · exact ⟨[], c :: cs, rfl, h⟩
      · exact ⟨c :: pre, post, by rw [h]; rfl, hf⟩
    · rintro ⟨pre, post, h, hf⟩
      cases pre with
      | nil =>
        left
        simp only [List.nil_append] at h
        rw [h]
        exact hf
      | cons a pre =>
        right
        simp only [List.cons_append, List.cons.injEq] at h
        exact ⟨pre, post, h.2, hf⟩

theorem likeMatch_percent (ps s : List Char) :
    likeMatch ('%' :: ps) s = anySuffix (likeMatch ps) s := by
  simp only [likeMatch, if_true]

theorem likeMatch_cons_nil (p : Char) (ps : List Char) (h : p ≠ '%') :
    likeMatch (p :: ps) [] = false := by
  simp only [likeMatch, if_neg h]

theorem likeMatch_cons_cons (p c : Char) (ps cs : List Char) (h : p ≠ '%') :
    likeMatch (p :: ps) (c :: cs)
      = ((p == '_' || p.toLower == c.toLower) && likeMatch ps cs) := by
  simp only [likeMatch, if_neg h]

/-- For a pattern text without `%` and `_`, `LIKE 'text%'` holds of the texts
that start with it up to the case of ASCII letters. -/
theorem likeMatch_starts (p : List Char) (hp : ∀ c ∈ p, c ≠ '%' ∧ c ≠ '_') :
    ∀ t : List Char, likeMatch (p ++ ['%']) t = true
      ↔ ∃ mid post, t = mid ++ post ∧ mid.map Char.toLower = p.map Char.toLower := by
  induction p with
  | nil =>
    intro t
    rw [List.nil_append, likeMatch_percent, anySuffix_iff]
    constructor
    · intro _
      exact ⟨[], t, rfl, rfl⟩
    · intro _
      exact ⟨t, [], by simp, rfl⟩
  | cons a ps ih =>
    intro t
    obtain ⟨h1, h2⟩ := hp a (List.mem_cons_self a ps)
    have hps : ∀ c ∈ ps, c ≠ '%' ∧ c ≠ '_' := fun c hc => hp c (List.mem_cons_of_mem a hc)
    cases t with
    | nil =>
      rw [List.cons_append, likeMatch_cons_nil _ _ h1]
      constructor
      · intro h; cases h
      · rintro ⟨mid, post, h, hm⟩
        have := List.append_eq_nil.1 h.symm
        rw [this.1] at hm
        cases hm
    | cons c cs =>
      have h2' : (a == '_') = false := by simpa using h2
      rw [List.cons_append, likeMatch_cons_cons _ _ _ _ h1, h2', Bool.false_or,
        Bool.and_eq_true, beq_iff_eq, ih hps cs]
      constructor
      · rintro ⟨hac, mid, post, h, hm⟩
        exact ⟨c :: mid, post, by rw [h]; rfl, by simp [hac, hm]⟩
      · rintro ⟨mid, post, h, hm⟩
        cases mid with
        | nil => cases hm
        | cons m mid =>
          simp only [List.cons_append, List.cons.injEq] at h
          simp only [List.map_cons, List.cons.injEq] at hm
          exact ⟨by rw [h.1]; exact hm.1.symm, mid, post, h.2, hm.2⟩

/-- For a search text without `%` and `_`, `LIKE '%text%'` holds of the texts
that contain it up to the case of ASCII letters. -/
theorem likeContains_iff (search text : String) (hs : ∀ c ∈ search.data, c ≠ '%' ∧ c ≠ '_') :
    likeContains search text = true
      ↔ ∃ pre mid post, text.data = pre ++ mid ++ post
          ∧ mid.map Char.toLower = search.data.map Char.toLower := by
  rw [likeContains, List.cons_append, likeMatch_percent, anySuffix_iff]
  constructor
  · rintro ⟨pre, rest, h, hm⟩
    obtain ⟨mid, post, h2, hmid⟩ := (likeMatch_starts search.data hs rest).1 hm
    exact ⟨pre, mid, post, by rw [h, h2, List.append_assoc], hmid⟩
  · rintro ⟨pre, mid, post, h, hmid⟩
    exact ⟨pre, mid ++ post, by rw [h, List.append_assoc],
      (likeMatch_starts search.data hs _).2 ⟨mid, post, rfl, hmid⟩⟩

theorem residentMatches_iff (q : ResidentQuery) (row : ResidentRow) :
    residentMatches q row = true
      ↔ (truthy q.status = true → some row.status = q.status)
        ∧ (truthy q.type = true →
            row.gender = (if q.type = some "Opa" then "male" else "female"))
        ∧ (truthy q.search = true →
            likeContains (q.search.getD "") row.name = true
              ∨ likeContains (q.search.getD "") row.resident_id = true) := by
  unfold residentMatches
  cases truthy q.status <;> cases truthy q.type <;> cases truthy q.search <;>
    simp [and_assoc]

theorem mem_joinRooms (db : Db) (x : ResidentListing) :
    x ∈ joinRooms db
      ↔ ∃ r ∈ db.residents.rows, x.id = r.1 ∧ x.row = r.2
          ∧ x.room_name = (r.2.room_id.bind (fun id =>
              db.rooms.rows.find? (fun rm => rm.1 == id))).map (·.2.room_name)
          ∧ x.room_type = (r.2.room_id.bind (fun id =>
              db.rooms.rows.find? (fun rm => rm.1 == id))).map (·.2.room_type)
          ∧ x.room_status = (r.2.room_id.bind (fun id =>
              db.rooms.rows.find? (fun rm => rm.1 == id))).map (·.2.status) := by
  unfold joinRooms
  rw [List.mem_map]
  constructor
  · rintro ⟨r, hr, rfl⟩
    exact ⟨r, hr, rfl, rfl, rfl, rfl, rfl⟩
  · rintro ⟨r, hr, h1, h2, h3, h4, h5⟩
    refine ⟨r, hr, ?_⟩
    cases x
    simp only at h1 h2 h3 h4 h5
    subst h1 h2 h3 h4 h5
    rfl

theorem joinRooms_rows (db : Db) :
    (joinRooms db).map (fun x => (x.id, x.row)) = db.residents.rows := by
  unfold joinRooms
  rw [List.map_map]
  exact List.map_id _

/-- C21 (amended): `GET /api/residents` returns, ordered by name ascending, exactly
the residents passing every supplied (truthy) filter, each with name, type and
status of the room it references (absent when there is none): status equal to
the given one; gender `male` for type `Opa` and `female` for any other type;
name or code matching `LIKE '%search%'`, which for a search text without `%` and
`_` means containing it up to the case of ASCII letters. Without filters every
resident is returned. -/
theorem C21_listResidents (q : ResidentQuery) (db : Db) :
    (listResidents q db).Perm ((joinRooms db).filter (fun x => residentMatches q x.row))
      ∧ (listResidents q db).Pairwise (fun a b => textLe a.row.name b.row.name)
      ∧ (∀ x, x ∈ listResidents q db
          ↔ (∃ r ∈ db.residents.rows, x.id = r.1 ∧ x.row = r.2
              ∧ x.room_name = (r.2.room_id.bind (fun id =>
                  db.rooms.rows.find? (fun rm => rm.1 == id))).map (·.2.room_name)
              ∧ x.room_type = (r.2.room_id.bind (fun id =>
                  db.rooms.rows.find? (fun rm => rm.1 == id))).map (·.2.room_type)
              ∧ x.room_status = (r.2.room_id.bind (fun id =>
                  db.rooms.rows.find? (fun rm => rm.1 == id))).map (·.2.status))
            ∧ (truthy q.status = true → some x.row.status = q.status)
            ∧ (truthy q.type = true →
                x.row.gender = (if q.type = some "Opa" then "male" else "female"))
            ∧ (truthy q.search = true →
                likeContains (q.search.getD "") x.row.name = true
                  ∨ likeContains (q.search.getD "") x.row.resident_id = true))
      ∧ (∀ search text : String, (∀ c ∈ search.data, c ≠ '%' ∧ c ≠ '_') →
          (likeContains search text = true
            ↔ ∃ pre mid post, text.data = pre ++ mid ++ post
                ∧ mid.map Char.toLower = search.data.map Char.toLower))
      ∧ (truthy q.status = false → truthy q.type = false → truthy q.search = false →
          ((listResidents q db).map (fun x => (x.id, x.row))).Perm db.residents.rows) := by
  have hperm : (listResidents q db).Perm
      ((joinRooms db).filter (fun x => residentMatches q x.row)) := sortAscBy_perm _ _
  refine ⟨hperm, sortAscBy_sorted _ _, ?_, likeContains_iff, ?_⟩
  · intro x
    rw [hperm.mem_iff, List.mem_filter, mem_joinRooms, residentMatches_iff]
  · intro h1 h2 h3
    have hall : (joinRooms db).filter (fun x => residentMatches q x.row) = joinRooms db := by
      rw [List.filter_eq_self]
      intro x _
      rw [residentMatches_iff]
      simp [h1, h2, h3]
    rw [hall] at hperm
    rw [← joinRooms_rows db]
    exact hperm.map _

/-- C21 on the sample home: the type `Opa` selects nobody, the type `Oma` and the
search text `r-00` both residents; without filters all residents are returned. -/
theorem C21_listResidents_witness :
    listResidents { search := none, status := some "Aktif", type := some "Opa" } sampleHome = []
    ∧ (listResidents { search := some "r-00", status := none, type := some "Oma" }
        sampleHome).map (fun x => (x.row.resident_id, x.room_name))
        = [("R-001", some "Merpati"), ("R-002", none)]
    ∧ ((listResidents { search := none, status := some "", type := none }
        sampleHome).map (fun x => (x.id, x.row))).Perm sampleHome.residents.rows :=
  ⟨by decide, by decide,
    (C21_listResidents { search := none, status := some "", type := none }
      sampleHome).2.2.2.2 (by decide) (by decide) (by decide)⟩

/-- C21 as written fails: no name or code of the sample home contains the text `%`
or the text `s_t`, yet a search for either returns both residents. -/
theorem C21_counterexample :
    (∀ r ∈ sampleHome.residents.rows,
        ¬ "%".data <:+: r.2.name.data ∧ ¬ "%".data <:+: r.2.resident_id.data
          ∧ ¬ "s_t".data <:+: r.2.name.data ∧ ¬ "s_t".data <:+: r.2.resident_id.data)
    ∧ (listResidents { search := some "%", status := none, type := none }
        sampleHome).map (fun x => x.id) = [1, 2]
    ∧ (listResidents { search := some "s_t", status := none, type := none }
        sampleHome).map (fun x => x.id) = [1, 2] := by
  refine ⟨?_, by decide, by decide⟩
  decide

/-! ## Deleting a transaction -/

theorem filter_ne_length_lt {α : Type} (rows : List (Nat × α)) (id : Nat) (t : Nat × α)
    (h : rows.find? (fun t => t.1 == id) = some t) :
    (rows.filter (fun r => r.1 != id)).length < rows.length := by
  have hmem := List.mem_of_find?_eq_some h
  have hid := List.find?_some h
  have hlt : (rows.filter (fun r => r.1 != id)).length < rows.length := by
    apply List.length_filter_lt_length_iff_exists.2
    exact ⟨t, hmem, by simpa using hid⟩
  exact hlt

theorem filter_ne_length_of_nodup {α : Type} (rows : List (Nat × α)) (id : Nat)
    (hnd : (rows.map (·.1)).Nodup) (hmem : id ∈ rows.map (·.1)) :
    (rows.filter (fun r => r.1 != id)).length + 1 = rows.length := by
  induction rows with
  | nil => cases hmem
  | cons r rest ih =>
    rw [List.map_cons, List.nodup_cons] at hnd
    rw [List.map_cons, List.mem_cons] at hmem
    by_cases hr : r.1 = id
    · have hnot : id ∉ rest.map (·.1) := hr ▸ hnd.1
      have hall : rest.filter (fun r => r.1 != id) = rest := by
        rw [List.filter_eq_self]
        intro x hx
        have : x.1 ≠ id := fun h => hnot (h ▸ List.mem_map_of_mem _ hx)
        simpa using this
      rw [List.filter_cons_of_neg (by simpa using hr), hall, List.length_cons]
    · have hin : id ∈ rest.map (·.1) := by
        rcases hmem with h | h
        · exact absurd h.symm hr
        · exact h
      rw [List.filter_cons_of_pos (by simpa using hr), List.length_cons, ih hnd.2 hin,
        List.length_cons]

/-- C23: `DELETE /api/transactions/:id` on a stored id answers 200 with the id and
the code of the row, removes the rows with that id from `transactions` (one row
when ids are unique) and nothing else from the database, and removes the file of
a truthy `attachment_path` from the files, whether or not it was there; on an
id that is not stored it answers 404 and changes nothing. -/
theorem C23_deleteTransaction (pathJoin : String → String → String) (id : Nat) (db : Db)
    (files : Files) :
    (∀ t, db.transactions.rows.find? (fun t => t.1 == id) = some t →
        (deleteTransaction pathJoin id db files).1 = .ok id t.2.transaction_id
          ∧ (deleteTransaction pathJoin id db files).2.1
              = { db with transactions :=
                    { rows := db.transactions.rows.filter (fun r => r.1 != id)
                      seq := db.transactions.seq } }
          ∧ (∀ r, r ∈ (deleteTransaction pathJoin id db files).2.1.transactions.rows
              ↔ r ∈ db.transactions.rows ∧ r.1 ≠ id)
          ∧ ((db.transactions.rows.map (·.1)).Nodup →
              (deleteTransaction pathJoin id db files).2.1.transactions.rows.length + 1
                = db.transactions.rows.length)
          ∧ (deleteTransaction pathJoin id db files).2.2
              = (if truthy t.2.attachment_path then
                  files.filter (fun f => f != pathJoin "public" (t.2.attachment_path.getD ""))
                else files)
          ∧ (truthy t.2.attachment_path = true →
              pathJoin "public" (t.2.attachment_path.getD "")
                ∉ (deleteTransaction pathJoin id db files).2.2))
      ∧ (db.transactions.has id = false →
          deleteTransaction pathJoin id db files = (.notFound, db, files)) := by
  constructor
  · intro t ht
    have hlt := filter_ne_length_lt db.transactions.rows id t ht
    have hchanges : ¬ (db.transactions.rows.length
        - (db.transactions.rows.filter (fun r => r.1 != id)).length = 0) := by omega
    have hrun : deleteTransaction pathJoin id db files
        = (.ok id t.2.transaction_id,
            { db with transactions :=
                { rows := db.transactions.rows.filter (fun r => r.1 != id)
                  seq := db.transactions.seq } },
            if truthy t.2.attachment_path then
              files.filter (fun f => f != pathJoin "public" (t.2.attachment_path.getD ""))
            else files) := by
      unfold deleteTransaction
      simp only [ht, Table.delete, if_neg hchanges]
      cases hta : truthy t.2.attachment_path with
      | false => simp
      | true =>
        by_cases hex : pathJoin "public" (t.2.attachment_path.getD "") ∈ files
        · simp [existsSync, unlinkSync, hex]
        · have hall : files.filter
              (fun f => f != pathJoin "public" (t.2.attachment_path.getD "")) = files := by
            rw [List.filter_eq_self]
            intro f hf
            have : f ≠ pathJoin "public" (t.2.attachment_path.getD "") := fun h => hex (h ▸ hf)
            simpa using this
          simp [existsSync, hex, hall]
    rw [hrun]
    refine ⟨rfl, rfl, ?_, ?_, rfl, ?_⟩
    · intro r
      simp [List.mem_filter]
    · intro hnd
      apply filter_ne_length_of_nodup _ _ hnd
      have hmem := List.mem_of_find?_eq_some ht
      have hid := List.find?_some ht
      rw [List.mem_map]
      exact ⟨t, hmem, by simpa using hid⟩
    · intro hta
      simp [hta, List.mem_filter]
  · intro hno
    have hfind : db.transactions.rows.find? (fun t => t.1 == id) = none := by
      rw [List.find?_eq_none]
      intro x hx hid
      have : db.transactions.has id = true := by
        rw [Table.has, List.any_eq_true]
        exact ⟨x, hx, hid⟩
      rw [hno] at this
      cases this
    unfold deleteTransaction
    rw [hfind]

/-- C23 on the sample archive: deleting transaction 3 removes its row and its
attachment, also when the attachment is no longer on disk; deleting the unknown
id 9 changes nothing. -/
theorem C23_deleteTransaction_witness :
    deleteTransaction samplePathJoin 3 sampleArchive
        ["public/uploads/transactions/bukti.pdf", "public/uploads/photos/a.jpg"]
      = (.ok 3 "INC-001",
          { sampleLedger with transactions := { sampleLedger.transactions with seq := 3 } },
          ["public/uploads/photos/a.jpg"])
    ∧ deleteTransaction samplePathJoin 3 sampleArchive ["public/uploads/photos/a.jpg"]
      = (.ok 3 "INC-001",
          { sampleLedger with transactions := { sampleLedger.transactions with seq := 3 } },
          ["public/uploads/photos/a.jpg"])
    ∧ deleteTransaction samplePathJoin 9 sampleArchive ["public/uploads/photos/a.jpg"]
      = (.notFound, sampleArchive, ["public/uploads/photos/a.jpg"]) :=
  ⟨by decide, by decide,
    (C23_deleteTransaction samplePathJoin 9 sampleArchive ["public/uploads/photos/a.jpg"]).2
      (by decide)⟩

/-! ## Creating a daily record -/

theorem recordInsertOk_iff (db : Db) (req : RecordRequest) :
    recordInsertOk db req = true
      ↔ (∃ r, req.resident_id = some r ∧ db.residents.has r = true)
        ∧ (∃ a, req.activity_type_id = some a ∧ db.activity_types.has a = true)
        ∧ req.record_datetime ≠ none
        ∧ (∃ c, req.condition = some c ∧ c ∈ recordConditions)
        ∧ req.notes ≠ none := by
  have hdt : (withSeconds req.record_datetime).isSome = true ↔ req.record_datetime ≠ none := by
    unfold withSeconds
    cases req.record_datetime with
    | none => simp [truthy]
    | some s => split <;> simp
  unfold recordInsertOk
  simp only [Bool.and_eq_true, hdt, and_assoc]
  cases req.resident_id <;> cases req.activity_type_id <;> cases req.condition <;>
    cases req.notes <;> simp

/-- C22 (amended): `POST /api/records` validates nothing itself. The record is
refused, with status 500 and the database unchanged, exactly when the insert
violates the schema: `notes`, `record_datetime` or `condition` missing,
`condition` outside the three allowed values, or `resident_id` or
`activity_type_id` missing or not stored. Otherwise exactly one record is
appended under a fresh id, empty `notes` included, with `recorded_by` falling
back to `System`. -/
theorem C22_createDailyRecord (req : RecordRequest) (db : Db) :
    (recordInsertOk db req = true
      ↔ (∃ r, req.resident_id = some r ∧ db.residents.has r = true)
        ∧ (∃ a, req.activity_type_id = some a ∧ db.activity_types.has a = true)
        ∧ req.record_datetime ≠ none
        ∧ (∃ c, req.condition = some c ∧ c ∈ ["Baik", "Cukup Baik", "Kurang Baik"])
        ∧ req.notes ≠ none)
      ∧ (recordInsertOk db req = false → createDailyRecord req db = (.internalError, db))
      ∧ (recordInsertOk db req = true →
          (createDailyRecord req db).1 = .created db.daily_records.nextId
            ∧ (∀ r ∈ db.daily_records.rows, r.1 < db.daily_records.nextId)
            ∧ (createDailyRecord req db).2
                = { db with daily_records :=
                      { rows := db.daily_records.rows ++
                          [(db.daily_records.nextId,
                            { resident_id := req.resident_id.getD 0
                              activity_type_id := req.activity_type_id.getD 0
                              record_datetime := (withSeconds req.record_datetime).getD ""
                              condition := req.condition.getD ""
                              notes := req.notes.getD ""
                              recorded_by := some (orElse req.recorded_by "System") })]
                        seq := db.daily_records.nextId } }) := by
  refine ⟨recordInsertOk_iff db req, ?_, ?_⟩
  · intro h
    simp [createDailyRecord, h]
  · intro h
    refine ⟨by simp [createDailyRecord, h], fun r hr => Table.lt_nextId _ r hr, ?_⟩
    simp [createDailyRecord, h, Table.insert, recordRow]

/-- C22 on the sample diary: a full request is stored as record 4 with seconds
added; a request without notes and a request for the unknown resident 9 are
answered 500 and store nothing. -/
theorem C22_createDailyRecord_witness :
    ((createDailyRecord (sampleRecordRequest (some "Baik") (some "Sarapan")) sampleDiary).1
        = .created 4
      ∧ (createDailyRecord (sampleRecordRequest (some "Baik") (some "Sarapan"))
          sampleDiary).2.daily_records.rows
        = sampleDiary.daily_records.rows ++
            [(4, { resident_id := 1, activity_type_id := 6
                   record_datetime := "2024-06-04T08:15:00", condition := "Baik"
                   notes := "Sarapan", recorded_by := some "System" })])
    ∧ createDailyRecord (sampleRecordRequest (some "Baik") none) sampleDiary
        = (.internalError, sampleDiary)
    ∧ createDailyRecord { sampleRecordRequest (some "Baik") (some "Sarapan") with
          resident_id := some 9 } sampleDiary
        = (.internalError, sampleDiary) :=
  ⟨by decide,
    (C22_createDailyRecord (sampleRecordRequest (some "Baik") none) sampleDiary).2.1 (by decide),
    by decide⟩

/-- C22 as written fails twice: a request whose notes are the empty string is
stored, and a request with notes and both references valid but a condition
outside the allowed values stores nothing. -/
theorem C22_counterexample :
    ((createDailyRecord (sampleRecordRequest (some "Baik") (some "")) sampleDiary).1
        = .created 4
      ∧ (createDailyRecord (sampleRecordRequest (some "Baik") (some ""))
          sampleDiary).2.daily_records.rows.length
        = sampleDiary.daily_records.rows.length + 1)
    ∧ (sampleDiary.residents.has 1 = true ∧ sampleDiary.activity_types.has 6 = true
        ∧ createDailyRecord (sampleRecordRequest (some "Sehat") (some "Sarapan")) sampleDiary
          = (.internalError, sampleDiary)) := by
  decide

/-! ## Deleting a user -/

/-- The guard of `DELETE /api/users/:id` fires on the text `1` and leaves the
database as it was. -/
theorem deleteUser_guard (toRowid : String → Option Nat) (db : Db) :
    deleteUser toRowid "1" db = (.cannotDeleteAdmin, db) := rfl

/-- The client never sends a request for the user with id 1. -/
theorem handleDeleteUser_admin (toRowid : String → Option Nat) (db : Db) :
    handleDeleteUser toRowid 1 db = db := rfl

/-- C24 (defect): the guard of `DELETE /api/users/:id` compares texts. For every
route parameter other than the text `1` that the store resolves to row id 1,
the request is answered 200 and the user with id 1 is gone, while all other
users stay. -/
theorem C24_deleteUser_unguarded (toRowid : String → Option Nat) (id : String) (db : Db)
    (hid : id ≠ "1") (hrow : toRowid id = some 1) (hadmin : db.users.has 1 = true) :
    (deleteUser toRowid id db).1 = .ok
      ∧ (deleteUser toRowid id db).2.users.has 1 = false
      ∧ (deleteUser toRowid id db).2.users.rows = db.users.rows.filter (fun r => r.1 != 1)
      ∧ (deleteUser toRowid id db).2 ≠ db := by
  have hlt : (db.users.rows.filter (fun r => r.1 != 1)).length < db.users.rows.length := by
    apply List.length_filter_lt_length_iff_exists.2
    rw [Table.has, List.any_eq_true] at hadmin
    obtain ⟨x, hx, h1⟩ := hadmin
    exact ⟨x, hx, by simpa using h1⟩
  have hchanges : ¬ (db.users.rows.length
      - (db.users.rows.filter (fun r => r.1 != 1)).length = 0) := by omega
  have hrun : deleteUser toRowid id db = (.ok, { db with users := db.users.delete 1 }) := by
    unfold deleteUser
    simp only [if_neg hid, hrow, Table.delete, if_neg hchanges]
  rw [hrun]
  refine ⟨rfl, ?_, rfl, ?_⟩
  · simp [Table.has, Table.delete]
  · intro h
    have hrows : (db.users.rows.filter (fun r => r.1 != 1)).length = db.users.rows.length :=
      congrArg (fun d : Db => d.users.rows.length) h
    omega

/-- C24 on the sample office: the parameter `1` is refused, the parameter `01`
deletes the main admin. -/
theorem C24_deleteUser_unguarded_witness :
    deleteUser decimalRowid "1" sampleOffice = (.cannotDeleteAdmin, sampleOffice)
    ∧ decimalRowid "01" = some 1
    ∧ ((deleteUser decimalRowid "01" sampleOffice).1 = .ok
      ∧ (deleteUser decimalRowid "01" sampleOffice).2.users.has 1 = false
      ∧ (deleteUser decimalRowid "01" sampleOffice).2.users.rows
          = sampleOffice.users.rows.filter (fun r => r.1 != 1)
      ∧ (deleteUser decimalRowid "01" sampleOffice).2 ≠ sampleOffice)
    ∧ (deleteUser decimalRowid "01" sampleOffice).2.users.rows
        = [(2, sampleUser "staff" "staff")] :=
  ⟨by decide, by decide,
    C24_deleteUser_unguarded decimalRowid "01" sampleOffice (by decide) (by decide) (by decide),
    by decide⟩

/-! ## Creating a user -/

/-- C25 (amended): `POST /api/users` with a stored username is answered 400
`Username already exists` and changes nothing. With a fresh username, a
password, a full name and one of the four roles, exactly one row is appended to
`users` under a fresh id, holding the hash of the password, and the answer
carries the selected columns of that row, among whose keys are neither
`password` nor `password_hash`. With a fresh username but no password, no
username, no full name or another role it is answered 500 and changes nothing. -/
theorem C25_createUser (hash : String → String) (req : UserRequest) (db : Db) :
    (db.usernameTaken req.username = true → createUser hash req db = (.usernameExists, db))
      ∧ (db.usernameTaken req.username = false →
          ∀ password, req.password = some password → userInsertOk req = true →
            createUser hash req db
              = (.created
                  { id := db.users.nextId, username := req.username.getD ""
                    full_name := req.full_name.getD "", role := req.role.getD ""
                    email := req.email, phone := req.phone, is_active := 1 }
                  userResponseKeys,
                 { db with users :=
                    { rows := db.users.rows ++
                        [(db.users.nextId,
                          { username := req.username.getD "", password_hash := hash password
                            full_name := req.full_name.getD "", role := req.role.getD ""
                            email := req.email, phone := req.phone, is_active := 1
                            last_login := none })]
                      seq := db.users.nextId } })
              ∧ (∀ r ∈ db.users.rows, r.1 < db.users.nextId)
              ∧ "password" ∉ userResponseKeys ∧ "password_hash" ∉ userResponseKeys)
      ∧ (db.usernameTaken req.username = false →
          (req.password = none ∨ userInsertOk req = false) →
            createUser hash req db = (.internalError, db))
      ∧ (userInsertOk req = true
          ↔ req.username ≠ none ∧ req.full_name ≠ none
            ∧ ∃ r, req.role = some r ∧ r ∈ ["admin", "staff", "doctor", "nurse"]) := by
  refine ⟨?_, ?_, ?_, ?_⟩
  · intro h
    simp [createUser, h]
  · intro h password hp hok
    refine ⟨?_, fun r hr => Table.lt_nextId _ r hr, by decide, by decide⟩
    simp [createUser, h, hp, hok, Table.insert, userRow, userView]
  · intro h hbad
    unfold createUser
    rw [h]
    cases hp : req.password with
    | none => rfl
    | some p =>
      rcases hbad with hb | hb
      · rw [hp] at hb; cases hb
      · simp [hb]
  · unfold userInsertOk userRoles
    cases req.username <;> cases req.full_name <;> cases req.role <;> simp

/-- C25 on the sample office: the name `staff` is refused; the fresh name
`perawat` with the role `nurse` is stored as user 3. -/
theorem C25_createUser_witness :
    createUser sampleHash (sampleUserRequest "staff" "nurse") sampleOffice
      = (.usernameExists, sampleOffice)
    ∧ (createUser sampleHash (sampleUserRequest "perawat" "nurse") sampleOffice).2.users.rows
      = sampleOffice.users.rows ++
          [(3, { username := "perawat", password_hash := "$2b$10$rahasia"
                 full_name := "Perawat Jaga", role := "nurse", email := none
                 phone := some "0812", is_active := 1, last_login := none })] :=
  ⟨(C25_createUser sampleHash (sampleUserRequest "staff" "nurse") sampleOffice).1 (by decide),
    by decide⟩

/-- C25 as written fails: the username `perawat` is fresh in the sample office,
yet with the role `manager`, or without a password, no user row is added. -/
theorem C25_counterexample :
    sampleOffice.usernameTaken (some "perawat") = false
    ∧ createUser sampleHash (sampleUserRequest "perawat" "manager") sampleOffice
        = (.internalError, sampleOffice)
    ∧ createUser sampleHash { sampleUserRequest "perawat" "nurse" with password := none }
        sampleOffice = (.internalError, sampleOffice) := by
  decide

/-! ## Default data -/

theorem insertOrIgnore_step {α : Type} (advances : Bool) (key : α → String) :
    InsertsIfAbsent key (insertOrIgnore advances key) := by
  intro t a
  have hany : t.rows.any (fun r => key r.2 == key a) = true ↔ key a ∈ t.keys key := by
    rw [List.any_eq_true, Table.keys, List.mem_map]
    constructor
    · rintro ⟨r, hr, h⟩
      exact ⟨r, hr, by simpa using h⟩
    · rintro ⟨r, hr, h⟩
      exact ⟨r, hr, by simpa using h⟩
  constructor
  · intro h
    unfold insertOrIgnore
    rw [if_pos (hany.2 h)]
    cases advances <;> rfl
  · intro h
    unfold insertOrIgnore
    rw [if_neg (fun h2 => h (hany.1 h2))]
    exact ⟨t.nextId, rfl⟩

theorem seedUser_step (advances : Bool) :
    InsertsIfAbsent (fun r : UserRow => r.username) (seedUser advances) := by
  intro t a
  have hcount : (t.rows.filter (fun r => r.2.username == a.username)).length = 0
      ↔ a.username ∉ t.keys (fun r => r.username) := by
    rw [List.length_eq_zero, List.filter_eq_nil_iff, Table.keys, List.mem_map]
    constructor
    · rintro h ⟨r, hr, h2⟩
      exact h r hr (by simpa using h2)
    · intro h r hr h2
      exact h ⟨r, hr, by simpa using h2⟩
  constructor
  · intro h
    unfold seedUser
    rw [if_neg (fun h2 => hcount.1 h2 h)]
  · intro h
    unfold seedUser
    rw [if_pos (hcount.2 h)]
    exact (insertOrIgnore_step advances _ t a).2 h

theorem step_rows_extend {α : Type} {key : α → String} {step : Table α → α → Table α}
    (hs : InsertsIfAbsent key step) (t : Table α) (a : α) :
    t.rows <+: (step t a).rows := by
  by_cases h : key a ∈ t.keys key
  · rw [(hs t a).1 h]
  · obtain ⟨id, hid⟩ := (hs t a).2 h
    rw [hid]
    exact List.prefix_append _ _

theorem step_key_stored {α : Type} {key : α → String} {step : Table α → α → Table α}
    (hs : InsertsIfAbsent key step) (t : Table α) (a : α) :
    key a ∈ (step t a).keys key := by
  by_cases h : key a ∈ t.keys key
  · rw [Table.keys, (hs t a).1 h]
    exact h
  · obtain ⟨id, hid⟩ := (hs t a).2 h
    rw [Table.keys, hid, List.map_append]
    exact List.mem_append_right _ (List.mem_singleton.2 rfl)

theorem step_keys_nodup {α : Type} {key : α → String} {step : Table α → α → Table α}
    (hs : InsertsIfAbsent key step) (t : Table α) (a : α) (hnd : (t.keys key).Nodup) :
    ((step t a).keys key).Nodup := by
  by_cases h : key a ∈ t.keys key
  · rw [Table.keys, (hs t a).1 h]
    exact hnd
  · obtain ⟨id, hid⟩ := (hs t a).2 h
    rw [Table.keys, hid, List.map_append, List.nodup_append]
    refine ⟨hnd, List.nodup_singleton _, ?_⟩
    intro k hk hk2
    rw [List.map_singleton, List.mem_singleton] at hk2
    exact h (hk2 ▸ hk)

theorem fold_rows_extend {α : Type} {key : α → String} {step : Table α → α → Table α}
    (hs : InsertsIfAbsent key step) (defaults : List α) :
    ∀ t : Table α, t.rows <+: (defaults.foldl step t).rows := by
  induction defaults with
  | nil => intro t; exact List.prefix_refl _
  | cons a rest ih =>
    intro t
    exact (step_rows_extend hs t a).trans (ih (step t a))

theorem fold_keys_nodup {α : Type} {key : α → String} {step : Table α → α → Table α}
    (hs : InsertsIfAbsent key step) (defaults : List α) :
    ∀ t : Table α, (t.keys key).Nodup → ((defaults.foldl step t).keys key).Nodup := by
  induction defaults with
  | nil => intro t h; exact h
  | cons a rest ih =>
    intro t h
    exact ih (step t a) (step_keys_nodup hs t a h)

theorem fold_keys_stored {α : Type} {key : α → String} {step : Table α → α → Table α}
    (hs : InsertsIfAbsent key step) (defaults : List α) :
    ∀ t : Table α, ∀ a ∈ defaults, key a ∈ (defaults.foldl step t).keys key := by
  induction defaults with
  | nil => intro t a ha; cases ha
  | cons b rest ih =>
    intro t a ha
    rcases List.mem_cons.1 ha with h | h
    · subst h
      have h1 := step_key_stored hs t a
      have h2 := fold_rows_extend hs rest (step t a)
      rw [Table.keys, List.mem_map] at h1 ⊢
      obtain ⟨r, hr, hk⟩ := h1
      exact ⟨r, h2.subset hr, hk⟩
    · exact ih (step t b) a h

theorem fold_rows_of_stored {α : Type} {key : α → String} {step : Table α → α → Table α}
    (hs : InsertsIfAbsent key step) (defaults : List α) :
    ∀ t : Table α, (∀ a ∈ defaults, key a ∈ t.keys key) → (defaults.foldl step t).rows = t.rows := by
  induction defaults with
  | nil => intro t _; rfl
  | cons b rest ih =>
    intro t h
    have hb := (hs t b).1 (h b (List.mem_cons_self b rest))
    have hrest : ∀ a ∈ rest, key a ∈ (step t b).keys key := by
      intro a ha
      rw [Table.keys, hb]
      exact h a (List.mem_cons_of_mem b ha)
    rw [List.foldl_cons, ih (step t b) hrest, hb]

/-- Seeding a seeded table adds no row. -/
theorem fold_rows_twice {α : Type} {key : α → String} {step : Table α → α → Table α}
    (hs : InsertsIfAbsent key step) (defaults : List α) (t : Table α) :
    (defaults.foldl step (defaults.foldl step t)).rows = (defaults.foldl step t).rows :=
  fold_rows_of_stored hs defaults _ (fold_keys_stored hs defaults t)

/-- The default rows meet the `CHECK` constraints of their tables, so that only
the `UNIQUE` constraint can make `INSERT OR IGNORE` skip one of them. -/
theorem defaults_valid (hash : String → String) :
    (∀ a ∈ activityTypes, a.category ∈ ["routine", "medical", "visit", "special"].map some)
      ∧ (∀ c ∈ donationCategories, c.type ∈ ["income", "expense"])
      ∧ (∀ r ∈ defaultRooms, roomTypes.contains r.room_type = true
          ∧ roomStatuses.contains r.status = true)
      ∧ (∀ u ∈ defaultUsers hash, userRoles.contains u.role = true) := by
  refine ⟨by decide, by decide, by decide, ?_⟩
  intro u hu
  simp only [defaultUsers, List.mem_cons, List.mem_singleton, List.not_mem_nil, or_false] at hu
  rcases hu with h | h <;> rw [h] <;> simp only <;> decide

theorem fold_of_stored {α : Type} {key : α → String} {step : Table α → α → Table α}
    (hstep : ∀ t a, key a ∈ t.keys key → step t a = t) (defaults : List α) :
    ∀ t : Table α, (∀ a ∈ defaults, key a ∈ t.keys key) → defaults.foldl step t = t := by
  induction defaults with
  | nil => intro t _; rfl
  | cons b rest ih =>
    intro t h
    have hb := hstep t b (h b (List.mem_cons_self b rest))
    rw [List.foldl_cons, hb]
    exact ih t (fun a ha => h a (List.mem_cons_of_mem b ha))

theorem insertOrIgnore_stored {α : Type} (key : α → String) (t : Table α) (a : α)
    (h : key a ∈ t.keys key) : insertOrIgnore false key t a = t := by
  have hany : t.rows.any (fun r => key r.2 == key a) = true := by
    rw [List.any_eq_true]
    rw [Table.keys, List.mem_map] at h
    obtain ⟨r, hr, hk⟩ := h
    exact ⟨r, hr, by simpa using hk⟩
  unfold insertOrIgnore
  rw [if_pos hany]
  rfl

theorem seedUser_stored (advances : Bool) (t : Table UserRow) (a : UserRow)
    (h : a.username ∈ t.keys (fun r => r.username)) : seedUser advances t a = t := by
  have hcount : ¬ (t.rows.filter (fun r => r.2.username == a.username)).length = 0 := by
    rw [List.length_eq_zero, List.filter_eq_nil_iff]
    rw [Table.keys, List.mem_map] at h
    obtain ⟨r, hr, hk⟩ := h
    intro hall
    exact hall r hr (by simpa using hk)
  unfold seedUser
  rw [if_neg hcount]

/-- Seeding with any arrays is idempotent on rows and overwrites nothing. -/
theorem seedWith_spec (advances : Bool) (types : List ActivityTypeRow)
    (categories : List CategoryRow) (rooms : List RoomRow) (users : List UserRow) (s : Db) :
    (seedWith advances types categories rooms users
        (seedWith advances types categories rooms users s)).reference
        = (seedWith advances types categories rooms users s).reference
      ∧ (advances = false →
          seedWith advances types categories rooms users
              (seedWith advances types categories rooms users s)
            = seedWith advances types categories rooms users s)
      ∧ (s.referenceKeysUnique →
          (seedWith advances types categories rooms users s).referenceKeysUnique)
      ∧ (s.activity_types.rows
            <+: (seedWith advances types categories rooms users s).activity_types.rows
          ∧ s.donation_categories.rows
              <+: (seedWith advances types categories rooms users s).donation_categories.rows
          ∧ s.rooms.rows <+: (seedWith advances types categories rooms users s).rooms.rows
          ∧ s.users.rows <+: (seedWith advances types categories rooms users s).users.rows)
      ∧ ((∀ a ∈ types,
            a.name ∈ (seedWith advances types categories rooms users s).activity_types.keys
              (fun r => r.name))
          ∧ (∀ c ∈ categories,
              c.name ∈ (seedWith advances types categories rooms users s).donation_categories.keys
                (fun r => r.name))
          ∧ (∀ r ∈ rooms,
              r.room_name ∈ (seedWith advances types categories rooms users s).rooms.keys
                (fun r => r.room_name))
          ∧ (∀ u ∈ users,
              u.username ∈ (seedWith advances types categories rooms users s).users.keys
                (fun r => r.username)))
      ∧ seedWith advances types categories rooms users s
          = { s with
              activity_types := (seedWith advances types categories rooms users s).activity_types
              donation_categories :=
                (seedWith advances types categories rooms users s).donation_categories
              rooms := (seedWith advances types categories rooms users s).rooms
              users := (seedWith advances types categories rooms users s).users } := by
  have ha := insertOrIgnore_step advances (fun r : ActivityTypeRow => r.name)
  have hc := insertOrIgnore_step advances (fun r : CategoryRow => r.name)
  have hr := insertOrIgnore_step advances (fun r : RoomRow => r.room_name)
  have hu := seedUser_step advances
  refine ⟨?_, ?_, ?_, ?_, ?_, rfl⟩
  · simp only [Db.reference, seedWith, Prod.mk.injEq]
    exact ⟨fold_rows_twice ha _ _, fold_rows_twice hc _ _, fold_rows_twice hr _ _,
      fold_rows_twice hu _ _⟩
  · intro hadv
    subst hadv
    have h1 := fold_of_stored (insertOrIgnore_stored (fun r : ActivityTypeRow => r.name))
      types _ (fold_keys_stored ha types s.activity_types)
    have h2 := fold_of_stored (insertOrIgnore_stored (fun r : CategoryRow => r.name))
      categories _ (fold_keys_stored hc categories s.donation_categories)
    have h3 := fold_of_stored (insertOrIgnore_stored (fun r : RoomRow => r.room_name))
      rooms _ (fold_keys_stored hr rooms s.rooms)
    have h4 := fold_of_stored (seedUser_stored false) users _ (fold_keys_stored hu users s.users)
    simp only [seedWith]
    rw [h1, h2, h3, h4]
  · rintro ⟨n1, n2, n3, n4⟩
    exact ⟨fold_keys_nodup ha _ _ n1, fold_keys_nodup hc _ _ n2, fold_keys_nodup hr _ _ n3,
      fold_keys_nodup hu _ _ n4⟩
  · exact ⟨fold_rows_extend ha _ _, fold_rows_extend hc _ _, fold_rows_extend hr _ _,
      fold_rows_extend hu _ _⟩
  · exact ⟨fold_keys_stored ha _ _, fold_keys_stored hc _ _, fold_keys_stored hr _ _,
      fold_keys_stored hu _ _⟩

/-- C26: `insertDefaultData` is idempotent and overwrites nothing. From every
store, a second run leaves the rows of activity types, donation categories,
rooms and users as the first run left them (and the whole store when a skipped
row does not advance the id sequence); keys that were unique stay unique; the
rows stored before the run stay in place with their ids and values; every
default key is stored afterwards; no other table is touched. -/
theorem C26_insertDefaultData (hash : String → String) (advances : Bool) (s : Db) :
    (insertDefaultData hash advances (insertDefaultData hash advances s)).reference
        = (insertDefaultData hash advances s).reference
      ∧ (advances = false →
          insertDefaultData hash advances (insertDefaultData hash advances s)
            = insertDefaultData hash advances s)
      ∧ (s.referenceKeysUnique → (insertDefaultData hash advances s).referenceKeysUnique)
      ∧ (s.activity_types.rows <+: (insertDefaultData hash advances s).activity_types.rows
          ∧ s.donation_categories.rows
              <+: (insertDefaultData hash advances s).donation_categories.rows
          ∧ s.rooms.rows <+: (insertDefaultData hash advances s).rooms.rows
          ∧ s.users.rows <+: (insertDefaultData hash advances s).users.rows)
      ∧ ((∀ a ∈ activityTypes,
            a.name ∈ (insertDefaultData hash advances s).activity_types.keys (fun r => r.name))
          ∧ (∀ c ∈ donationCategories,
              c.name ∈ (insertDefaultData hash advances s).donation_categories.keys
                (fun r => r.name))
          ∧ (∀ r ∈ defaultRooms,
              r.room_name ∈ (insertDefaultData hash advances s).rooms.keys (fun r => r.room_name))
          ∧ (∀ u ∈ defaultUsers hash,
              u.username ∈ (insertDefaultData hash advances s).users.keys (fun r => r.username)))
      ∧ insertDefaultData hash advances s
          = { s with
              activity_types := (insertDefaultData hash advances s).activity_types
              donation_categories := (insertDefaultData hash advances s).donation_categories
              rooms := (insertDefaultData hash advances s).rooms
              users := (insertDefaultData hash advances s).users } :=
  seedWith_spec advances activityTypes donationCategories defaultRooms (defaultUsers hash) s

/-- C26 on the sample store: the room Merpati and the account admin keep their
own values, nine rooms and the staff account are added, and the room names
stay unique. -/
theorem C26_insertDefaultData_witness :
    (insertDefaultData sampleHash false sampleStore).rooms.rows.take 2
        = [(4, sampleRoom "Merpati" 3 2),
           (7, defaultRoom "Kakatua" "private" 1 "Kamar dengan jendela besar dan taman view")]
    ∧ (insertDefaultData sampleHash false sampleStore).rooms.rows.length = 10
    ∧ (insertDefaultData sampleHash false sampleStore).users.rows
        = [(1, sampleUser "admin" "admin"),
           (2, { username := "staff", password_hash := "$2b$10$staff123"
                 full_name := "Staff Demo", role := "staff"
                 email := some "staff@pantiwk.com", phone := none, is_active := 1
                 last_login := none })]
    ∧ (insertDefaultData sampleHash false sampleStore).referenceKeysUnique :=
  ⟨by decide, by decide, by decide,
    (C26_insertDefaultData sampleHash false sampleStore).2.2.1
      ⟨by decide, by decide, by decide, by decide⟩⟩

/-! ## The page state of the client -/

theorem navigateTo_user (page : String) (s : AppState) :
    (navigateTo page s).user = s.user
      ∧ (navigateTo page s).isAuthenticated = s.isAuthenticated := by
  obtain ⟨p, r, a, user⟩ := s
  unfold navigateTo
  cases user with
  | none => exact ⟨rfl, rfl⟩
  | some u =>
    simp only
    split_ifs <;> exact ⟨rfl, rfl⟩

theorem navigateTo_gated (page : String) (s : AppState) (h : s.gated) :
    (navigateTo page s).gated := by
  obtain ⟨h1, h2⟩ := h
  refine ⟨?_, by rw [(navigateTo_user page s).1, (navigateTo_user page s).2]; exact h2⟩
  intro u hu hrole
  rw [(navigateTo_user page s).1] at hu
  unfold navigateTo
  rw [hu]
  simp only [hrole, if_true]
  by_cases hp : page = "donation" ∨ page = "users"
  · rw [if_pos hp]
    exact h1 u hu hrole
  · rw [if_neg hp]
    exact ⟨fun h => hp (Or.inl h), fun h => hp (Or.inr h)⟩

theorem adminOnly_cases (screen : Screen) (s : AppState) :
    (adminOnly screen s = (screen, s) ∧ ∃ u, s.user = some u ∧ u.role = "admin")
      ∨ (adminOnly screen s = (.null, navigateTo "dashboard" s)
          ∧ ∃ u, s.user = some u ∧ u.role ≠ "admin")
      ∨ (adminOnly screen s = (.typeError, s) ∧ s.user = none) := by
  unfold adminOnly
  cases hu : s.user with
  | none => exact Or.inr (Or.inr ⟨rfl, rfl⟩)
  | some u =>
    by_cases hrole : u.role = "admin"
    · exact Or.inl ⟨by simp only [if_pos hrole], u, rfl, hrole⟩
    · exact Or.inr (Or.inl ⟨by simp only [if_neg hrole], u, rfl, hrole⟩)

theorem renderPage_state (s : AppState) :
    (renderPage s).2 = s ∨ (renderPage s).2 = navigateTo "dashboard" s := by
  have hadmin : ∀ screen, (adminOnly screen s).2 = s
      ∨ (adminOnly screen s).2 = navigateTo "dashboard" s := by
    intro screen
    rcases adminOnly_cases screen s with h | h | h
    · rw [h.1]; exact Or.inl rfl
    · rw [h.1]; exact Or.inr rfl
    · rw [h.1]; exact Or.inl rfl
  unfold renderPage
  split_ifs
  all_goals first | exact Or.inl rfl | exact hadmin _

theorem apply_gated (e : AppEvent) (s : AppState) (h : s.gated) : (e.apply s).gated := by
  cases e with
  | login userData =>
    refine ⟨?_, ?_⟩
    · intro u _ _
      show "dashboard" ≠ "donation" ∧ "dashboard" ≠ "users"
      exact ⟨by decide, by decide⟩
    · simp [AppEvent.apply, handleLogin]
  | navigate page => exact navigateTo_gated page s h
  | detail residentId =>
    refine ⟨?_, ?_⟩
    · intro u _ _
      show "detail" ≠ "donation" ∧ "detail" ≠ "users"
      exact ⟨by decide, by decide⟩
    · exact h.2
  | logout =>
    refine ⟨?_, ?_⟩
    · intro u hu
      cases hu
    · simp [AppEvent.apply, handleLogout]
  | render =>
    rcases renderPage_state s with h1 | h1
    · rw [AppEvent.apply, h1]
      exact h
    · rw [AppEvent.apply, h1]
      exact navigateTo_gated _ s h

theorem runApp_gated (events : List AppEvent) : (runApp events).gated := by
  unfold runApp
  have hinit : AppState.initial.gated := by
    refine ⟨?_, ?_⟩
    · intro u hu
      cases hu
    · simp [AppState.initial]
  generalize AppState.initial = s at hinit
  induction events generalizing s with
  | nil => exact hinit
  | cons e rest ih => exact ih (e.apply s) (apply_gated e s hinit)

/-- A screen other than the gated one comes out of `adminOnly` only as `null` or
as the error. -/
theorem adminOnly_screen (screen : Screen) (s : AppState) :
    (adminOnly screen s).1 = screen ∨ (adminOnly screen s).1 = .null
      ∨ (adminOnly screen s).1 = .typeError := by
  rcases adminOnly_cases screen s with h | h | h
  · rw [h.1]; exact Or.inl rfl
  · rw [h.1]; exact Or.inr (Or.inl rfl)
  · rw [h.1]; exact Or.inr (Or.inr rfl)

theorem adminOnly_admin (screen : Screen) (s : AppState) (hs : screen ≠ .null)
    (hs2 : screen ≠ .typeError) (h : (adminOnly screen s).1 = screen) :
    ∃ u, s.user = some u ∧ u.role = "admin" := by
  rcases adminOnly_cases screen s with h1 | h1 | h1
  · exact h1.2
  · rw [h1.1] at h
    exact absurd h.symm hs
  · rw [h1.1] at h
    exact absurd h.symm hs2

theorem renderPage_admin (s : AppState)
    (h : (renderPage s).1 = .donation ∨ (renderPage s).1 = .userManagement) :
    s.isAuthenticated = true ∧ ∃ u, s.user = some u ∧ u.role = "admin" := by
  unfold renderPage at h
  split_ifs at h with h0 h1 h2 h3 h4 h5 h6 h7 h8
  · rcases h with h | h <;> cases h
  · rcases h with h | h <;> cases h
  · rcases h with h | h <;> cases h
  · rcases h with h | h <;> cases h
  · rcases h with h | h <;> cases h
  · rcases h with h | h <;> cases h
  · rcases h with h | h <;> cases h
  · refine ⟨by simpa using h0, ?_⟩
    rcases h with h | h
    · exact adminOnly_admin .donation s (by decide) (by decide) h
    · rcases adminOnly_screen .donation s with h9 | h9 | h9 <;> rw [h9] at h <;> cases h
  · refine ⟨by simpa using h0, ?_⟩
    rcases h with h | h
    · rcases adminOnly_screen .userManagement s with h9 | h9 | h9 <;> rw [h9] at h <;> cases h
    · exact adminOnly_admin .userManagement s (by decide) (by decide) h
  · rcases h with h | h <;> cases h

theorem renderPage_typeError (s : AppState) (h : (renderPage s).1 = .typeError) :
    s.isAuthenticated = true ∧ s.user = none := by
  have hadmin : ∀ screen, screen ≠ Screen.typeError →
      (adminOnly screen s).1 = .typeError → s.user = none := by
    intro screen hne hs
    rcases adminOnly_cases screen s with h1 | h1 | h1
    · rw [h1.1] at hs
      exact absurd hs hne
    · rw [h1.1] at hs
      cases hs
    · exact h1.2
  unfold renderPage at h
  split_ifs at h with h0
  all_goals first
    | cases h
    | exact ⟨by simpa using h0, hadmin .donation (by decide) h⟩
    | exact ⟨by simpa using h0, hadmin .userManagement (by decide) h⟩

/-- C27: in every state reached from the initial state of `App` by logins,
navigations, detail views, logouts and renders, a logged-in staff user is on
neither the page `donation` nor the page `users`, a user is stored exactly while
the state is authenticated, and `renderPage` does not throw; and in any state at
all `renderPage` yields the Donation or the UserManagement screen only for an
authenticated user whose role is `admin`. -/
theorem C27_role_gating (events : List AppEvent) (s : AppState) :
    (∀ u, (runApp events).user = some u → u.role = "staff" →
        (runApp events).currentPage ≠ "donation" ∧ (runApp events).currentPage ≠ "users")
      ∧ ((runApp events).isAuthenticated = true ↔ (runApp events).user ≠ none)
      ∧ (renderPage (runApp events)).1 ≠ .typeError
      ∧ (∀ u, s.user = some u → u.role ≠ "admin" →
          (renderPage s).1 ≠ .donation ∧ (renderPage s).1 ≠ .userManagement)
      ∧ (s.user = none →
          (renderPage s).1 ≠ .donation ∧ (renderPage s).1 ≠ .userManagement) := by
  have hg := runApp_gated events
  refine ⟨hg.1, hg.2, ?_, ?_, ?_⟩
  · intro hcrash
    obtain ⟨ha, hu⟩ := renderPage_typeError _ hcrash
    exact (hg.2.1 ha) hu
  · intro u hu hrole
    constructor
    · intro h
      obtain ⟨_, v, hv, hadmin⟩ := renderPage_admin s (Or.inl h)
      rw [hu] at hv
      cases hv
      exact hrole hadmin
    · intro h
      obtain ⟨_, v, hv, hadmin⟩ := renderPage_admin s (Or.inr h)
      rw [hu] at hv
      cases hv
      exact hrole hadmin
  · intro hu
    constructor
    · intro h
      obtain ⟨_, v, hv, _⟩ := renderPage_admin s (Or.inl h)
      rw [hu] at hv
      cases hv
    · intro h
      obtain ⟨_, v, hv, _⟩ := renderPage_admin s (Or.inr h)
      rw [hu] at hv
      cases hv

/-- C27 on sample runs: a staff user asking for `donation` stays on the
dashboard; an admin reaches the Donation screen; a nurse reaches the page
`donation` but is shown nothing and is sent back to the dashboard. -/
theorem C27_role_gating_witness :
    ((runApp [.login (sampleAppUser "staff"), .navigate "donation"]).currentPage ≠ "donation"
      ∧ (runApp [.login (sampleAppUser "staff"), .navigate "donation"]).currentPage ≠ "users")
    ∧ (runApp [.login (sampleAppUser "staff"), .navigate "donation"]).currentPage = "dashboard"
    ∧ (renderPage (runApp [.login (sampleAppUser "admin"), .navigate "donation"])).1 = .donation
    ∧ (runApp [.login (sampleAppUser "nurse"), .navigate "donation"]).currentPage = "donation"
    ∧ renderPage (runApp [.login (sampleAppUser "nurse"), .navigate "donation"])
        = (.null, runApp [.login (sampleAppUser "nurse")]) :=
  ⟨(C27_role_gating [.login (sampleAppUser "staff"), .navigate "donation"] AppState.initial).1
      (sampleAppUser "staff") (by decide) (by decide),
    by decide, by decide, by decide, by decide⟩

/-! ## Financial summary -/

theorem findShift_le (a j : Nat) (ha : a < 2 ^ (53 + j)) :
    ∀ i k : Nat, k ≤ j → findShift a i k ≤ j := by
  intro i
  induction i with
  | zero => intro k hk; exact hk
  | succ i ih =>
    intro k hk
    unfold findShift
    split
    · rename_i h
      rw [Nat.shiftLeft_eq, Nat.one_mul] at h
      have hlt : 2 ^ (53 + k + 2 ^ i - 1) < 2 ^ (53 + j) := lt_of_le_of_lt h ha
      have hexp := (Nat.pow_lt_pow_iff_right (by norm_num : 1 < 2)).1 hlt
      have hpos : 0 < 2 ^ i := Nat.pow_pos (by norm_num)
      exact ih (k + 2 ^ i) (by omega)
    · exact ih k hk

theorem roundBits_of_dvd (a : Nat) (h : 2 ^ findShift a 12 0 ∣ a) : roundBits a = a := by
  have hq : (a >>> findShift a 12 0) <<< findShift a 12 0 = a := by
    rw [Nat.shiftRight_eq_div_pow, Nat.shiftLeft_eq, Nat.div_mul_cancel h]
  have hhalf : 0 < 1 <<< (findShift a 12 0 - 1) := by
    rw [Nat.shiftLeft_eq, Nat.one_mul]
    exact Nat.pow_pos (by norm_num)
  unfold roundBits
  simp only [hq, Nat.sub_self]
  rw [if_neg]
  rintro (h1 | ⟨h1, _⟩) <;> omega

theorem roundBits_scaled (n e : Nat) (hn : n < 2 ^ 53) :
    roundBits (n * 2 ^ e) = n * 2 ^ e := by
  apply roundBits_of_dvd
  have ha : n * 2 ^ e < 2 ^ (53 + e) := by
    rw [Nat.pow_add]
    exact Nat.mul_lt_mul_of_lt_of_le hn (Nat.le_refl _) (Nat.pow_pos (by norm_num))
  have hk := findShift_le (n * 2 ^ e) e ha 12 0 (Nat.zero_le _)
  exact Dvd.dvd.mul_left (Nat.pow_dvd_pow 2 hk) n

theorem lt_shiftLeft (f a : Nat) (h : a < 2 ^ f) : a < 1 <<< f := by
  rw [Nat.shiftLeft_eq, Nat.one_mul]
  exact h

theorem scaled_lt (n e f P : Nat) (hn : n < 2 ^ 53) (hP : 2 ^ e = P) (hf : 53 + e ≤ f) :
    n * P < 1 <<< f := by
  apply lt_shiftLeft
  have hPpos : 0 < P := hP ▸ Nat.pow_pos (by norm_num)
  have h1 : n * P < 2 ^ 53 * P := Nat.mul_lt_mul_of_lt_of_le hn (Nat.le_refl _) hPpos
  have h2 : 2 ^ 53 * P = 2 ^ (53 + e) := by rw [Nat.pow_add, hP]
  rw [h2] at h1
  exact lt_of_lt_of_le h1 (Nat.pow_le_pow_right (by norm_num) hf)

/-- A whole multiple of a power of two, below 2^53, is no further rounded. -/
theorem ofExact_scaled (n : Int) (e : Nat) (hn : n.natAbs < 2 ^ 53) (hf : 53 + e ≤ 2098) :
    Double.ofExact (n * Int.ofNat (1 <<< e)) = .finite (n * Int.ofNat (1 <<< e)) := by
  have hpow : 1 <<< e = 2 ^ e := by rw [Nat.shiftLeft_eq, Nat.one_mul]
  rw [hpow]
  generalize hP : 2 ^ e = P
  have hPpos : 0 < P := hP ▸ Nat.pow_pos (by norm_num)
  have habs : (n * Int.ofNat P).natAbs = n.natAbs * P := by
    rw [Int.natAbs_mul]
    rfl
  have hround : roundBits (n.natAbs * P) = n.natAbs * P := hP ▸ roundBits_scaled n.natAbs e hn
  have hfin : n.natAbs * P < 1 <<< 2098 := scaled_lt n.natAbs e 2098 P hn hP hf
  unfold Double.ofExact
  rw [habs, hround, if_pos hfin]
  congr 1
  have hposZ : (0 : Int) < Int.ofNat P := Int.ofNat_lt.2 hPpos
  split
  · rename_i hneg
    have hn0 : n < 0 := by
      by_contra hc
      push_neg at hc
      have := Int.mul_nonneg hc (le_of_lt hposZ)
      omega
    have hnat : Int.ofNat (n.natAbs * P) = (n.natAbs : Int) * Int.ofNat P := by
      show ((n.natAbs * P : Nat) : Int) = _
      push_cast
      rfl
    have : (n.natAbs : Int) = -n := by omega
    rw [hnat, this]
    ring
  · rename_i hneg
    have hn0 : 0 ≤ n := by
      by_contra hc
      push_neg at hc
      exact hneg (Int.mul_neg_of_neg_of_pos hc hposZ)
    have hnat : Int.ofNat (n.natAbs * P) = (n.natAbs : Int) * Int.ofNat P := by
      show ((n.natAbs * P : Nat) : Int) = _
      push_cast
      rfl
    have : (n.natAbs : Int) = n := by omega
    rw [hnat, this]

/-- Whole numbers below 2^53 in absolute value are converted exactly. -/
theorem ofInt_whole (n : Int) (hn : n.natAbs < 2 ^ 53) : Double.ofInt n = Double.whole n :=
  ofExact_scaled n 1074 hn (by decide)

theorem shiftLeft_one_pos (e : Nat) : 0 < 1 <<< e := by
  rw [Nat.shiftLeft_eq, Nat.one_mul]
  exact Nat.pow_pos (by norm_num)

/-- Different whole numbers are different doubles. -/
theorem whole_injective (a b : Int) (h : Double.whole a = Double.whole b) : a = b := by
  unfold Double.whole Double.scaled at h
  simp only [Double.finite.injEq] at h
  have hpos : Int.ofNat (1 <<< 1074) ≠ 0 :=
    Int.ofNat_ne_zero.2 (Nat.pos_iff_ne_zero.1 (shiftLeft_one_pos 1074))
  exact Int.eq_of_mul_eq_mul_right hpos h

theorem natAbs_sum_le {α : Type} (l : List α) (g : α → Int) :
    ((l.map g).sum).natAbs ≤ (l.map (fun x => (g x).natAbs)).sum := by
  induction l with
  | nil => simp
  | cons x rest ih =>
    simp only [List.map_cons, List.sum_cons]
    exact le_trans (Int.natAbs_add_le _ _) (Nat.add_le_add_left ih _)

/-- A column of integers whose absolute values, with the running total, stay
below 2^63 is summed exactly. -/
theorem sumInts_map {α : Type} (sumReal : List SqlNumber → Double) (all : List SqlNumber)
    (g : α → Int) (l : List α) :
    ∀ acc : Int, acc.natAbs + (l.map (fun x => (g x).natAbs)).sum < 2 ^ 63 →
      sumInts sumReal all acc (l.map (fun x => SqlNumber.int (g x)))
        = some (.int (acc + (l.map g).sum)) := by
  induction l with
  | nil => intro acc _; simp [sumInts]
  | cons x rest ih =>
    intro acc h
    rw [List.map_cons, List.sum_cons] at h
    have hrange : -9223372036854775808 ≤ acc + g x ∧ acc + g x < 9223372036854775808 := by
      constructor <;> omega
    rw [List.map_cons, sumInts, if_pos hrange, ih (acc + g x) (by omega), List.map_cons,
      List.sum_cons, add_assoc]

theorem sqlSum_whole {α : Type} (sumReal : List SqlNumber → Double) (f : α → SqlNumber)
    (g : α → Int) (l : List α) (hf : ∀ x ∈ l, f x = .int (g x))
    (h : (l.map (fun x => (g x).natAbs)).sum < 2 ^ 53) :
    (sqlSum sumReal (l.map f)).map SqlNumber.toJS = some (Double.whole (l.map g).sum) := by
  have hmap : l.map f = l.map (fun x => SqlNumber.int (g x)) := List.map_congr_left hf
  have h63 : (0 : Int).natAbs + (l.map (fun x => (g x).natAbs)).sum < 2 ^ 63 := by
    have : (2 : Nat) ^ 53 ≤ 2 ^ 63 := Nat.pow_le_pow_right (by norm_num) (by norm_num)
    simp only [Int.natAbs_zero, Nat.zero_add]
    exact lt_of_lt_of_le h this
  rw [sqlSum, hmap, sumInts_map sumReal _ g l 0 h63, zero_add, Option.map_some',
    SqlNumber.toJS, ofInt_whole _ (lt_of_le_of_lt (natAbs_sum_le l g) h)]

theorem collect_map {α β : Type} (f : α → Option β) (g : α → β) (l : List α)
    (h : ∀ x ∈ l, f x = some (g x)) : collect (l.map f) = some (l.map g) := by
  induction l with
  | nil => rfl
  | cons a rest ih =>
    rw [List.map_cons, h a (List.mem_cons_self a rest), collect,
      ih (fun x hx => h x (List.mem_cons_of_mem a hx))]
    rfl

theorem absSum_le (amounts : String → Int) (g : TransactionListing → Int)
    (hg : ∀ x, (g x).natAbs ≤ (amounts x.row.amount).natAbs) (p : TransactionListing → Bool)
    (rows : List TransactionListing) :
    ((rows.filter p).map (fun x => (g x).natAbs)).sum ≤ absTotal amounts rows := by
  unfold absTotal
  induction rows with
  | nil => simp
  | cons x rest ih =>
    rw [List.map_cons, List.sum_cons]
    by_cases hp : p x = true
    · rw [List.filter_cons_of_pos hp, List.map_cons, List.sum_cons]
      have := hg x
      omega
    · rw [List.filter_cons_of_neg hp]
      omega

theorem incomeOf_abs (amounts : String → Int) (x : TransactionListing) :
    (incomeOf amounts x).natAbs ≤ (amounts x.row.amount).natAbs := by
  unfold incomeOf
  split_ifs <;> simp

theorem expenseOf_abs (amounts : String → Int) (x : TransactionListing) :
    (expenseOf amounts x).natAbs ≤ (amounts x.row.amount).natAbs := by
  unfold expenseOf
  split_ifs <;> simp

theorem balanceOf_abs (amounts : String → Int) (x : TransactionListing) :
    (balanceOf amounts x).natAbs ≤ (amounts x.row.amount).natAbs := by
  unfold balanceOf
  split_ifs <;> simp

theorem sum_ite_of_nodup {κ : Type} [DecidableEq κ] (ks : List κ) (a : κ) (c : Int)
    (hnd : ks.Nodup) (ha : a ∈ ks) :
    (ks.map (fun m => if a = m then c else 0)).sum = c := by
  induction ks with
  | nil => cases ha
  | cons m ms ih =>
    rw [List.nodup_cons] at hnd
    rw [List.map_cons, List.sum_cons]
    by_cases ham : a = m
    · have hzero : (ms.map (fun m => if a = m then c else 0)).sum = 0 := by
        apply List.sum_eq_zero
        intro y hy
        rw [List.mem_map] at hy
        obtain ⟨k, hk, rfl⟩ := hy
        have : a ≠ k := fun h => hnd.1 (ham ▸ h ▸ hk)
        rw [if_neg this]
      rw [if_pos ham, hzero, add_zero]
    · have hin : a ∈ ms := by
        rcases List.mem_cons.1 ha with h | h
        · exact absurd h ham
        · exact h
      rw [if_neg ham, ih hnd.2 hin, zero_add]

/-- Summing group by group gives the sum of all rows. -/
theorem sum_groups {α κ : Type} [DecidableEq κ] (l : List α) (k : α → κ) (f : α → Int)
    (p : κ → α → Bool) (hp : ∀ m x, p m x = true ↔ k x = m)
    (ks : List κ) (hnd : ks.Nodup) (hcov : ∀ x ∈ l, k x ∈ ks) :
    (ks.map (fun m => ((l.filter (p m)).map f).sum)).sum = (l.map f).sum := by
  induction l with
  | nil => simp
  | cons x rest ih =>
    have hstep : ∀ m, (((x :: rest).filter (p m)).map f).sum
        = (if k x = m then f x else 0) + ((rest.filter (p m)).map f).sum := by
      intro m
      by_cases hm : k x = m
      · rw [List.filter_cons_of_pos ((hp m x).2 hm), if_pos hm, List.map_cons, List.sum_cons]
      · rw [List.filter_cons_of_neg (fun h => hm ((hp m x).1 h)), if_neg hm, zero_add]
    simp only [hstep]
    rw [List.sum_map_add, ih (fun y hy => hcov y (List.mem_cons_of_mem x hy)),
      sum_ite_of_nodup ks (k x) (f x) hnd (hcov x (List.mem_cons_self x rest)),
      List.map_cons, List.sum_cons]

theorem sum_case (rows : List TransactionListing) (type : String) (amounts : String → Int) :
    (rows.map (fun x => if x.transaction_type = type then amounts x.row.amount else 0)).sum
      = ((rows.filter (fun x => x.transaction_type == type)).map
          (fun x => amounts x.row.amount)).sum := by
  induction rows with
  | nil => rfl
  | cons x rest ih =>
    rw [List.map_cons, List.sum_cons, ih]
    by_cases h : x.transaction_type = type
    · rw [if_pos h, List.filter_cons_of_pos (by simpa using h), List.map_cons, List.sum_cons]
    · rw [if_neg h, List.filter_cons_of_neg (by simpa using h), zero_add]

theorem sum_balanceOf (rows : List TransactionListing) (amounts : String → Int)
    (h : ∀ x ∈ rows, x.transaction_type = "income" ∨ x.transaction_type = "expense") :
    (rows.map (balanceOf amounts)).sum
      = (rows.map (incomeOf amounts)).sum - (rows.map (expenseOf amounts)).sum := by
  induction rows with
  | nil => rfl
  | cons x rest ih =>
    simp only [List.map_cons, List.sum_cons]
    rw [ih (fun y hy => h y (List.mem_cons_of_mem x hy))]
    have hx : balanceOf amounts x = incomeOf amounts x - expenseOf amounts x := by
      unfold balanceOf incomeOf expenseOf
      rcases h x (List.mem_cons_self x rest) with ht | ht
      · rw [ht, if_pos rfl, if_pos rfl, if_neg (by decide), sub_zero]
      · rw [ht, if_neg (by decide), if_neg (by decide), if_pos rfl, zero_sub]
    rw [hx]
    ring

/-- What the handler returns for whole-number amounts whose absolute values sum
to less than 2^53. -/
theorem financialSummary_whole (sumReal : List SqlNumber → Double)
    (amountOf negAmountOf : String → SqlNumber) (amounts : String → Int)
    (yearOf yearMonth : String → Option String) (clockYear : String) (year : Option String)
    (db : Db)
    (hwhole : ∀ x ∈ inYear yearOf (orElse year clockYear) db,
      amountOf x.row.amount = .int (amounts x.row.amount)
        ∧ negAmountOf x.row.amount = .int (-amounts x.row.amount))
    (hbound : absTotal amounts (inYear yearOf (orElse year clockYear) db) < 2 ^ 53) :
    financialSummary sumReal amountOf negAmountOf yearOf yearMonth clockYear year db
      = some
          { summary :=
              { total_income := Double.whole
                  ((inYear yearOf (orElse year clockYear) db).map (incomeOf amounts)).sum
                total_expense := Double.whole
                  ((inYear yearOf (orElse year clockYear) db).map (expenseOf amounts)).sum
                balance := Double.whole
                  ((inYear yearOf (orElse year clockYear) db).map (balanceOf amounts)).sum }
            monthly_breakdown :=
              sortDescBy (fun g => g.month.getD "")
                ((((inYear yearOf (orElse year clockYear) db).map
                    (fun x => yearMonth x.row.transaction_date)).dedup).map (fun m =>
                  { month := m
                    income := Double.whole
                      ((monthGroup yearMonth (inYear yearOf (orElse year clockYear) db) m).map
                        (incomeOf amounts)).sum
                    expense := Double.whole
                      ((monthGroup yearMonth (inYear yearOf (orElse year clockYear) db) m).map
                        (expenseOf amounts)).sum }))
            current_year := orElse year clockYear } := by
  generalize hrows : inYear yearOf (orElse year clockYear) db = rows at hwhole hbound
  have hI : ∀ x ∈ rows, caseIncome amountOf x = .int (incomeOf amounts x) := by
    intro x hx
    unfold caseIncome incomeOf
    split_ifs
    · exact (hwhole x hx).1
    · rfl
  have hE : ∀ x ∈ rows, caseExpense amountOf x = .int (expenseOf amounts x) := by
    intro x hx
    unfold caseExpense expenseOf
    split_ifs
    · exact (hwhole x hx).1
    · rfl
  have hB : ∀ x ∈ rows, caseBalance amountOf negAmountOf x = .int (balanceOf amounts x) := by
    intro x hx
    unfold caseBalance balanceOf
    split_ifs
    · exact (hwhole x hx).1
    · exact (hwhole x hx).2
  have hall : ∀ (f : TransactionListing → SqlNumber) (g : TransactionListing → Int),
      (∀ x ∈ rows, f x = .int (g x)) →
      (∀ x, (g x).natAbs ≤ (amounts x.row.amount).natAbs) →
      ∀ p : TransactionListing → Bool,
        (sqlSum sumReal ((rows.filter p).map f)).map SqlNumber.toJS
          = some (Double.whole ((rows.filter p).map g).sum) := by
    intro f g hf hg p
    apply sqlSum_whole sumReal f g (rows.filter p)
    · intro x hx
      exact hf x (List.mem_filter.1 hx).1
    · exact lt_of_le_of_lt (absSum_le amounts g hg p rows) hbound
  have hwholeSum : ∀ (f : TransactionListing → SqlNumber) (g : TransactionListing → Int),
      (∀ x ∈ rows, f x = .int (g x)) →
      (∀ x, (g x).natAbs ≤ (amounts x.row.amount).natAbs) →
      (sqlSum sumReal (rows.map f)).map SqlNumber.toJS = some (Double.whole (rows.map g).sum) := by
    intro f g hf hg
    have := hall f g hf hg (fun _ => true)
    rwa [List.filter_true] at this
  have hmonth : ∀ m ∈ (rows.map (fun x => yearMonth x.row.transaction_date)).dedup,
      monthRow sumReal amountOf yearMonth rows m
        = some { month := m
                 income := Double.whole ((monthGroup yearMonth rows m).map (incomeOf amounts)).sum
                 expense := Double.whole
                   ((monthGroup yearMonth rows m).map (expenseOf amounts)).sum } := by
    intro m _
    have h1 := hall _ _ hI (incomeOf_abs amounts) (fun x => yearMonth x.row.transaction_date == m)
    have h2 := hall _ _ hE (expenseOf_abs amounts)
      (fun x => yearMonth x.row.transaction_date == m)
    unfold monthRow monthGroup
    cases hs1 : sqlSum sumReal
        ((rows.filter (fun x => yearMonth x.row.transaction_date == m)).map
          (caseIncome amountOf)) with
    | none => rw [hs1] at h1; cases h1
    | some a =>
      cases hs2 : sqlSum sumReal
          ((rows.filter (fun x => yearMonth x.row.transaction_date == m)).map
            (caseExpense amountOf)) with
      | none => rw [hs2] at h2; cases h2
      | some b =>
        rw [hs1] at h1
        rw [hs2] at h2
        simp only [Option.map_some', Option.some.injEq] at h1 h2
        simp only [Option.some_bind, Option.map_some', h1, h2]
  have h1 := hwholeSum _ _ hI (incomeOf_abs amounts)
  have h2 := hwholeSum _ _ hE (expenseOf_abs amounts)
  have h3 := hwholeSum _ _ hB (balanceOf_abs amounts)
  unfold financialSummary
  simp only [hrows]
  cases hs1 : sqlSum sumReal (rows.map (caseIncome amountOf)) with
  | none => rw [hs1] at h1; cases h1
  | some a =>
    cases hs2 : sqlSum sumReal (rows.map (caseExpense amountOf)) with
    | none => rw [hs2] at h2; cases h2
    | some b =>
      cases hs3 : sqlSum sumReal (rows.map (caseBalance amountOf negAmountOf)) with
      | none => rw [hs3] at h3; cases h3
      | some c =>
        rw [hs1] at h1
        rw [hs2] at h2
        rw [hs3] at h3
        simp only [Option.map_some', Option.some.injEq] at h1 h2 h3
        simp only [Option.some_bind, collect_map _ _ _ hmonth, Option.map_some', h1, h2, h3]

/-- C28 (amended): when the stored transactions dated in the year asked for (the
current year when none is given) all have whole-number amounts whose absolute
values sum to less than 2^53, `GET /api/financial-summary` answers with exact
numbers: `total_income` and `total_expense` are the sums of the amounts of those
with an income and an expense category, `balance` is their difference when every
category is one of the two, all three are 0 and no month is listed when the year
has no transaction, and the incomes and the expenses of the monthly rows, one
row per month in descending order, add up to the totals. This holds whatever
way SQLite sums floating-point values. -/
theorem C28_financialSummary (sumReal : List SqlNumber → Double)
    (amountOf negAmountOf : String → SqlNumber) (amounts : String → Int)
    (yearOf yearMonth : String → Option String) (clockYear : String) (year : Option String)
    (db : Db)
    (hwhole : ∀ x ∈ inYear yearOf (orElse year clockYear) db,
      amountOf x.row.amount = .int (amounts x.row.amount)
        ∧ negAmountOf x.row.amount = .int (-amounts x.row.amount))
    (hbound : absTotal amounts (inYear yearOf (orElse year clockYear) db) < 2 ^ 53) :
    ∃ r, financialSummary sumReal amountOf negAmountOf yearOf yearMonth clockYear year db
        = some r
      ∧ r.current_year = orElse year clockYear
      ∧ (∀ x, x ∈ inYear yearOf r.current_year db
          ↔ x ∈ joinCategories db ∧ yearOf x.row.transaction_date = some r.current_year)
      ∧ r.summary.total_income
          = Double.whole (((inYear yearOf r.current_year db).filter
              (fun x => x.transaction_type == "income")).map
                (fun x => amounts x.row.amount)).sum
      ∧ r.summary.total_expense
          = Double.whole (((inYear yearOf r.current_year db).filter
              (fun x => x.transaction_type == "expense")).map
                (fun x => amounts x.row.amount)).sum
      ∧ ((∀ x ∈ inYear yearOf r.current_year db,
            x.transaction_type = "income" ∨ x.transaction_type = "expense") →
          r.summary.balance
            = Double.whole
                ((((inYear yearOf r.current_year db).filter
                    (fun x => x.transaction_type == "income")).map
                      (fun x => amounts x.row.amount)).sum
                  - (((inYear yearOf r.current_year db).filter
                      (fun x => x.transaction_type == "expense")).map
                        (fun x => amounts x.row.amount)).sum))
      ∧ (inYear yearOf r.current_year db = [] →
          r.summary = { total_income := Double.whole 0, total_expense := Double.whole 0
                        balance := Double.whole 0 }
            ∧ r.monthly_breakdown = [])
      ∧ (r.monthly_breakdown.map (fun g =>
            ((monthGroup yearMonth (inYear yearOf r.current_year db) g.month).map
              (incomeOf amounts)).sum)).sum
          = (((inYear yearOf r.current_year db).filter
              (fun x => x.transaction_type == "income")).map
                (fun x => amounts x.row.amount)).sum
      ∧ (r.monthly_breakdown.map (fun g =>
            ((monthGroup yearMonth (inYear yearOf r.current_year db) g.month).map
              (expenseOf amounts)).sum)).sum
          = (((inYear yearOf r.current_year db).filter
              (fun x => x.transaction_type == "expense")).map
                (fun x => amounts x.row.amount)).sum
      ∧ r.monthly_breakdown.Pairwise (fun a b => textLe (b.month.getD "") (a.month.getD ""))
      ∧ (r.monthly_breakdown.map (fun g => g.month)).Nodup
      ∧ (∀ g ∈ r.monthly_breakdown,
          (∃ x ∈ inYear yearOf r.current_year db, yearMonth x.row.transaction_date = g.month)
            ∧ g.income
                = Double.whole
                    ((monthGroup yearMonth (inYear yearOf r.current_year db) g.month).map
                      (incomeOf amounts)).sum
            ∧ g.expense
                = Double.whole
                    ((monthGroup yearMonth (inYear yearOf r.current_year db) g.month).map
                      (expenseOf amounts)).sum)
      ∧ (∀ a b : Int, Double.whole a = Double.whole b → a = b) := by
  refine ⟨_, financialSummary_whole sumReal amountOf negAmountOf amounts yearOf yearMonth
    clockYear year db hwhole hbound, rfl, ?_⟩
  simp only
  refine ⟨fun x => by rw [inYear, List.mem_filter, beq_iff_eq], ?_⟩
  generalize inYear yearOf (orElse year clockYear) db = rows
  have hnd : ((rows.map (fun x => yearMonth x.row.transaction_date)).dedup).Nodup :=
    List.nodup_dedup _
  have hcov : ∀ x ∈ rows, yearMonth x.row.transaction_date
      ∈ (rows.map (fun x => yearMonth x.row.transaction_date)).dedup :=
    fun x hx => List.mem_dedup.2 (List.mem_map_of_mem _ hx)
  have hperm := sortDescBy_perm (fun g : MonthRow => g.month.getD "")
    (((rows.map (fun x => yearMonth x.row.transaction_date)).dedup).map (fun m =>
      ({ month := m
         income := Double.whole ((monthGroup yearMonth rows m).map (incomeOf amounts)).sum
         expense := Double.whole ((monthGroup yearMonth rows m).map (expenseOf amounts)).sum }
        : MonthRow)))
  have hinc : (rows.map (incomeOf amounts)).sum
      = ((rows.filter (fun x => x.transaction_type == "income")).map
          (fun x => amounts x.row.amount)).sum := sum_case rows "income" amounts
  have hexp : (rows.map (expenseOf amounts)).sum
      = ((rows.filter (fun x => x.transaction_type == "expense")).map
          (fun x => amounts x.row.amount)).sum := sum_case rows "expense" amounts
  refine ⟨congrArg Double.whole hinc, congrArg Double.whole hexp, ?_, ?_, ?_, ?_,
    sortDescBy_sorted _ _, ?_, ?_, whole_injective⟩
  · intro htypes
    rw [sum_balanceOf rows amounts htypes, hinc, hexp]
  · intro h
    subst h
    exact ⟨rfl, rfl⟩
  · rw [(hperm.map _).sum_eq, List.map_map, ← hinc]
    exact sum_groups rows (fun x => yearMonth x.row.transaction_date) (incomeOf amounts)
      (fun m x => yearMonth x.row.transaction_date == m) (fun m x => beq_iff_eq) _ hnd hcov
  · rw [(hperm.map _).sum_eq, List.map_map, ← hexp]
    exact sum_groups rows (fun x => yearMonth x.row.transaction_date) (expenseOf amounts)
      (fun m x => yearMonth x.row.transaction_date == m) (fun m x => beq_iff_eq) _ hnd hcov
  · rw [(hperm.map _).nodup_iff, List.map_map]
    exact (List.map_id _).symm ▸ hnd
  · intro g hg
    rw [hperm.mem_iff, List.mem_map] at hg
    obtain ⟨m, hm, rfl⟩ := hg
    refine ⟨?_, rfl, rfl⟩
    rw [List.mem_dedup, List.mem_map] at hm
    exact hm

/-- C28 on the sample books: the year 2024 has one income and two expenses in two
months; the current year 2026, taken when no year is asked for, has none. -/
theorem C28_financialSummary_witness :
    financialSummary sequentialSum sampleAmountOf sampleNegAmountOf sampleYear sampleYearMonth
        "2026" (some "2024") sampleBooks
      = some
          { summary := { total_income := Double.whole 100000, total_expense := Double.whole 125000
                         balance := Double.whole (-25000) }
            monthly_breakdown :=
              [ { month := some "2024-07", income := Double.whole 100000
                  expense := Double.whole 0 },
                { month := some "2024-06", income := Double.whole 0
                  expense := Double.whole 125000 } ]
            current_year := "2024" }
    ∧ financialSummary sequentialSum sampleAmountOf sampleNegAmountOf sampleYear sampleYearMonth
        "2026" none sampleBooks
      = some
          { summary := { total_income := Double.whole 0, total_expense := Double.whole 0
                         balance := Double.whole 0 }
            monthly_breakdown := [], current_year := "2026" }
    ∧ ∃ r, financialSummary compensatedSum sampleAmountOf sampleNegAmountOf sampleYear
          sampleYearMonth "2026" (some "2024") sampleBooks = some r
        ∧ r.summary.total_income
            = Double.whole (((inYear sampleYear r.current_year sampleBooks).filter
                (fun x => x.transaction_type == "income")).map
                  (fun x => sampleAmount x.row.amount)).sum :=
  ⟨by decide, by decide,
    (C28_financialSummary compensatedSum sampleAmountOf sampleNegAmountOf sampleAmount sampleYear
      sampleYearMonth "2026" (some "2024") sampleBooks (by decide) (by decide)).imp
      (fun _ h => ⟨h.1, h.2.2.2.1⟩)⟩

/-- C28 as written fails. With an income of 0.1, an expense of 0.3 and an income
of 0.2 the three sums are separate floating-point sums: `balance` is 2^-55 while
`total_income` minus `total_expense` is 2^-54, whether the column is summed value
by value or with compensation. With the incomes 2^53 and 1 the exact integer sum
2^53 + 1 reaches JavaScript as the double 2^53. -/
theorem C28_counterexample :
    ((financialSummary sequentialSum sampleAmountOf sampleNegAmountOf sampleYear
        sampleYearMonth "2026" (some "2024") sampleFractions).map (fun r => r.summary)
      = some
          { total_income := Double.scaled 5404319552844596 1020
            total_expense := Double.scaled 5404319552844595 1020
            balance := Double.scaled 1 1019 }
      ∧ (financialSummary compensatedSum sampleAmountOf sampleNegAmountOf sampleYear
          sampleYearMonth "2026" (some "2024") sampleFractions).map (fun r => r.summary)
        = some
            { total_income := Double.scaled 5404319552844596 1020
              total_expense := Double.scaled 5404319552844595 1020
              balance := Double.scaled 1 1019 }
      ∧ Double.add (Double.scaled 5404319552844596 1020)
            (Double.scaled 5404319552844595 1020).neg
          = Double.scaled 1 1020
      ∧ Double.scaled 1 1019 ≠ Double.scaled 1 1020)
    ∧ ((financialSummary sequentialSum sampleAmountOf sampleNegAmountOf sampleYear
          sampleYearMonth "2026" (some "2024") sampleFortune).map
            (fun r => r.summary.total_income)
        = some (Double.whole 9007199254740992)
      ∧ sampleAmount "9007199254740992" + sampleAmount "1" = 9007199254740993
      ∧ Double.whole 9007199254740992 ≠ Double.whole 9007199254740993) := by
  decide

/-! ## Codes under creation and deletion -/

theorem lastNumber_append (pfx : String) (entries : List CodeEntry) (e : CodeEntry) :
    lastNumber pfx (entries ++ [e])
      = if e.pfx = pfx then e.number else lastNumber pfx entries := by
  simp [lastNumber, List.foldl_append]

theorem lastNumber_mem (pfx : String) (entries : List CodeEntry) :
    lastNumber pfx entries = 0
      ∨ ∃ e ∈ entries, e.pfx = pfx ∧ e.number = lastNumber pfx entries := by
  induction entries using List.reverseRecOn with
  | nil => exact Or.inl rfl
  | append_singleton rest e ih =>
    rw [lastNumber_append]
    by_cases he : e.pfx = pfx
    · rw [if_pos he]
      exact Or.inr ⟨e, List.mem_append_right _ (List.mem_singleton.2 rfl), he, rfl⟩
    · rw [if_neg he]
      rcases ih with h | ⟨x, hx, hxp, hxn⟩
      · exact Or.inl h
      · exact Or.inr ⟨x, List.mem_append_left _ hx, hxp, hxn⟩

/-- Code and number of the last entry of a prefix, for ordered entries. -/
theorem lastCode_entries (pfxs : List String) (hsep : Separated pfxs) (pfx : String)
    (hp : pfx ∈ pfxs) (entries : List CodeEntry) :
    (∀ e ∈ entries, e.pfx ∈ pfxs ∧ 1 ≤ e.number) →
    entries.Pairwise (fun a b => a.id < b.id ∧ (a.pfx = b.pfx → a.number < b.number)) →
    lastCode pfx (entries.map CodeEntry.code)
        = (if lastNumber pfx entries = 0 then none
           else some (formatId pfx (.int (Int.ofNat (lastNumber pfx entries)))))
      ∧ (∀ e ∈ entries, e.pfx = pfx → e.number ≤ lastNumber pfx entries) := by
  induction entries using List.reverseRecOn with
  | nil =>
    intro _ _
    refine ⟨rfl, ?_⟩
    intro e he
    cases he
  | append_singleton rest e ih =>
    intro hpfx hpw
    rw [List.pairwise_append] at hpw
    obtain ⟨hpw1, _, hpw2⟩ := hpw
    obtain ⟨ih1, ih2⟩ := ih (fun x hx => hpfx x (List.mem_append_left _ hx)) hpw1
    have hmem : e ∈ rest ++ [e] := List.mem_append_right _ (List.mem_singleton.2 rfl)
    have hlt : ∀ x ∈ rest.map CodeEntry.code, x.1 < e.id := by
      intro x hx
      rw [List.mem_map] at hx
      obtain ⟨y, hy, rfl⟩ := hx
      exact (hpw2 y hy e (List.mem_singleton.2 rfl)).1
    rw [lastNumber_append, List.map_append, List.map_singleton]
    by_cases he : e.pfx = pfx
    · rw [if_pos he]
      refine ⟨?_, ?_⟩
      · have hcode : e.code = (e.id, formatId pfx (.int (Int.ofNat e.number))) := by
          rw [CodeEntry.code, he]
        have h0 : e.number ≠ 0 := Nat.pos_iff_ne_zero.1 (hpfx e hmem).2
        rw [hcode, lastCode_append pfx _ _ _ hlt (likePrefix_formatId _ _), if_neg h0]
      · intro x hx hxp
        rcases List.mem_append.1 hx with h | h
        · exact Nat.le_of_lt ((hpw2 x h e (List.mem_singleton.2 rfl)).2 (hxp.trans he.symm))
        · rw [List.mem_singleton.1 h]
    · rw [if_neg he]
      have hno : likePrefix (pfx.data ++ ['-']) e.code.2.data = false :=
        hsep pfx hp e.pfx (hpfx e hmem).1 (fun h => he h.symm) e.number
      refine ⟨?_, ?_⟩
      · have hcode : e.code = (e.id, e.code.2) := rfl
        rw [hcode, lastCode_append_no_match pfx _ _ _ hno, ih1]
      · intro x hx hxp
        rcases List.mem_append.1 hx with h | h
        · exact ih2 x h hxp
        · rw [List.mem_singleton.1 h] at hxp
          exact absurd hxp he

/-- The next code of a prefix is the one numbered one more than its last entry. -/
theorem generateId_entries (pfxs : List String) (hsep : Separated pfxs)
    (hsub : ∀ p ∈ pfxs, p ∈ ["R", "INC", "EXP"]) (pfx : String) (hp : pfx ∈ pfxs)
    (entries : List CodeEntry) (hpfx : ∀ e ∈ entries, e.pfx ∈ pfxs ∧ 1 ≤ e.number)
    (hpw : entries.Pairwise
      (fun a b => a.id < b.id ∧ (a.pfx = b.pfx → a.number < b.number))) :
    generateId pfx (entries.map CodeEntry.code)
      = formatId pfx (.int (Int.ofNat (lastNumber pfx entries + 1))) := by
  unfold generateId
  rw [(lastCode_entries pfxs hsep pfx hp entries hpfx hpw).1]
  by_cases h0 : lastNumber pfx entries = 0
  · rw [if_pos h0, h0]
    rfl
  · rw [if_neg h0, newNumber_formatId (hsub pfx hp)]

theorem code_ne_of_pfx (pfxs : List String) (hsep : Separated pfxs) (p q : String)
    (hp : p ∈ pfxs) (hq : q ∈ pfxs) (hne : p ≠ q) (a b : Nat) :
    formatId p (.int (Int.ofNat a)) ≠ formatId q (.int (Int.ofNat b)) := by
  intro h
  have h1 := likePrefix_formatId p (.int (Int.ofNat a))
  rw [h, hsep p hp q hq hne b] at h1
  cases h1

/-- Creation keeps the codes ordered: the new code goes under a greater id. -/
theorem codesOrdered_append (pfxs : List String) (hsep : Separated pfxs)
    (hsub : ∀ p ∈ pfxs, p ∈ ["R", "INC", "EXP"]) (pfx : String) (hp : pfx ∈ pfxs)
    (bound : Nat) (codes : List (Nat × String)) (i : Nat) (h : CodesOrdered pfxs bound codes)
    (hlt : ∀ x ∈ codes, x.1 < i) :
    CodesOrdered pfxs (bound + 1) (codes ++ [(i, generateId pfx codes)]) := by
  obtain ⟨entries, rfl, hall, hpw⟩ := h
  have hpfx : ∀ e ∈ entries, e.pfx ∈ pfxs ∧ 1 ≤ e.number := fun e he =>
    ⟨(hall e he).1, (hall e he).2.1⟩
  have hle := (lastCode_entries pfxs hsep pfx hp entries hpfx hpw).2
  have hbound : lastNumber pfx entries ≤ bound := by
    rcases lastNumber_mem pfx entries with h0 | ⟨e, he, _, hn⟩
    · omega
    · rw [← hn]
      exact (hall e he).2.2
  refine ⟨entries ++ [{ id := i, pfx := pfx, number := lastNumber pfx entries + 1 }], ?_, ?_, ?_⟩
  · rw [List.map_append, List.map_singleton, generateId_entries pfxs hsep hsub pfx hp entries
      hpfx hpw]
    rfl
  · intro e he
    rcases List.mem_append.1 he with h | h
    · exact ⟨(hall e h).1, (hall e h).2.1, Nat.le_succ_of_le (hall e h).2.2⟩
    · rw [List.mem_singleton.1 h]
      exact ⟨hp, Nat.le_add_left 1 _, Nat.succ_le_succ hbound⟩
  · rw [List.pairwise_append]
    refine ⟨hpw, List.pairwise_singleton _ _, ?_⟩
    intro a ha b hb
    rw [List.mem_singleton.1 hb]
    refine ⟨hlt a.code (List.mem_map_of_mem _ ha), ?_⟩
    intro hap
    exact Nat.lt_succ_of_le (hle a ha hap)

/-- Deletion keeps the codes ordered. -/
theorem codesOrdered_filter (pfxs : List String) (bound : Nat) (codes : List (Nat × String))
    (d : Nat) (h : CodesOrdered pfxs bound codes) :
    CodesOrdered pfxs bound (codes.filter (fun x => x.1 != d)) := by
  obtain ⟨entries, rfl, hall, hpw⟩ := h
  refine ⟨entries.filter (fun e => e.id != d), ?_, ?_, ?_⟩
  · rw [List.filter_map]
    rfl
  · intro e he
    exact hall e (List.mem_filter.1 he).1
  · exact hpw.sublist (List.filter_sublist _)

theorem codesOrdered_mono (pfxs : List String) (bound bound' : Nat) (hb : bound ≤ bound')
    (codes : List (Nat × String)) (h : CodesOrdered pfxs bound codes) :
    CodesOrdered pfxs bound' codes := by
  obtain ⟨entries, hc, hall, hpw⟩ := h
  exact ⟨entries, hc, fun e he => ⟨(hall e he).1, (hall e he).2.1,
    Nat.le_trans (hall e he).2.2 hb⟩, hpw⟩

/-- With ordered codes the next code of each prefix is not stored, and no code is
stored twice. -/
theorem codesOrdered_fresh (pfxs : List String) (hsep : Separated pfxs)
    (hsub : ∀ p ∈ pfxs, p ∈ ["R", "INC", "EXP"]) (bound : Nat) (codes : List (Nat × String))
    (h : CodesOrdered pfxs bound codes) :
    (∀ pfx ∈ pfxs, generateId pfx codes ∉ codes.map (fun x => x.2))
      ∧ (codes.map (fun x => x.2)).Nodup := by
  obtain ⟨entries, rfl, hall, hpw⟩ := h
  have hpfx : ∀ e ∈ entries, e.pfx ∈ pfxs ∧ 1 ≤ e.number := fun e he =>
    ⟨(hall e he).1, (hall e he).2.1⟩
  constructor
  · intro pfx hp hmem
    rw [generateId_entries pfxs hsep hsub pfx hp entries hpfx hpw, List.map_map,
      List.mem_map] at hmem
    obtain ⟨e, he, hcode⟩ := hmem
    simp only [Function.comp, CodeEntry.code] at hcode
    by_cases hep : e.pfx = pfx
    · rw [hep] at hcode
      have hnum := formatId_injective pfx hcode
      have hle := (lastCode_entries pfxs hsep pfx hp entries hpfx hpw).2 e he hep
      omega
    · exact code_ne_of_pfx pfxs hsep e.pfx pfx (hall e he).1 hp hep _ _ hcode
  · rw [List.map_map]
    refine (List.pairwise_map.2 (hpw.imp_of_mem ?_))
    intro a b ha hb hab hcode
    simp only [Function.comp, CodeEntry.code] at hcode
    by_cases hpq : a.pfx = b.pfx
    · rw [hpq] at hcode
      have hnum := formatId_injective b.pfx hcode
      have := hab.2 hpq
      omega
    · exact code_ne_of_pfx pfxs hsep a.pfx b.pfx (hall a ha).1 (hall b hb).1 hpq _ _ hcode

theorem separated_R : Separated ["R"] := by
  intro p hp q hq hne
  rw [List.mem_singleton] at hp hq
  exact absurd (hp.trans hq.symm) hne

theorem separated_INC_EXP : Separated ["INC", "EXP"] := by
  intro p hp q hq hne k
  have hstart : ∀ pfx : String, (pfx.data ++ ['-']) <+: (formatId pfx (.int (Int.ofNat k))).data :=
    fun pfx => ⟨padStart 3 '0' (natToDecimal k), by rw [formatId_data]; simp⟩
  simp only [List.mem_cons, List.mem_singleton, List.not_mem_nil, or_false] at hp hq
  rcases hp with rfl | rfl <;> rcases hq with rfl | rfl
  · exact absurd rfl hne
  · exact not_like_INC_of_EXP (hstart "EXP")
  · exact not_like_EXP_of_INC (hstart "INC")
  · exact absurd rfl hne

theorem transactionCodes_lt (db : Db) :
    ∀ x ∈ db.transactionCodes, x.1 < db.transactions.nextId := by
  intro x hx
  simp only [Db.transactionCodes, List.mem_map] at hx
  obtain ⟨y, hy, rfl⟩ := hx
  exact Table.lt_nextId _ y hy

theorem deleteTransaction_db (pathJoin : String → String → String) (id : Nat) (db : Db)
    (files : Files) :
    (deleteTransaction pathJoin id db files).2.1 = db
      ∨ (deleteTransaction pathJoin id db files).2.1
          = { db with transactions := db.transactions.delete id } := by
  unfold deleteTransaction
  cases db.transactions.rows.find? (fun t => t.1 == id) with
  | none => exact Or.inl rfl
  | some t =>
    simp only
    split_ifs
    · exact Or.inr rfl
    · split <;> exact Or.inr rfl
    · exact Or.inr rfl

theorem createTransaction_residents (req : TransactionRequest) (db : Db) :
    (createTransaction req db).2.residents = db.residents := by
  unfold createTransaction
  cases db.categoryType req.category_id with
  | none => rfl
  | some type =>
    simp only
    split_ifs <;> rfl

/-- What a request does to the stored codes of residents and of transactions:
nothing, one generated code appended under a fresh id, or the row of one id
removed. -/
theorem apply_codes (pathJoin : String → String → String) (op : CodeOp) (db : Db) :
    ((op.apply pathJoin db).residentCodes = db.residentCodes
        ∨ (op.apply pathJoin db).residentCodes
            = db.residentCodes ++ [(db.residents.nextId, generateId "R" db.residentCodes)]
        ∨ ∃ d, (op.apply pathJoin db).residentCodes
            = db.residentCodes.filter (fun x => x.1 != d))
      ∧ ((op.apply pathJoin db).transactionCodes = db.transactionCodes
        ∨ (∃ pfx ∈ ["INC", "EXP"], (op.apply pathJoin db).transactionCodes
            = db.transactionCodes
                ++ [(db.transactions.nextId, generateId pfx db.transactionCodes)])
        ∨ ∃ d, (op.apply pathJoin db).transactionCodes
            = db.transactionCodes.filter (fun x => x.1 != d)) := by
  cases op with
  | intake clock req =>
    rcases createResident_cases clock req db with ⟨id, p, a, age, db', hres, _, hw⟩ | ⟨hsame, _⟩
    · obtain ⟨_, ⟨row, hrow, hins⟩, _, _, _, _, _, htx⟩ := residentWrites_some hw
      have hcodes := residentCodes_insert db db' row hins
      rw [hrow] at hcodes
      have happ : (CodeOp.intake clock req).apply pathJoin db = db' := by
        rw [CodeOp.apply, hres]
      rw [happ]
      exact ⟨Or.inr (Or.inl hcodes), Or.inl (by rw [Db.transactionCodes, htx]; rfl)⟩
    · have happ : (CodeOp.intake clock req).apply pathJoin db = db := by
        rw [CodeOp.apply, hsame]
      rw [happ]
      exact ⟨Or.inl rfl, Or.inl rfl⟩
  | removeResident id =>
    refine ⟨Or.inr (Or.inr ⟨id, ?_⟩), Or.inl rfl⟩
    simp only [CodeOp.apply, deleteResidentRow, Db.residentCodes, Table.delete, List.filter_map]
    rfl
  | donate req =>
    have hres : ((CodeOp.donate req).apply pathJoin db).residentCodes = db.residentCodes := by
      rw [CodeOp.apply, Db.residentCodes, createTransaction_residents]
      rfl
    refine ⟨Or.inl hres, ?_⟩
    cases hcat : db.categoryType req.category_id with
    | none =>
      rw [CodeOp.apply, createTransaction_invalid hcat]
      exact Or.inl rfl
    | some type =>
      rcases createTransaction_codes req db hcat with h | h
      · exact Or.inl h
      · refine Or.inr (Or.inl ⟨transactionPrefix type, ?_, h⟩)
        unfold transactionPrefix
        split_ifs <;> simp
  | removeTransaction id files =>
    refine ⟨?_, ?_⟩
    · rcases deleteTransaction_db pathJoin id db files with h | h
      · rw [CodeOp.apply, h]
        exact Or.inl rfl
      · rw [CodeOp.apply, h]
        exact Or.inl rfl
    · rcases deleteTransaction_db pathJoin id db files with h | h
      · rw [CodeOp.apply, h]
        exact Or.inl rfl
      · rw [CodeOp.apply, h]
        refine Or.inr (Or.inr ⟨id, ?_⟩)
        simp only [Db.transactionCodes, Table.delete, List.filter_map]
        rfl

theorem apply_ordered (pathJoin : String → String → String) (op : CodeOp) (db : Db)
    (bound : Nat) (hr : CodesOrdered ["R"] bound db.residentCodes)
    (ht : CodesOrdered ["INC", "EXP"] bound db.transactionCodes) :
    CodesOrdered ["R"] (bound + 1) (op.apply pathJoin db).residentCodes
      ∧ CodesOrdered ["INC", "EXP"] (bound + 1) (op.apply pathJoin db).transactionCodes := by
  obtain ⟨h1, h2⟩ := apply_codes pathJoin op db
  constructor
  · rcases h1 with h | h | ⟨d, h⟩
    · rw [h]
      exact codesOrdered_mono _ _ _ (Nat.le_succ _) _ hr
    · rw [h]
      exact codesOrdered_append ["R"] separated_R (by decide) "R" (by decide) bound _ _ hr
        (residentCodes_lt db)
    · rw [h]
      exact codesOrdered_mono _ _ _ (Nat.le_succ _) _ (codesOrdered_filter _ _ _ d hr)
  · rcases h2 with h | ⟨pfx, hp, h⟩ | ⟨d, h⟩
    · rw [h]
      exact codesOrdered_mono _ _ _ (Nat.le_succ _) _ ht
    · rw [h]
      exact codesOrdered_append ["INC", "EXP"] separated_INC_EXP (by decide) pfx hp bound _ _ ht
        (transactionCodes_lt db)
    · rw [h]
      exact codesOrdered_mono _ _ _ (Nat.le_succ _) _ (codesOrdered_filter _ _ _ d ht)

theorem runCodeOps_ordered (pathJoin : String → String → String) (ops : List CodeOp) :
    ∀ (db : Db) (bound : Nat), CodesOrdered ["R"] bound db.residentCodes →
      CodesOrdered ["INC", "EXP"] bound db.transactionCodes →
      CodesOrdered ["R"] (bound + ops.length) (runCodeOps pathJoin ops db).residentCodes
        ∧ CodesOrdered ["INC", "EXP"] (bound + ops.length)
            (runCodeOps pathJoin ops db).transactionCodes := by
  induction ops with
  | nil => intro db bound hr ht; exact ⟨hr, ht⟩
  | cons op rest ih =>
    intro db bound hr ht
    obtain ⟨hr1, ht1⟩ := apply_ordered pathJoin op db bound hr ht
    have := ih (op.apply pathJoin db) (bound + 1) hr1 ht1
    rw [List.length_cons, show bound + (rest.length + 1) = bound + 1 + rest.length by omega]
    exact this

/-- C30: in every store reached by resident creations, resident row deletions,
transaction creations and transaction deletions in any order (fewer than 2^53
requests) from a store without residents and transactions, the stored resident
codes are well-formed `R` codes whose numbers increase strictly in insertion
order, so the code generated for the next creation is none of the stored codes
and no code is stored twice; and likewise for the transaction codes within each
of the sequences `INC` and `EXP`. -/
theorem C30_codes_unique (pathJoin : String → String → String) (ops : List CodeOp) (db : Db)
    (hres : db.residents.rows = []) (htx : db.transactions.rows = [])
    (_hN : ops.length < 2 ^ 53) :
    CodesOrdered ["R"] ops.length (runCodeOps pathJoin ops db).residentCodes
      ∧ generateId "R" (runCodeOps pathJoin ops db).residentCodes
          ∉ (runCodeOps pathJoin ops db).residentCodes.map (fun x => x.2)
      ∧ ((runCodeOps pathJoin ops db).residentCodes.map (fun x => x.2)).Nodup
      ∧ CodesOrdered ["INC", "EXP"] ops.length (runCodeOps pathJoin ops db).transactionCodes
      ∧ generateId "INC" (runCodeOps pathJoin ops db).transactionCodes
          ∉ (runCodeOps pathJoin ops db).transactionCodes.map (fun x => x.2)
      ∧ generateId "EXP" (runCodeOps pathJoin ops db).transactionCodes
          ∉ (runCodeOps pathJoin ops db).transactionCodes.map (fun x => x.2)
      ∧ ((runCodeOps pathJoin ops db).transactionCodes.map (fun x => x.2)).Nodup := by
  have hempty : ∀ pfxs, CodesOrdered pfxs 0 ([] : List (Nat × String)) := fun pfxs =>
    ⟨[], rfl, fun e he => (by cases he), List.Pairwise.nil⟩
  have hr0 : CodesOrdered ["R"] 0 db.residentCodes := by
    rw [Db.residentCodes, hres]
    exact hempty _
  have ht0 : CodesOrdered ["INC", "EXP"] 0 db.transactionCodes := by
    rw [Db.transactionCodes, htx]
    exact hempty _
  obtain ⟨hr, ht⟩ := runCodeOps_ordered pathJoin ops db 0 hr0 ht0
  rw [Nat.zero_add] at hr ht
  have hfr := codesOrdered_fresh ["R"] separated_R (by decide) _ _ hr
  have hft := codesOrdered_fresh ["INC", "EXP"] separated_INC_EXP (by decide) _ _ ht
  exact ⟨hr, hfr.1 "R" (by decide), hfr.2, ht, hft.1 "INC" (by decide),
    hft.1 "EXP" (by decide), hft.2⟩

/-- C30 on a sample run: after the last resident is deleted its number is handed
out again under a new id, and deleting the first income transaction leaves the
later numbers in place; the next codes are none of the stored ones. -/
theorem C30_codes_unique_witness :
    (runCodeOps samplePathJoin sampleCodeOps sampleSeeded).residentCodes
        = [(1, "R-001"), (3, "R-002")]
    ∧ (runCodeOps samplePathJoin sampleCodeOps sampleSeeded).transactionCodes
        = [(2, "EXP-001"), (3, "INC-002"), (4, "INC-003")]
    ∧ generateId "R" (runCodeOps samplePathJoin sampleCodeOps sampleSeeded).residentCodes
        ∉ (runCodeOps samplePathJoin sampleCodeOps sampleSeeded).residentCodes.map
            (fun x => x.2)
    ∧ generateId "INC" (runCodeOps samplePathJoin sampleCodeOps sampleSeeded).transactionCodes
        = "INC-004" :=
  ⟨by decide, by decide,
    (C30_codes_unique samplePathJoin sampleCodeOps sampleSeeded rfl rfl (by decide)).2.1,
    by decide⟩

end AplikasiPanti
